import Mathlib

/-!
# SFML audio: synchronized playback of several sound sources; shader tables

A shallow embedding of `src/src/SFML/Audio/SoundSource.cpp` (the static
`SoundSource::synchronize` overloads, `SoundSource::synchronizeImpl`, the two
default hooks, `getStatus`, the attribute accessors, the two constructors, the
assignment operator and the filter members), of `SoundFilter::bind` and
`SoundFilter::unbind` of `src/src/SFML/Audio/SoundFilter.cpp`, and of the
members of `src/src/SFML/Graphics/Shader.cpp` that maintain the texture table
and the table of uniform locations, followed by theorems about them.

Modelling conventions

* The outside world (the OpenAL device, the playback threads of streaming
  sources, the clock) is a state of an arbitrary type `σ`.  Device entry points
  are the fields of `Device σ`; the virtual member functions of a source are the
  fields of `SoundSource σ`, so a subclass is a value with other hooks.
* `getStatus` is `const` and only reads the device, so it is a function
  `σ → Status`.  `isSynchronizedPlaybackReady` is `const` as well, but its answer
  is produced by another thread; it is given the type `σ → Bool × σ` so that the
  world may move on while it is polled.
* Every call the coordinator issues is appended to `Sys.trace`, oldest first.
  Hooks and device calls act on `Sys.world` only and never see the trace.
* The `while (!allReady)` loop need not terminate.  `waitAllReady` runs at most
  `fuel` passes and reports `Outcome.waiting` with the state reached when the
  loop is still running after them.
* `sources` / `sourceCount` is a list; `sourceCount` is its length.  The loop
  counters are `Uint32` and stay below `sourceCount`, so they never wrap.
* The members that talk to OpenAL take the entry points they call as an
  `OpenAL σ`.  Statements about what the device holds afterwards are made
  either under the hypothesis that the device returns what was written, or on
  `alStore`, a device that stores every write unchanged.
* A C++ `float` is a value of the type `float` below.  The two products in
  `setVolume` and `getVolume` are taken in a `FloatArith`; `binary32` is IEEE
  754 single precision, in which every product is rounded, and `exactArith` is
  arithmetic without rounding.
* The members of a shader take the OpenGL entry points as an `OpenGL γ` and
  append every call to `Gfx.calls`.  The two `std::map` members are association
  lists; `Shader.run` applies a finite sequence of calls to a shader.
-/

namespace sf

/-- Playback status of a source, `SoundSource::Status`. -/
inductive Status where
  | Stopped
  | Paused
  | Playing
deriving DecidableEq, Repr

/-- OpenAL unsigned handle type. -/
abbrev ALuint := Nat

/-- OpenAL size type, a signed 32-bit integer. -/
abbrev ALsizei := Int

/-- OpenAL signed integer type. -/
abbrev ALint := Int

/-- OpenAL enumeration type. -/
abbrev ALenum := Int

/-- Source parameter of `al.h`. -/
abbrev AL_SOURCE_RELATIVE : ALenum := 0x202

/-- Source parameter of `al.h`. -/
abbrev AL_PITCH : ALenum := 0x1003

/-- Source parameter of `al.h`. -/
abbrev AL_POSITION : ALenum := 0x1004

/-- Source parameter of `al.h`. -/
abbrev AL_BUFFER : ALenum := 0x1009

/-- Source parameter of `al.h`. -/
abbrev AL_GAIN : ALenum := 0x100A

/-- Source parameter of `al.h`. -/
abbrev AL_SOURCE_STATE : ALenum := 0x1010

/-- Source state of `al.h`. -/
abbrev AL_INITIAL : ALint := 0x1011

/-- Source state of `al.h`. -/
abbrev AL_PLAYING : ALint := 0x1012

/-- Source state of `al.h`. -/
abbrev AL_PAUSED : ALint := 0x1013

/-- Source state of `al.h`. -/
abbrev AL_STOPPED : ALint := 0x1014

/-- Source parameter of `al.h`. -/
abbrev AL_REFERENCE_DISTANCE : ALenum := 0x1020

/-- Source parameter of `al.h`. -/
abbrev AL_ROLLOFF_FACTOR : ALenum := 0x1021

/-- Source parameter of `efx.h`. -/
abbrev AL_DIRECT_FILTER : ALenum := 0x20005

/-- The null filter of `efx.h`. -/
abbrev AL_FILTER_NULL : ALint := 0x0000

/-! ### The C++ type `float`

A `float` is a sign and a magnitude, an infinity or a NaN; the magnitude of a
finite value is a rational that is not negative, so zero has a sign as in
IEEE 754.  The product of two floats and the value of a literal belong to the
C++ implementation, not to the repository: they are the fields of a
`FloatArith`.  `binary32` is the arithmetic of IEEE 754 single precision with
rounding to nearest, ties to even; `exactArith` is arithmetic without
rounding. -/

/-- A value of the C++ type `float`. -/
inductive float where
  | finite (negative : Bool) (magnitude : ℚ)
  | inf (negative : Bool)
  | nan
deriving DecidableEq, Repr

/-- OpenAL floating-point type. -/
abbrev ALfloat := float

/-- The position of the leading binary digit of `n`, by at most `fuel`
halvings. -/
def log2Fuel : Nat → Nat → Nat
  | 0, _ => 0
  | fuel + 1, n => if 2 ≤ n then log2Fuel fuel (n / 2) + 1 else 0

/-- The exponent of the power of two at or below a positive rational: the
largest `e` with `2 ^ e ≤ p`. -/
def floorLog2 (p : ℚ) : Int :=
  let e0 : Int := (log2Fuel p.num.natAbs p.num.natAbs : Int) - (log2Fuel p.den p.den : Int)
  if (2 : ℚ) ^ e0 ≤ p then e0 else e0 - 1

/-- Rounding of a rational that is not negative to the nearest natural number,
to the even one of two that are equally near. -/
def roundHalfEven (x : ℚ) : Nat :=
  let n := ⌊x⌋.toNat
  if x - n < 1 / 2 then n
  else if 1 / 2 < x - n then n + 1
  else if n % 2 = 0 then n else n + 1

/-- Rounding of a magnitude to IEEE 754 single precision, to nearest and ties
to even: 24 significant binary digits, no digit below `2 ^ (-149)`; `none` when
the rounded magnitude is `2 ^ 128` or more, which is an overflow. -/
def roundBinary32 (p : ℚ) : Option ℚ :=
  if p = 0 then some 0
  else
    let e := max (floorLog2 p - 23) (-149)
    let r := (roundHalfEven (p / 2 ^ e) : ℚ) * 2 ^ e
    if (2 : ℚ) ^ (128 : Int) ≤ r then none else some r

namespace float

/-- The product of two floats for a given rounding of magnitudes, with the
IEEE 754 rules for signs, zeros, infinities and NaN. -/
def mulWith (round : ℚ → Option ℚ) : float → float → float
  | nan, _ => nan
  | _, nan => nan
  | inf s, inf t => inf (xor s t)
  | inf s, finite t q => if q = 0 then nan else inf (xor s t)
  | finite s p, inf t => if p = 0 then nan else inf (xor s t)
  | finite s p, finite t q =>
    match round (p * q) with
    | some r => finite (xor s t) r
    | none => inf (xor s t)

/-- The value of a decimal literal that is not negative, for a given
rounding. -/
def literal (round : ℚ → Option ℚ) (q : ℚ) : float :=
  match round q with
  | some r => finite false r
  | none => inf false

end float

/-- The arithmetic of `float` that the members of a source use: the product,
and the values of the literals `0.01f` and `100.f`. -/
structure FloatArith where
  mul : float → float → float
  hundredth : float
  hundred : float

/-- IEEE 754 single precision. -/
def binary32 : FloatArith where
  mul := float.mulWith roundBinary32
  hundredth := float.literal roundBinary32 (1 / 100)
  hundred := float.literal roundBinary32 100

/-- Exact arithmetic: no product and no literal is rounded. -/
def exactArith : FloatArith where
  mul := float.mulWith some
  hundredth := float.literal some (1 / 100)
  hundred := float.literal some 100

/-- Modelled from the spec: `sf::Vector3f` (SFML/System/Vector3.hpp is not part
of the sources at hand), three `float` coordinates. -/
structure Vector3f where
  x : float
  y : float
  z : float
deriving DecidableEq, Repr

/-- A sound filter, `SoundFilter`: its OpenAL filter name. -/
structure SoundFilter where
  m_filter : Nat
deriving DecidableEq, Repr

/-- Modelled from the spec: `sf::Time` (SFML/System/Time.hpp is not part of the
sources at hand), a duration stored as a signed count of microseconds. -/
structure Time where
  microseconds : Int
deriving DecidableEq, Repr

/-- Modelled from the spec: `sf::Time::Zero`, the zero duration. -/
def Time.Zero : Time := ⟨0⟩

/-- Modelled from the spec: `sf::milliseconds`, a duration of `amount` ms. -/
def milliseconds (amount : Int) : Time := ⟨amount * 1000⟩

/-- The calls issued by the coordinator, where `i` is the index into `sources`,
followed by the calls issued by the other members of a source: the OpenAL
calls, reads with their result, and the calls of `SoundFilter::bind` and
`SoundFilter::unbind`. -/
inductive Event where
  | stop (i : Nat)
  | getStatus (i : Nat) (result : Status)
  | prepareSynchronizedPlayback (i : Nat) (timeOffset : Time)
  | isSynchronizedPlaybackReady (i : Nat) (result : Bool)
  | sleep (duration : Time)
  | alSourcePlayv (n : ALsizei) (ids : List ALuint)
  | alSourcePausev (n : ALsizei) (ids : List ALuint)
  | alGenSources (result : ALuint)
  | alSourcei (source : ALuint) (param : ALenum) (value : ALint)
  | alSourcef (source : ALuint) (param : ALenum) (value : ALfloat)
  | alSource3f (source : ALuint) (param : ALenum) (x y z : ALfloat)
  | alGetSourcei (source : ALuint) (param : ALenum) (result : ALint)
  | alGetSourcef (source : ALuint) (param : ALenum) (result : ALfloat)
  | alGetSource3f (source : ALuint) (param : ALenum) (result : ALfloat × ALfloat × ALfloat)
  | bind (filter : SoundFilter) (source : ALuint)
  | unbind (filter : SoundFilter) (source : ALuint)
deriving DecidableEq, Repr

/-- Device-level and system-level entry points used by the coordinator. -/
structure Device (σ : Type) where
  alSourcePlayv : ALsizei → List ALuint → σ → σ
  alSourcePausev : ALsizei → List ALuint → σ → σ
  sleep : Time → σ → σ

/-- A sound source as seen through a `SoundSource*`: its OpenAL handle, the
filter it is associated with (`none` for a null pointer) and its virtual member
functions. -/
structure SoundSource (σ : Type) where
  m_source : ALuint
  m_filter : Option SoundFilter := none
  stop : σ → σ
  getStatus : σ → Status
  prepareSynchronizedPlayback : Time → σ → σ
  isSynchronizedPlaybackReady : σ → Bool × σ

/-- The world together with the calls issued so far. -/
structure Sys (σ : Type) where
  world : σ
  trace : List Event

/-- Result of running a call that contains the readiness loop. -/
inductive Outcome (σ : Type) where
  | returned (s : Sys σ)
  | waiting (s : Sys σ)

variable {σ : Type}

/-- The state carried by an outcome. -/
def Outcome.sys : Outcome σ → Sys σ
  | Outcome.returned s => s
  | Outcome.waiting s => s

/-- Whether the call has returned. -/
def Outcome.hasReturned : Outcome σ → Bool
  | Outcome.returned _ => true
  | Outcome.waiting _ => false

/-- Put `tr` in front of the trace of a state. -/
def Sys.prepend (tr : List Event) (s : Sys σ) : Sys σ :=
  ⟨s.world, tr ++ s.trace⟩

/-- Put `tr` in front of the trace of an outcome. -/
def Outcome.prepend (tr : List Event) : Outcome σ → Outcome σ
  | Outcome.returned s => Outcome.returned (s.prepend tr)
  | Outcome.waiting s => Outcome.waiting (s.prepend tr)

/-- Conversion of a `std::size_t` to `ALsizei`: reduction to 32 bits, read as a
two's complement number. -/
def toALsizei (n : Nat) : ALsizei :=
  ((n : Int) + 2 ^ 31) % 2 ^ 32 - 2 ^ 31

namespace SoundSourceBase

/-- Base implementation `SoundSource::prepareSynchronizedPlayback`: nothing is
done. -/
def prepareSynchronizedPlayback (_timeOffset : Time) (w : σ) : σ := w

/-- Base implementation `SoundSource::isSynchronizedPlaybackReady`: always
ready. -/
def isSynchronizedPlaybackReady (w : σ) : Bool × σ := (true, w)

end SoundSourceBase

namespace SoundSource

/-- The loop `for i: sources[i]->stop()`, entered with counter `i`. -/
def stopLoop : List (SoundSource σ) → Nat → Sys σ → Sys σ
  | [], _, s => s
  | src :: rest, i, s =>
    stopLoop rest (i + 1) ⟨src.stop s.world, s.trace ++ [Event.stop i]⟩

/-- The loop `for i: sources[i]->prepareSynchronizedPlayback(timeOffset)`. -/
def prepareLoop (timeOffset : Time) : List (SoundSource σ) → Nat → Sys σ → Sys σ
  | [], _, s => s
  | src :: rest, i, s =>
    prepareLoop timeOffset rest (i + 1)
      ⟨src.prepareSynchronizedPlayback timeOffset s.world,
        s.trace ++ [Event.prepareSynchronizedPlayback i timeOffset]⟩

/-- One execution of the body of `while (!allReady)`: the inner `for` loop,
entered with counter `i`.  The Boolean is the value of `allReady` at the end of
the body. -/
def readinessPass (dev : Device σ) : List (SoundSource σ) → Nat → Sys σ → Bool × Sys σ
  | [], _, s => (true, s)
  | src :: rest, i, s =>
    let r := src.isSynchronizedPlaybackReady s.world
    let s1 : Sys σ := ⟨r.2, s.trace ++ [Event.isSynchronizedPlaybackReady i r.1]⟩
    if !r.1 then
      (false, ⟨dev.sleep (milliseconds 5) s1.world, s1.trace ++ [Event.sleep (milliseconds 5)]⟩)
    else
      readinessPass dev rest (i + 1) s1

/-- The loop `while (!allReady)`, limited to `fuel` passes. -/
def waitAllReady (dev : Device σ) (sources : List (SoundSource σ)) : Nat → Sys σ → Outcome σ
  | 0, s => Outcome.waiting s
  | fuel + 1, s =>
    match readinessPass dev sources 0 s with
    | (true, s1) => Outcome.returned s1
    | (false, s1) => waitAllReady dev sources fuel s1

/-- The loop `for i: sourceIDs[i] = sources[i]->m_source`. -/
def fillSourceIDs : List (SoundSource σ) → Nat → List ALuint → List ALuint
  | [], _, sourceIDs => sourceIDs
  | src :: rest, i, sourceIDs => fillSourceIDs rest (i + 1) (sourceIDs.set i src.m_source)

/-- `SoundSource::synchronizeImpl`. -/
def synchronizeImpl (dev : Device σ) (status : Status) (sources : List (SoundSource σ))
    (s : Sys σ) : Sys σ :=
  let sourceIDs := fillSourceIDs sources 0 (List.replicate sources.length 0)
  if status = Status.Playing then
    ⟨dev.alSourcePlayv (toALsizei sourceIDs.length) sourceIDs s.world,
      s.trace ++ [Event.alSourcePlayv (toALsizei sourceIDs.length) sourceIDs]⟩
  else
    ⟨dev.alSourcePausev (toALsizei sourceIDs.length) sourceIDs s.world,
      s.trace ++ [Event.alSourcePausev (toALsizei sourceIDs.length) sourceIDs]⟩

/-- `SoundSource::synchronize(Status, Time, SoundSource* const*, unsigned int)`,
with at most `fuel` passes of the readiness loop. -/
def synchronizeOffset (dev : Device σ) (fuel : Nat) (status : Status) (timeOffset : Time)
    (sources : List (SoundSource σ)) (s : Sys σ) : Outcome σ :=
  if status = Status.Stopped then
    Outcome.returned (stopLoop sources 0 s)
  else
    match waitAllReady dev sources fuel (prepareLoop timeOffset sources 0 s) with
    | Outcome.returned s1 => Outcome.returned (synchronizeImpl dev status sources s1)
    | Outcome.waiting s1 => Outcome.waiting s1

/-- The loop that looks for a stopped source, entered with counter `i`.  The
Boolean tells whether one was found. -/
def statusScan : List (SoundSource σ) → Nat → Sys σ → Bool × Sys σ
  | [], _, s => (false, s)
  | src :: rest, i, s =>
    let st := src.getStatus s.world
    let s1 : Sys σ := ⟨s.world, s.trace ++ [Event.getStatus i st]⟩
    if st = Status.Stopped then (true, s1) else statusScan rest (i + 1) s1

/-- `SoundSource::synchronize(Status, SoundSource* const*, unsigned int)`, with
at most `fuel` passes of the readiness loop of the overload it may call. -/
def synchronize (dev : Device σ) (fuel : Nat) (status : Status)
    (sources : List (SoundSource σ)) (s : Sys σ) : Outcome σ :=
  if status = Status.Stopped then
    Outcome.returned (stopLoop sources 0 s)
  else
    match statusScan sources 0 s with
    | (true, s1) => synchronizeOffset dev fuel status Time.Zero sources s1
    | (false, s1) => Outcome.returned (synchronizeImpl dev status sources s1)

end SoundSource

/-! ### Vocabulary for traces -/

/-- The handles of the sources, in list order. -/
def handles (sources : List (SoundSource σ)) : List ALuint :=
  sources.map (fun src => src.m_source)

/-- The calls `sources[k]->stop()` for `k = i, ..., i + n - 1`. -/
def stopEvents (i n : Nat) : List Event :=
  (List.range' i n).map Event.stop

/-- The calls `sources[k]->prepareSynchronizedPlayback(t)` for
`k = i, ..., i + n - 1`. -/
def prepareEvents (t : Time) (i n : Nat) : List Event :=
  (List.range' i n).map (fun k => Event.prepareSynchronizedPlayback k t)

/-- Readiness polls of the sources `i, ..., i + n - 1` that all answered
`true`. -/
def readyEvents (i n : Nat) : List Event :=
  (List.range' i n).map (fun k => Event.isSynchronizedPlaybackReady k true)

/-- A readiness pass that failed at source `k`: sources `0, ..., k - 1` answered
`true`, source `k` answered `false`, and one sleep of 5 ms followed. -/
def failedPass (k : Nat) : List Event :=
  readyEvents 0 k ++ [Event.isSynchronizedPlaybackReady k false, Event.sleep (milliseconds 5)]

/-- A sequence of failed readiness passes; `ks` lists where each one failed. -/
def failedPasses : List Nat → List Event
  | [] => []
  | k :: ks => failedPass k ++ failedPasses ks

/-- The status queries of all sources in world `w`, counter starting at `i`. -/
def statusEvents (w : σ) : List (SoundSource σ) → Nat → List Event
  | [], _ => []
  | src :: rest, i => Event.getStatus i (src.getStatus w) :: statusEvents w rest (i + 1)

/-- The batched device call for `status` on the handle list `ids`. -/
def batchedCall (status : Status) (ids : List ALuint) : Event :=
  if status = Status.Playing then Event.alSourcePlayv (toALsizei ids.length) ids
  else Event.alSourcePausev (toALsizei ids.length) ids

/-- The effect of the batched device call on the world. -/
def batchedEffect (dev : Device σ) (status : Status) (ids : List ALuint) (w : σ) : σ :=
  if status = Status.Playing then dev.alSourcePlayv (toALsizei ids.length) ids w
  else dev.alSourcePausev (toALsizei ids.length) ids w

/-- Device calls that change the playback status of a batch of handles. -/
def Event.isBatched : Event → Bool
  | Event.alSourcePlayv _ _ => true
  | Event.alSourcePausev _ _ => true
  | _ => false

/-- Calls of the prepare hook. -/
def Event.isPrepare : Event → Bool
  | Event.prepareSynchronizedPlayback _ _ => true
  | _ => false

/-- Calls of the readiness hook. -/
def Event.isPoll : Event → Bool
  | Event.isSynchronizedPlaybackReady _ _ => true
  | _ => false

/-- Calls of `sleep`. -/
def Event.isSleep : Event → Bool
  | Event.sleep _ => true
  | _ => false

/-- Status queries. -/
def Event.isStatusQuery : Event → Bool
  | Event.getStatus _ _ => true
  | _ => false

/-! ### A small concrete world, used to run the model -/

/-- A mixer: the handles that are playing, those that are paused (every other
handle is stopped), and the time slept so far in microseconds. -/
structure Mixer where
  playing : List ALuint
  paused : List ALuint
  elapsed : Int
deriving DecidableEq, Repr

/-- Status of handle `h` in the mixer. -/
def Mixer.status (w : Mixer) (h : ALuint) : Status :=
  if w.playing.contains h then Status.Playing
  else if w.paused.contains h then Status.Paused
  else Status.Stopped

/-- The device of the mixer: a batched play makes every listed handle play, a
batched pause pauses the listed handles that play, a negative count is an
error that changes nothing, and sleeping advances the clock. -/
def mixerDevice : Device Mixer where
  alSourcePlayv n ids w :=
    if n < 0 then w
    else { w with
      playing := w.playing ++ (ids.take n.toNat).filter (fun h => !w.playing.contains h)
      paused := w.paused.filter (fun h => !(ids.take n.toNat).contains h) }
  alSourcePausev n ids w :=
    if n < 0 then w
    else { w with
      playing := w.playing.filter (fun h => !(ids.take n.toNat).contains h)
      paused := w.paused ++ (w.playing.filter (fun h => (ids.take n.toNat).contains h)) }
  sleep t w := { w with elapsed := w.elapsed + t.microseconds }

/-- A source of the mixer that keeps the two default hooks. -/
def plainSource (h : ALuint) : SoundSource Mixer where
  m_source := h
  stop w := { w with playing := w.playing.filter (fun x => x != h)
                     paused := w.paused.filter (fun x => x != h) }
  getStatus w := w.status h
  prepareSynchronizedPlayback := SoundSourceBase.prepareSynchronizedPlayback
  isSynchronizedPlaybackReady := SoundSourceBase.isSynchronizedPlaybackReady

/-- A streaming source of the mixer: it is ready once `readyAt` microseconds
have elapsed. -/
def streamSource (h : ALuint) (readyAt : Int) : SoundSource Mixer where
  m_source := h
  stop w := { w with playing := w.playing.filter (fun x => x != h)
                     paused := w.paused.filter (fun x => x != h) }
  getStatus w := w.status h
  prepareSynchronizedPlayback _ w := w
  isSynchronizedPlaybackReady w := (decide (readyAt ≤ w.elapsed), w)

/-- A source of the mixer whose readiness hook never answers `true`. -/
def stalledSource (h : ALuint) : SoundSource Mixer where
  m_source := h
  stop w := { w with playing := w.playing.filter (fun x => x != h)
                     paused := w.paused.filter (fun x => x != h) }
  getStatus w := w.status h
  prepareSynchronizedPlayback _ w := w
  isSynchronizedPlaybackReady w := (false, w)

/-- Index of the first source whose status is `Stopped` in world `w` (the length
of the list when there is none). -/
def firstStopped (w : σ) (sources : List (SoundSource σ)) : Nat :=
  sources.findIdx (fun src => decide (src.getStatus w = Status.Stopped))

/-- Three sources of the mixer; the second one streams and is ready after 7 ms. -/
def trio : List (SoundSource Mixer) :=
  [plainSource 1, streamSource 2 7000, plainSource 3]

/-- Three sources of the mixer with the default hooks. -/
def plainTrio : List (SoundSource Mixer) :=
  [plainSource 1, plainSource 2, plainSource 3]

/-- Handles 1 and 2 play, every other handle is stopped, nothing was issued. -/
def twoPlaying : Sys Mixer :=
  ⟨⟨[1, 2], [], 0⟩, []⟩

/-- An offset of ten seconds. -/
def tenSeconds : Time := ⟨10000000⟩

/-- Handle 1 plays, handles 2 and 3 are stopped. -/
def onePlaying : Sys Mixer :=
  ⟨⟨[1], [], 0⟩, []⟩

/-- Handles 1 and 2 are paused, nothing plays. -/
def twoPaused : Sys Mixer :=
  ⟨⟨[], [1, 2], 0⟩, []⟩

/-- Two sources of the mixer with the default hooks. -/
def plainPair : List (SoundSource Mixer) :=
  [plainSource 1, plainSource 2]

/-- Handle 1 is paused and handle 2 plays. -/
def pausedAndPlaying : Sys Mixer :=
  ⟨⟨[2], [1], 0⟩, []⟩

/-- A source with the default hooks followed by a streaming source that is
ready after 3 ms. -/
def plainAndStream : List (SoundSource Mixer) :=
  [plainSource 1, streamSource 2 3000]

/-- A source with the default hooks followed by one that is never ready. -/
def plainAndStalled : List (SoundSource Mixer) :=
  [plainSource 1, stalledSource 2]

/-! ### The members of a source that talk to OpenAL

The members below are translated from `SoundSource.cpp` and `SoundFilter.cpp`.
OpenAL itself is outside the repository: its entry points are the fields of
`OpenAL σ`, reads being functions of the world.  The members that multiply
floats take the arithmetic as a `FloatArith`.  Every OpenAL call is appended to
the trace, reads with their result, and so is every entry into
`SoundFilter::bind` and `SoundFilter::unbind`. -/

/-- The OpenAL entry points used by the members of a source. -/
structure OpenAL (σ : Type) where
  alGenSources : σ → ALuint × σ
  alSourcei : ALuint → ALenum → ALint → σ → σ
  alSourcef : ALuint → ALenum → ALfloat → σ → σ
  alSource3f : ALuint → ALenum → ALfloat → ALfloat → ALfloat → σ → σ
  alGetSourcei : ALuint → ALenum → σ → ALint
  alGetSourcef : ALuint → ALenum → σ → ALfloat
  alGetSource3f : ALuint → ALenum → σ → ALfloat × ALfloat × ALfloat

/-- Conversion of an `unsigned int` to `ALint`: the same 32 bits read as a
two's complement number. -/
def toALint (n : Nat) : ALint :=
  ((n : Int) + 2 ^ 31) % 2 ^ 32 - 2 ^ 31

namespace alCheck

/-- Modelled from the spec: `alCheck(alGenSources(1, &name))`.  The macro
`alCheck` (SFML/Audio/ALCheck.hpp is not part of the sources at hand) evaluates
the call; failures are left to the device layer. -/
def alGenSources (al : OpenAL σ) (s : Sys σ) : ALuint × Sys σ :=
  ((al.alGenSources s.world).1,
    ⟨(al.alGenSources s.world).2, s.trace ++ [Event.alGenSources (al.alGenSources s.world).1]⟩)

/-- The call `alCheck(alSourcei(source, param, value))`. -/
def alSourcei (al : OpenAL σ) (source : ALuint) (param : ALenum) (value : ALint)
    (s : Sys σ) : Sys σ :=
  ⟨al.alSourcei source param value s.world, s.trace ++ [Event.alSourcei source param value]⟩

/-- The call `alCheck(alSourcef(source, param, value))`. -/
def alSourcef (al : OpenAL σ) (source : ALuint) (param : ALenum) (value : ALfloat)
    (s : Sys σ) : Sys σ :=
  ⟨al.alSourcef source param value s.world, s.trace ++ [Event.alSourcef source param value]⟩

/-- The call `alCheck(alSource3f(source, param, x, y, z))`. -/
def alSource3f (al : OpenAL σ) (source : ALuint) (param : ALenum) (x y z : ALfloat)
    (s : Sys σ) : Sys σ :=
  ⟨al.alSource3f source param x y z s.world,
    s.trace ++ [Event.alSource3f source param x y z]⟩

/-- The call `alCheck(alGetSourcei(source, param, &value))`. -/
def alGetSourcei (al : OpenAL σ) (source : ALuint) (param : ALenum) (s : Sys σ) :
    ALint × Sys σ :=
  (al.alGetSourcei source param s.world,
    ⟨s.world, s.trace ++ [Event.alGetSourcei source param (al.alGetSourcei source param s.world)]⟩)

/-- The call `alCheck(alGetSourcef(source, param, &value))`. -/
def alGetSourcef (al : OpenAL σ) (source : ALuint) (param : ALenum) (s : Sys σ) :
    ALfloat × Sys σ :=
  (al.alGetSourcef source param s.world,
    ⟨s.world, s.trace ++ [Event.alGetSourcef source param (al.alGetSourcef source param s.world)]⟩)

/-- The call `alCheck(alGetSource3f(source, param, &x, &y, &z))`. -/
def alGetSource3f (al : OpenAL σ) (source : ALuint) (param : ALenum) (s : Sys σ) :
    (ALfloat × ALfloat × ALfloat) × Sys σ :=
  (al.alGetSource3f source param s.world,
    ⟨s.world,
      s.trace ++ [Event.alGetSource3f source param (al.alGetSource3f source param s.world)]⟩)

end alCheck

namespace SoundFilter

/-- `SoundFilter::bind`. -/
def bind (al : OpenAL σ) (self : SoundFilter) (source : ALuint) (s : Sys σ) : Sys σ :=
  alCheck.alSourcei al source AL_DIRECT_FILTER (toALint self.m_filter)
    ⟨s.world, s.trace ++ [Event.bind self source]⟩

/-- `SoundFilter::unbind`. -/
def unbind (al : OpenAL σ) (self : SoundFilter) (source : ALuint) (s : Sys σ) : Sys σ :=
  alCheck.alSourcei al source AL_DIRECT_FILTER AL_FILTER_NULL
    ⟨s.world, s.trace ++ [Event.unbind self source]⟩

end SoundFilter

namespace SoundSourceBase

/-- Base implementation `SoundSource::getStatus`. -/
def getStatus (al : OpenAL σ) (self : SoundSource σ) (s : Sys σ) : Status × Sys σ :=
  let r := alCheck.alGetSourcei al self.m_source AL_SOURCE_STATE s
  let status := r.1
  if status = AL_INITIAL ∨ status = AL_STOPPED then (Status.Stopped, r.2)
  else if status = AL_PAUSED then (Status.Paused, r.2)
  else if status = AL_PLAYING then (Status.Playing, r.2)
  else (Status.Stopped, r.2)

end SoundSourceBase

namespace SoundSource

/-- `SoundSource::setPitch`. -/
def setPitch (al : OpenAL σ) (self : SoundSource σ) (pitch : float) (s : Sys σ) : Sys σ :=
  alCheck.alSourcef al self.m_source AL_PITCH pitch s

/-- `SoundSource::setVolume`: the gain written is the float product
`volume * 0.01f`. -/
def setVolume (fl : FloatArith) (al : OpenAL σ) (self : SoundSource σ) (volume : float)
    (s : Sys σ) : Sys σ :=
  alCheck.alSourcef al self.m_source AL_GAIN (fl.mul volume fl.hundredth) s

/-- `SoundSource::setPosition(float, float, float)`. -/
def setPositionXYZ (al : OpenAL σ) (self : SoundSource σ) (x y z : float) (s : Sys σ) :
    Sys σ :=
  alCheck.alSource3f al self.m_source AL_POSITION x y z s

/-- `SoundSource::setPosition(const Vector3f&)`. -/
def setPosition (al : OpenAL σ) (self : SoundSource σ) (position : Vector3f) (s : Sys σ) :
    Sys σ :=
  setPositionXYZ al self position.x position.y position.z s

/-- `SoundSource::setRelativeToListener`; the `bool` is passed as 0 or 1. -/
def setRelativeToListener (al : OpenAL σ) (self : SoundSource σ) (relative : Bool)
    (s : Sys σ) : Sys σ :=
  alCheck.alSourcei al self.m_source AL_SOURCE_RELATIVE (if relative then 1 else 0) s

/-- `SoundSource::setMinDistance`. -/
def setMinDistance (al : OpenAL σ) (self : SoundSource σ) (distance : float) (s : Sys σ) :
    Sys σ :=
  alCheck.alSourcef al self.m_source AL_REFERENCE_DISTANCE distance s

/-- `SoundSource::setAttenuation`. -/
def setAttenuation (al : OpenAL σ) (self : SoundSource σ) (attenuation : float)
    (s : Sys σ) :
    Sys σ :=
  alCheck.alSourcef al self.m_source AL_ROLLOFF_FACTOR attenuation s

/-- `SoundSource::getPitch`. -/
def getPitch (al : OpenAL σ) (self : SoundSource σ) (s : Sys σ) : float × Sys σ :=
  alCheck.alGetSourcef al self.m_source AL_PITCH s

/-- `SoundSource::getVolume`: the value returned is the float product
`gain * 100.f`. -/
def getVolume (fl : FloatArith) (al : OpenAL σ) (self : SoundSource σ) (s : Sys σ) :
    float × Sys σ :=
  let r := alCheck.alGetSourcef al self.m_source AL_GAIN s
  (fl.mul r.1 fl.hundred, r.2)

/-- `SoundSource::getPosition`. -/
def getPosition (al : OpenAL σ) (self : SoundSource σ) (s : Sys σ) : Vector3f × Sys σ :=
  let r := alCheck.alGetSource3f al self.m_source AL_POSITION s
  (⟨r.1.1, r.1.2.1, r.1.2.2⟩, r.2)

/-- `SoundSource::isRelativeToListener`. -/
def isRelativeToListener (al : OpenAL σ) (self : SoundSource σ) (s : Sys σ) : Bool × Sys σ :=
  let r := alCheck.alGetSourcei al self.m_source AL_SOURCE_RELATIVE s
  (decide (r.1 ≠ 0), r.2)

/-- `SoundSource::getMinDistance`. -/
def getMinDistance (al : OpenAL σ) (self : SoundSource σ) (s : Sys σ) : float × Sys σ :=
  alCheck.alGetSourcef al self.m_source AL_REFERENCE_DISTANCE s

/-- `SoundSource::getAttenuation`. -/
def getAttenuation (al : OpenAL σ) (self : SoundSource σ) (s : Sys σ) : float × Sys σ :=
  alCheck.alGetSourcef al self.m_source AL_ROLLOFF_FACTOR s

/-- The six statements `setX(other.getX())` shared by the copy constructor and
the assignment operator. -/
def copyAttributes (fl : FloatArith) (al : OpenAL σ) (self other : SoundSource σ)
    (s : Sys σ) : Sys σ :=
  let r1 := getPitch al other s
  let s1 := setPitch al self r1.1 r1.2
  let r2 := getVolume fl al other s1
  let s2 := setVolume fl al self r2.1 r2.2
  let r3 := getPosition al other s2
  let s3 := setPosition al self r3.1 r3.2
  let r4 := isRelativeToListener al other s3
  let s4 := setRelativeToListener al self r4.1 r4.2
  let r5 := getMinDistance al other s4
  let s5 := setMinDistance al self r5.1 r5.2
  let r6 := getAttenuation al other s5
  setAttenuation al self r6.1 r6.2

/-- The copy constructor `SoundSource::SoundSource(const SoundSource&)`.  `self`
is the object under construction: its hooks are those of its class, and its
data members hold whatever the storage held, since nothing has been assigned to
them yet. -/
def copyConstruct (fl : FloatArith) (al : OpenAL σ) (self copy : SoundSource σ)
    (s : Sys σ) : SoundSource σ × Sys σ :=
  let r := alCheck.alGenSources al s
  let self1 : SoundSource σ := { self with m_source := r.1 }
  let s1 := alCheck.alSourcei al self1.m_source AL_BUFFER 0 r.2
  (self1, copyAttributes fl al self1 copy s1)

/-- The assignment `SoundSource::operator =`. -/
def assign (fl : FloatArith) (al : OpenAL σ) (self right : SoundSource σ) (s : Sys σ) :
    SoundSource σ × Sys σ :=
  (self, copyAttributes fl al self right s)

/-- `SoundSource::setFilter`. -/
def setFilter (al : OpenAL σ) (self : SoundSource σ) (filter : Option SoundFilter)
    (s : Sys σ) : SoundSource σ × Sys σ :=
  let s1 :=
    match self.m_filter with
    | some f => f.unbind al self.m_source s
    | none => s
  let self1 : SoundSource σ := { self with m_filter := filter }
  let s2 :=
    match self1.m_filter with
    | some f => f.bind al self1.m_source s1
    | none => s1
  (self1, s2)

/-- `SoundSource::getFilter`. -/
def getFilter (self : SoundSource σ) : Option SoundFilter :=
  self.m_filter

end SoundSource

/-! ### A store as OpenAL device -/

/-- A device that keeps what it is given: the integer, float and vector
attributes of every source name, and the number of names generated so far. -/
structure ALStore where
  intAttr : ALuint → ALenum → ALint
  floatAttr : ALuint → ALenum → ALfloat
  vecAttr : ALuint → ALenum → ALfloat × ALfloat × ALfloat
  generated : Nat

/-- The entry points of the store: a write replaces the attribute of the named
source and nothing else, a read returns it, a new name is the next unused
number. -/
def alStore : OpenAL ALStore where
  alGenSources d := (d.generated + 1, { d with generated := d.generated + 1 })
  alSourcei source param value d :=
    { d with intAttr := fun h p => if h = source ∧ p = param then value else d.intAttr h p }
  alSourcef source param value d :=
    { d with floatAttr := fun h p => if h = source ∧ p = param then value else d.floatAttr h p }
  alSource3f source param x y z d :=
    { d with vecAttr := fun h p => if h = source ∧ p = param then (x, y, z) else d.vecAttr h p }
  alGetSourcei source param d := d.intAttr source param
  alGetSourcef source param d := d.floatAttr source param
  alGetSource3f source param d := d.vecAttr source param

/-- A source object of the store with handle `h` and filter association `f`; its
hooks are not used by the members above. -/
def storeSource (h : ALuint) (f : Option SoundFilter) : SoundSource ALStore where
  m_source := h
  m_filter := f
  stop d := d
  getStatus _ := Status.Stopped
  prepareSynchronizedPlayback := SoundSourceBase.prepareSynchronizedPlayback
  isSynchronizedPlaybackReady := SoundSourceBase.isSynchronizedPlaybackReady

/-- A store with two generated sources: source 1 plays with gain 1/2 and pitch
2, source 2 is in its initial state; every other attribute of every name is
zero. -/
def demoStore : ALStore where
  intAttr h p := if h = 1 ∧ p = AL_SOURCE_STATE then AL_PLAYING
    else if h = 2 ∧ p = AL_SOURCE_STATE then AL_INITIAL else 0
  floatAttr h p :=
    if h = 1 ∧ p = AL_GAIN then float.finite false (1 / 2)
    else if h = 1 ∧ p = AL_PITCH then float.finite false 2
    else float.finite false 0
  vecAttr _ _ := (float.finite false 0, float.finite false 0, float.finite false 0)
  generated := 2

/-- The store `demoStore` with the gain of source 1 set to `0.1f`, which is
13421773/134217728. -/
def tenthStore : ALStore :=
  alStore.alSourcef 1 AL_GAIN (float.finite false (13421773 / 134217728)) demoStore

/-- The status a device state stands for, in the words of the specification:
`paused` is `Paused`, `playing` is `Playing`, and `initial`, `stopped` and
every other value are `Stopped`. -/
def normalizedStatus (state : ALint) : Status :=
  if state = AL_PAUSED then Status.Paused
  else if state = AL_PLAYING then Status.Playing
  else Status.Stopped

/-- Calls of `SoundFilter::bind` and `SoundFilter::unbind`. -/
def Event.isFilterCall : Event → Bool
  | Event.bind _ _ => true
  | Event.unbind _ _ => true
  | _ => false

/-- The store `demoStore` after filter 7 has been bound to source 1. -/
def boundStore : ALStore :=
  alStore.alSourcei 1 AL_DIRECT_FILTER 7 demoStore

/-- The calls of the six statements `setX(other.getX())` that copy the
attributes of source `b` to source `a`, for given values returned by the
reads. -/
def copyEvents (fl : FloatArith) (a b : ALuint) (pitch gain : float)
    (position : float × float × float) (relative : ALint) (distance attenuation : float) :
    List Event :=
  [Event.alGetSourcef b AL_PITCH pitch,
    Event.alSourcef a AL_PITCH pitch,
    Event.alGetSourcef b AL_GAIN gain,
    Event.alSourcef a AL_GAIN (fl.mul (fl.mul gain fl.hundred) fl.hundredth),
    Event.alGetSource3f b AL_POSITION position,
    Event.alSource3f a AL_POSITION position.1 position.2.1 position.2.2,
    Event.alGetSourcei b AL_SOURCE_RELATIVE relative,
    Event.alSourcei a AL_SOURCE_RELATIVE (if decide (relative ≠ 0) = true then 1 else 0),
    Event.alGetSourcef b AL_REFERENCE_DISTANCE distance,
    Event.alSourcef a AL_REFERENCE_DISTANCE distance,
    Event.alGetSourcef b AL_ROLLOFF_FACTOR attenuation,
    Event.alSourcef a AL_ROLLOFF_FACTOR attenuation]

/-- Readiness polls that answered `false`. -/
def Event.isFalsePoll : Event → Bool
  | Event.isSynchronizedPlaybackReady _ false => true
  | _ => false

/-- The calls a coordinator can issue: hook calls, status queries, sleeps and
the two batched device calls.  The OpenAL calls of the other members
(`alGenSources`, attribute reads and writes) and the filter calls are not among
them. -/
def Event.isCoordinatorCall : Event → Bool
  | Event.stop _ => true
  | Event.getStatus _ _ => true
  | Event.prepareSynchronizedPlayback _ _ => true
  | Event.isSynchronizedPlaybackReady _ _ => true
  | Event.sleep _ => true
  | Event.alSourcePlayv _ _ => true
  | Event.alSourcePausev _ _ => true
  | _ => false

namespace SoundSource

/-- The default constructor `SoundSource::SoundSource()`: the member
initialisers `m_source(0)` and `m_filter(NULL)`, then the body.  `self` is the
object under construction. -/
def construct (al : OpenAL σ) (self : SoundSource σ) (s : Sys σ) : SoundSource σ × Sys σ :=
  let self0 : SoundSource σ := { self with m_source := 0, m_filter := none }
  let r := alCheck.alGenSources al s
  let self1 : SoundSource σ := { self0 with m_source := r.1 }
  (self1, alCheck.alSourcei al self1.m_source AL_BUFFER 0 r.2)

/-- A finite sequence of `setFilter` calls on one source, first call first. -/
def setFilters (al : OpenAL σ) :
    SoundSource σ → List (Option SoundFilter) → Sys σ → SoundSource σ × Sys σ
  | self, [], s => (self, s)
  | self, f :: fs, s =>
    setFilters al (setFilter al self f s).1 fs (setFilter al self f s).2

end SoundSource

/-- The direct-filter slot a device should hold for a filter association: the
null filter for no filter, else the name of the filter as passed to
`alSourcei`. -/
def slotFor : Option SoundFilter → ALint
  | none => AL_FILTER_NULL
  | some f => toALint f.m_filter

/-! ### Shaders

`Shader::getUniformLocation`, `Shader::setUniformSampler2D` (both overloads),
`Shader::setUniformImpl`, `Shader::compile` and `Shader::bindTextures` of
`src/src/SFML/Graphics/Shader.cpp` (the branch without `SFML_OPENGL_ES`).
OpenGL is outside the repository: its entry points are the fields of
`OpenGL γ`, and every call is appended to `Gfx.calls`.  The function-local
statics behind `Shader::isAvailable()` and `getMaxTextureUnits()` are computed
once and constant afterwards; they are the fields of `ShaderEnv`.  Messages
written to `sf::err()` are not modelled. -/

/-- OpenGL signed integer type. -/
abbrev GLint := Int

/-- OpenGL enumeration type. -/
abbrev GLenum := Int

/-- OpenGL object handle, `GLEXT_GLhandle`. -/
abbrev GLhandle := Nat

/-- A `const Texture*`: the address of a texture. -/
abbrev TexturePtr := Nat

/-- Constant of the OpenGL headers. -/
abbrev GL_FALSE : GLint := 0

/-- Constant of the OpenGL headers. -/
abbrev GL_TEXTURE0 : GLenum := 0x84C0

/-- Constant of the OpenGL headers. -/
abbrev GL_FRAGMENT_SHADER : GLenum := 0x8B30

/-- Constant of the OpenGL headers. -/
abbrev GL_VERTEX_SHADER : GLenum := 0x8B31

/-- Constant of the OpenGL headers. -/
abbrev GL_PROGRAM_OBJECT : GLenum := 0x8B40

/-- Constant of the OpenGL headers. -/
abbrev GL_OBJECT_COMPILE_STATUS : GLenum := 0x8B81

/-- Constant of the OpenGL headers. -/
abbrev GL_OBJECT_LINK_STATUS : GLenum := 0x8B82

/-- Modelled from the spec: `Shader::TextureTable` (Shader.hpp is not part of
the sources at hand), which the code uses as a `std::map` from locations to
textures: the entries in increasing order of their keys. -/
abbrev TextureTable := List (Int × TexturePtr)

/-- Modelled from the spec: `Shader::UniformTable` (Shader.hpp is not part of
the sources at hand), which the code uses as a `std::map` from names to
locations.  The code never iterates over it, so the entries are kept in the
order of insertion. -/
abbrev UniformTable := List (String × Int)

/-- `std::map::find`: the value stored under key `k`, if any. -/
def mapFind {κ ν : Type} [DecidableEq κ] (k : κ) : List (κ × ν) → Option ν
  | [] => none
  | (k1, v) :: rest => if k1 = k then some v else mapFind k rest

/-- `std::map::insert` on a uniform table: a key that is present keeps its
value. -/
def mapInsert (k : String) (v : Int) (m : UniformTable) : UniformTable :=
  if (mapFind k m).isSome then m else m ++ [(k, v)]

/-- The statement `m[k] = v` on a texture table: the entry for `k` is created in
key order, or overwritten. -/
def mapAssign (k : Int) (v : TexturePtr) : TextureTable → TextureTable
  | [] => [(k, v)]
  | (k1, v1) :: rest =>
    if k < k1 then (k, v) :: (k1, v1) :: rest
    else if k = k1 then (k, v) :: rest
    else (k1, v1) :: mapAssign k v rest

/-- The statement `it->second = v` for the iterator `it` found for key `k`. -/
def mapReplace (k : Int) (v : TexturePtr) : TextureTable → TextureTable
  | [] => []
  | (k1, v1) :: rest =>
    if k1 = k then (k1, v) :: rest else (k1, v1) :: mapReplace k v rest

/-- Conversion of a `GLint` to `std::size_t` (64 bits). -/
def toSizeT (n : GLint) : Nat :=
  (n % 2 ^ 64).toNat

/-- Conversion of a `std::size_t` to `GLsizei`: reduction to 32 bits, read as a
two's complement number. -/
def toGLsizei (n : Nat) : GLint :=
  ((n : Int) + 2 ^ 31) % 2 ^ 32 - 2 ^ 31

/-- The OpenGL calls and the calls of `Texture::bind` a shader makes; reads
carry their result. -/
inductive GLCall where
  | ensureGlContext
  | glDeleteObject (object : GLhandle)
  | glCreateProgramObject (result : GLhandle)
  | glCreateShaderObject (type : GLenum) (result : GLhandle)
  | glShaderSource (shader : GLhandle) (code : String)
  | glCompileShader (shader : GLhandle)
  | glGetObjectParameteriv (object : GLhandle) (pname : GLenum) (result : GLint)
  | glGetInfoLog (object : GLhandle)
  | glAttachObject (program shader : GLhandle)
  | glLinkProgram (program : GLhandle)
  | glFlush
  | glGetHandle (pname : GLenum) (result : GLhandle)
  | glUseProgramObject (program : GLhandle)
  | glGetUniformLocation (program : GLhandle) (name : String) (result : GLint)
  | glUniform1i (location : GLint) (value : GLint)
  | glActiveTexture (texture : GLenum)
  | uniformSetter (location : GLint)
  | textureBind (texture : TexturePtr)
deriving DecidableEq, Repr

/-- The OpenGL entry points used by a shader.  `uniformSetter` stands for the
`glUniform*` call made by a functor of `setUniformImpl`. -/
structure OpenGL (γ : Type) where
  ensureGlContext : γ → γ
  glDeleteObject : GLhandle → γ → γ
  glCreateProgramObject : γ → GLhandle × γ
  glCreateShaderObject : GLenum → γ → GLhandle × γ
  glShaderSource : GLhandle → String → γ → γ
  glCompileShader : GLhandle → γ → γ
  glGetObjectParameteriv : GLhandle → GLenum → γ → GLint
  glAttachObject : GLhandle → GLhandle → γ → γ
  glLinkProgram : GLhandle → γ → γ
  glFlush : γ → γ
  glGetHandle : GLenum → γ → GLhandle
  glUseProgramObject : GLhandle → γ → γ
  glGetUniformLocation : GLhandle → String → γ → GLint
  glUniform1i : GLint → GLint → γ → γ
  glActiveTexture : GLenum → γ → γ
  uniformSetter : GLint → γ → γ
  textureBind : TexturePtr → γ → γ

/-- The values of the function-local statics: the result of
`Shader::isAvailable()` and of `getMaxTextureUnits()`. -/
structure ShaderEnv where
  available : Bool
  maxUnits : GLint

/-- The graphics world together with the calls made so far. -/
structure Gfx (γ : Type) where
  gl : γ
  calls : List GLCall

/-- The data members of a `Shader`. -/
structure Shader where
  m_shaderProgram : Nat
  m_currentTexture : Int
  m_textures : TextureTable
  m_uniforms : UniformTable
deriving DecidableEq, Repr

variable {γ : Type}

/-- A call that changes the graphics world, logged. -/
def Gfx.call (g : Gfx γ) (f : γ → γ) (c : GLCall) : Gfx γ :=
  ⟨f g.gl, g.calls ++ [c]⟩

/-- A call that only reads the graphics world, logged. -/
def Gfx.read (g : Gfx γ) (c : GLCall) : Gfx γ :=
  ⟨g.gl, g.calls ++ [c]⟩

namespace Shader

/-- The constructor `Shader::Shader()`. -/
def construct : Shader :=
  ⟨0, -1, [], []⟩

/-- `Shader::getUniformLocation`. -/
def getUniformLocation (gl : OpenGL γ) (self : Shader) (name : String) (g : Gfx γ) :
    Int × Shader × Gfx γ :=
  match mapFind name self.m_uniforms with
  | some location => (location, self, g)
  | none =>
    let location := gl.glGetUniformLocation self.m_shaderProgram name g.gl
    (location, { self with m_uniforms := mapInsert name location self.m_uniforms },
      g.read (GLCall.glGetUniformLocation self.m_shaderProgram name location))

/-- `Shader::setUniformSampler2D(const std::string&, const Texture&)`. -/
def setUniformSampler2D (env : ShaderEnv) (gl : OpenGL γ) (self : Shader) (name : String)
    (texture : TexturePtr) (g : Gfx γ) : Shader × Gfx γ :=
  if self.m_shaderProgram ≠ 0 then
    let g1 := g.call gl.ensureGlContext GLCall.ensureGlContext
    let r := getUniformLocation gl self name g1
    let location := r.1
    let self1 := r.2.1
    if location ≠ -1 then
      match mapFind location self1.m_textures with
      | none =>
        let maxUnits := env.maxUnits
        if self1.m_textures.length + 1 ≥ toSizeT maxUnits then
          (self1, r.2.2)
        else
          ({ self1 with m_textures := mapAssign location texture self1.m_textures }, r.2.2)
      | some _ =>
        ({ self1 with m_textures := mapReplace location texture self1.m_textures }, r.2.2)
    else (self1, r.2.2)
  else (self, g)

/-- `Shader::setUniformSampler2D(const std::string&, CurrentTextureType)`. -/
def setUniformSampler2DCurrent (gl : OpenGL γ) (self : Shader) (name : String) (g : Gfx γ) :
    Shader × Gfx γ :=
  if self.m_shaderProgram ≠ 0 then
    let g1 := g.call gl.ensureGlContext GLCall.ensureGlContext
    let r := getUniformLocation gl self name g1
    ({ r.2.1 with m_currentTexture := r.1 }, r.2.2)
  else (self, g)

/-- `Shader::setUniformImpl`, the common part of the other `setUniform*`
members. -/
def setUniformImpl (gl : OpenGL γ) (self : Shader) (name : String) (g : Gfx γ) :
    Shader × Gfx γ :=
  if self.m_shaderProgram ≠ 0 then
    let g1 := g.call gl.ensureGlContext GLCall.ensureGlContext
    let program := gl.glGetHandle GL_PROGRAM_OBJECT g1.gl
    let g2 := g1.read (GLCall.glGetHandle GL_PROGRAM_OBJECT program)
    let g3 := g2.call (gl.glUseProgramObject self.m_shaderProgram)
      (GLCall.glUseProgramObject self.m_shaderProgram)
    let r := getUniformLocation gl self name g3
    let location := r.1
    let g4 :=
      if location ≠ -1 then r.2.2.call (gl.uniformSetter location) (GLCall.uniformSetter location)
      else r.2.2
    (r.2.1, g4.call (gl.glUseProgramObject program) (GLCall.glUseProgramObject program))
  else (self, g)

/-- One of the two blocks of `Shader::compile` that create, compile and attach
a shader of the given type when its code is not null.  The Boolean is `false`
when the block has left `compile` with `return false`. -/
def attachShader (gl : OpenGL γ) (type : GLenum) (code : Option String)
    (shaderProgram : GLhandle) (g : Gfx γ) : Bool × Gfx γ :=
  match code with
  | none => (true, g)
  | some text =>
    let shader := (gl.glCreateShaderObject type g.gl).1
    let g1 : Gfx γ := ⟨(gl.glCreateShaderObject type g.gl).2,
      g.calls ++ [GLCall.glCreateShaderObject type shader]⟩
    let g2 := g1.call (gl.glShaderSource shader text) (GLCall.glShaderSource shader text)
    let g3 := g2.call (gl.glCompileShader shader) (GLCall.glCompileShader shader)
    let success := gl.glGetObjectParameteriv shader GL_OBJECT_COMPILE_STATUS g3.gl
    let g4 := g3.read (GLCall.glGetObjectParameteriv shader GL_OBJECT_COMPILE_STATUS success)
    if success = GL_FALSE then
      let g5 := g4.read (GLCall.glGetInfoLog shader)
      let g6 := g5.call (gl.glDeleteObject shader) (GLCall.glDeleteObject shader)
      (false, g6.call (gl.glDeleteObject shaderProgram) (GLCall.glDeleteObject shaderProgram))
    else
      let g5 := g4.call (gl.glAttachObject shaderProgram shader)
        (GLCall.glAttachObject shaderProgram shader)
      (true, g5.call (gl.glDeleteObject shader) (GLCall.glDeleteObject shader))

/-- `Shader::compile`. -/
def compile (env : ShaderEnv) (gl : OpenGL γ) (self : Shader)
    (vertexShaderCode fragmentShaderCode : Option String) (g : Gfx γ) :
    Bool × Shader × Gfx γ :=
  let g0 := g.call gl.ensureGlContext GLCall.ensureGlContext
  if !env.available then (false, self, g0)
  else
    let g1 :=
      if self.m_shaderProgram ≠ 0 then
        g0.call (gl.glDeleteObject self.m_shaderProgram)
          (GLCall.glDeleteObject self.m_shaderProgram)
      else g0
    let self1 : Shader :=
      { m_shaderProgram := 0, m_currentTexture := -1, m_textures := [], m_uniforms := [] }
    let shaderProgram := (gl.glCreateProgramObject g1.gl).1
    let g2 : Gfx γ := ⟨(gl.glCreateProgramObject g1.gl).2,
      g1.calls ++ [GLCall.glCreateProgramObject shaderProgram]⟩
    let v := attachShader gl GL_VERTEX_SHADER vertexShaderCode shaderProgram g2
    if !v.1 then (false, self1, v.2)
    else
      let f := attachShader gl GL_FRAGMENT_SHADER fragmentShaderCode shaderProgram v.2
      if !f.1 then (false, self1, f.2)
      else
        let g3 := f.2.call (gl.glLinkProgram shaderProgram) (GLCall.glLinkProgram shaderProgram)
        let success := gl.glGetObjectParameteriv shaderProgram GL_OBJECT_LINK_STATUS g3.gl
        let g4 := g3.read
          (GLCall.glGetObjectParameteriv shaderProgram GL_OBJECT_LINK_STATUS success)
        if success = GL_FALSE then
          let g5 := g4.read (GLCall.glGetInfoLog shaderProgram)
          (false, self1,
            g5.call (gl.glDeleteObject shaderProgram) (GLCall.glDeleteObject shaderProgram))
        else
          (true, { self1 with m_shaderProgram := shaderProgram },
            g4.call gl.glFlush GLCall.glFlush)

/-- The loop of `Shader::bindTextures`, entered with counter `i` and the
iterator at the head of the given entries. -/
def bindLoop (gl : OpenGL γ) : TextureTable → Nat → Gfx γ → Gfx γ
  | [], _, g => g
  | (location, texture) :: rest, i, g =>
    let index : GLint := toGLsizei (i + 1)
    let g1 := g.call (gl.glUniform1i location index) (GLCall.glUniform1i location index)
    let g2 := g1.call (gl.glActiveTexture (GL_TEXTURE0 + index))
      (GLCall.glActiveTexture (GL_TEXTURE0 + index))
    let g3 := g2.call (gl.textureBind texture) (GLCall.textureBind texture)
    bindLoop gl rest (i + 1) g3

/-- `Shader::bindTextures`. -/
def bindTextures (gl : OpenGL γ) (self : Shader) (g : Gfx γ) : Gfx γ :=
  (bindLoop gl self.m_textures 0 g).call (gl.glActiveTexture GL_TEXTURE0)
    (GLCall.glActiveTexture GL_TEXTURE0)

end Shader

/-- A call of one of the members of a shader that change its tables. -/
inductive ShaderCall where
  | compile (vertexShaderCode fragmentShaderCode : Option String)
  | setUniformSampler2D (name : String) (texture : TexturePtr)
  | setUniformSampler2DCurrent (name : String)
  | setUniform (name : String)
deriving DecidableEq, Repr

/-- Whether a call is a call of `compile`. -/
def ShaderCall.isCompile : ShaderCall → Bool
  | ShaderCall.compile _ _ => true
  | _ => false

/-- The effect of one call on a shader and the graphics world. -/
def Shader.step (env : ShaderEnv) (gl : OpenGL γ) (c : ShaderCall) (st : Shader × Gfx γ) :
    Shader × Gfx γ :=
  match c with
  | ShaderCall.compile v f => (Shader.compile env gl st.1 v f st.2).2
  | ShaderCall.setUniformSampler2D name texture =>
    Shader.setUniformSampler2D env gl st.1 name texture st.2
  | ShaderCall.setUniformSampler2DCurrent name =>
    Shader.setUniformSampler2DCurrent gl st.1 name st.2
  | ShaderCall.setUniform name => Shader.setUniformImpl gl st.1 name st.2

/-- A finite sequence of calls on one shader, first call first. -/
def Shader.run (env : ShaderEnv) (gl : OpenGL γ) :
    List ShaderCall → Shader × Gfx γ → Shader × Gfx γ
  | [], st => st
  | c :: cs, st => Shader.run env gl cs (Shader.step env gl c st)

/-- A graphics world for running the model: the handles created so far. -/
structure Canvas where
  created : Nat
deriving DecidableEq, Repr

/-- An OpenGL on the canvas: object handles are numbered from 1, every shader
has compiled, every program has linked, the uniform `tex` is at location 4,
`mask` at location 2, `noise` at location 7, and no other name is found. -/
def canvasGL : OpenGL Canvas where
  ensureGlContext c := c
  glDeleteObject _ c := c
  glCreateProgramObject c := (c.created + 1, ⟨c.created + 1⟩)
  glCreateShaderObject _ c := (c.created + 1, ⟨c.created + 1⟩)
  glShaderSource _ _ c := c
  glCompileShader _ c := c
  glGetObjectParameteriv _ _ _ := 1
  glAttachObject _ _ c := c
  glLinkProgram _ c := c
  glFlush c := c
  glGetHandle _ _ := 0
  glUseProgramObject _ c := c
  glGetUniformLocation _ name _ :=
    if name = "tex" then 4 else if name = "mask" then 2 else if name = "noise" then 7 else -1
  glUniform1i _ _ c := c
  glActiveTexture _ c := c
  uniformSetter _ c := c
  textureBind _ c := c

/-- Shaders are available and there are three texture units. -/
def threeUnits : ShaderEnv :=
  ⟨true, 3⟩

/-- Shaders are not available. -/
def noShaders : ShaderEnv :=
  ⟨false, 3⟩

/-- The canvas before any call. -/
def blankCanvas : Gfx Canvas :=
  ⟨⟨0⟩, []⟩

/-- A compiled shader is given textures for `tex`, `mask` and `noise`, and then
another texture for `tex`. -/
def fourSamplers : List ShaderCall :=
  [ShaderCall.compile (some "void main() {}") none,
   ShaderCall.setUniformSampler2D "tex" 10,
   ShaderCall.setUniformSampler2D "mask" 11,
   ShaderCall.setUniformSampler2D "noise" 12,
   ShaderCall.setUniformSampler2D "tex" 13]

/-- Whether a call asks the device for the location of the uniform `name`. -/
def GLCall.isQuery (name : String) : GLCall → Bool
  | GLCall.glGetUniformLocation _ n _ => n == name
  | _ => false

/-- The calls `Shader::bindTextures` makes for the entries of a table whose
first entry has position `i`: the entry at position `j` is given the texture
unit `static_cast<GLsizei>(j + 1)`. -/
def bindCalls (m : TextureTable) (i : Nat) : List GLCall :=
  (m.enumFrom i).flatMap fun p =>
    [GLCall.glUniform1i p.2.1 (toGLsizei (p.1 + 1)),
     GLCall.glActiveTexture (GL_TEXTURE0 + toGLsizei (p.1 + 1)),
     GLCall.textureBind p.2.2]

/-- A shader is compiled and a uniform with a name the program does not have
is set. -/
def firstLookup : List ShaderCall :=
  [ShaderCall.compile (some "void main() {}") none, ShaderCall.setUniform "absent"]

/-- The same uniform is set again, a texture is given for `tex`, and the
uniform is set a third time. -/
def laterLookups : List ShaderCall :=
  [ShaderCall.setUniform "absent", ShaderCall.setUniformSampler2D "tex" 10,
   ShaderCall.setUniform "absent"]

/-! ### Loops without a hook result: effect and trace -/

theorem stopEvents_succ (i n : Nat) :
    stopEvents i (n + 1) = Event.stop i :: stopEvents (i + 1) n := by
  simp [stopEvents, List.range'_succ]

theorem prepareEvents_succ (t : Time) (i n : Nat) :
    prepareEvents t i (n + 1)
      = Event.prepareSynchronizedPlayback i t :: prepareEvents t (i + 1) n := by
  simp [prepareEvents, List.range'_succ]

theorem readyEvents_succ (i n : Nat) :
    readyEvents i (n + 1)
      = Event.isSynchronizedPlaybackReady i true :: readyEvents (i + 1) n := by
  simp [readyEvents, List.range'_succ]

theorem stopLoop_eq (sources : List (SoundSource σ)) (i : Nat) (s : Sys σ) :
    SoundSource.stopLoop sources i s
      = ⟨sources.foldl (fun w src => src.stop w) s.world,
          s.trace ++ stopEvents i sources.length⟩ := by
  induction sources generalizing i s with
  | nil => simp [SoundSource.stopLoop, stopEvents]
  | cons src rest ih =>
    simp [SoundSource.stopLoop, ih, stopEvents_succ]

theorem prepareLoop_eq (t : Time) (sources : List (SoundSource σ)) (i : Nat) (s : Sys σ) :
    SoundSource.prepareLoop t sources i s
      = ⟨sources.foldl (fun w src => src.prepareSynchronizedPlayback t w) s.world,
          s.trace ++ prepareEvents t i sources.length⟩ := by
  induction sources generalizing i s with
  | nil => simp [SoundSource.prepareLoop, prepareEvents]
  | cons src rest ih =>
    simp [SoundSource.prepareLoop, ih, prepareEvents_succ]

theorem fillSourceIDs_eq (sources : List (SoundSource σ)) (done rest : List ALuint)
    (h : rest.length = sources.length) :
    SoundSource.fillSourceIDs sources done.length (done ++ rest) = done ++ handles sources := by
  induction sources generalizing done rest with
  | nil =>
    have : rest = [] := List.length_eq_zero.mp (by simpa using h)
    simp [SoundSource.fillSourceIDs, handles, this]
  | cons src tl ih =>
    cases rest with
    | nil => simp at h
    | cons r rest =>
      have hlen : (done ++ [src.m_source]).length = done.length + 1 := by simp
      have hset : (done ++ r :: rest).set done.length src.m_source
          = (done ++ [src.m_source]) ++ rest := by
        simp [List.set_append_right]
      have := ih (done ++ [src.m_source]) rest (by simpa using h)
      rw [hlen] at this
      simp only [SoundSource.fillSourceIDs, hset, this]
      simp [handles]

theorem fillSourceIDs_replicate (sources : List (SoundSource σ)) :
    SoundSource.fillSourceIDs sources 0 (List.replicate sources.length 0) = handles sources := by
  have := fillSourceIDs_eq sources [] (List.replicate sources.length 0) (by simp)
  simpa using this

theorem synchronizeImpl_eq (dev : Device σ) (status : Status) (sources : List (SoundSource σ))
    (s : Sys σ) :
    SoundSource.synchronizeImpl dev status sources s
      = ⟨batchedEffect dev status (handles sources) s.world,
          s.trace ++ [batchedCall status (handles sources)]⟩ := by
  unfold SoundSource.synchronizeImpl batchedEffect batchedCall
  simp only [fillSourceIDs_replicate]
  split <;> rfl

/-! ### The readiness loop -/

theorem readinessPass_trace (dev : Device σ) (sources : List (SoundSource σ)) (i : Nat)
    (s : Sys σ) :
    ((SoundSource.readinessPass dev sources i s).1 = true ∧
      (SoundSource.readinessPass dev sources i s).2.trace
        = s.trace ++ readyEvents i sources.length) ∨
    ((SoundSource.readinessPass dev sources i s).1 = false ∧
      ∃ k, k < sources.length ∧
        (SoundSource.readinessPass dev sources i s).2.trace
          = s.trace ++ (readyEvents i k ++
              [Event.isSynchronizedPlaybackReady (i + k) false,
                Event.sleep (milliseconds 5)])) := by
  induction sources generalizing i s with
  | nil => left; simp [SoundSource.readinessPass, readyEvents]
  | cons src rest ih =>
    cases hr : (src.isSynchronizedPlaybackReady s.world).1 with
    | false =>
      right
      refine ⟨by simp [SoundSource.readinessPass, hr], 0, by simp, ?_⟩
      simp [SoundSource.readinessPass, hr, readyEvents]
    | true =>
      have hstep : SoundSource.readinessPass dev (src :: rest) i s
          = SoundSource.readinessPass dev rest (i + 1)
              ⟨(src.isSynchronizedPlaybackReady s.world).2,
                s.trace ++ [Event.isSynchronizedPlaybackReady i true]⟩ := by
        simp [SoundSource.readinessPass, hr]
      rw [hstep]
      rcases ih (i + 1) ⟨(src.isSynchronizedPlaybackReady s.world).2,
          s.trace ++ [Event.isSynchronizedPlaybackReady i true]⟩ with h | h
      · left
        refine ⟨h.1, ?_⟩
        rw [h.2]
        simp [readyEvents_succ]
      · right
        obtain ⟨h1, k, hk, h2⟩ := h
        refine ⟨h1, k + 1, by simpa using hk, ?_⟩
        rw [h2]
        simp [readyEvents_succ, Nat.add_assoc, Nat.add_comm 1 k]

theorem readinessPass_failedPass (dev : Device σ) (sources : List (SoundSource σ))
    (s : Sys σ) :
    ((SoundSource.readinessPass dev sources 0 s).1 = true ∧
      (SoundSource.readinessPass dev sources 0 s).2.trace
        = s.trace ++ readyEvents 0 sources.length) ∨
    ((SoundSource.readinessPass dev sources 0 s).1 = false ∧
      ∃ k, k < sources.length ∧
        (SoundSource.readinessPass dev sources 0 s).2.trace = s.trace ++ failedPass k) := by
  rcases readinessPass_trace dev sources 0 s with h | ⟨h1, k, hk, h2⟩
  · exact Or.inl h
  · exact Or.inr ⟨h1, k, hk, by simpa [failedPass] using h2⟩

theorem waitAllReady_trace (dev : Device σ) (sources : List (SoundSource σ)) (fuel : Nat)
    (s : Sys σ) :
    ∃ ks : List Nat, (∀ k ∈ ks, k < sources.length) ∧
      ((∃ s1, SoundSource.waitAllReady dev sources fuel s = Outcome.returned s1 ∧
          ks.length < fuel ∧
          s1.trace = s.trace ++ failedPasses ks ++ readyEvents 0 sources.length) ∨
       (∃ s1, SoundSource.waitAllReady dev sources fuel s = Outcome.waiting s1 ∧
          ks.length = fuel ∧
          s1.trace = s.trace ++ failedPasses ks)) := by
  induction fuel generalizing s with
  | zero =>
    exact ⟨[], by simp, Or.inr ⟨s, by simp [SoundSource.waitAllReady, failedPasses]⟩⟩
  | succ fuel ih =>
    rcases readinessPass_failedPass dev sources s with h | ⟨h1, k, hk, h2⟩
    · refine ⟨[], by simp, Or.inl ⟨(SoundSource.readinessPass dev sources 0 s).2, ?_, by simp, ?_⟩⟩
      · have : SoundSource.readinessPass dev sources 0 s
            = (true, (SoundSource.readinessPass dev sources 0 s).2) := by
          rw [← h.1]
        simp only [SoundSource.waitAllReady]
        rw [this]
      · simpa [failedPasses] using h.2
    · have hp : SoundSource.readinessPass dev sources 0 s
          = (false, (SoundSource.readinessPass dev sources 0 s).2) := by
        rw [← h1]
      have hstep : SoundSource.waitAllReady dev sources (fuel + 1) s
          = SoundSource.waitAllReady dev sources fuel
              (SoundSource.readinessPass dev sources 0 s).2 := by
        simp only [SoundSource.waitAllReady]
        rw [hp]
      obtain ⟨ks, hks, hcase⟩ := ih (SoundSource.readinessPass dev sources 0 s).2
      refine ⟨k :: ks, ?_, ?_⟩
      · intro j hj
        rcases List.mem_cons.mp hj with rfl | hj
        · exact hk
        · exact hks j hj
      · rcases hcase with ⟨s1, he, hl, ht⟩ | ⟨s1, he, hl, ht⟩
        · refine Or.inl ⟨s1, by rw [hstep, he], by simpa using hl, ?_⟩
          rw [ht, h2]
          simp [failedPasses]
        · refine Or.inr ⟨s1, by rw [hstep, he], by simpa using hl, ?_⟩
          rw [ht, h2]
          simp [failedPasses]

/-! ### The trace is only ever extended -/

theorem readinessPass_prepend (dev : Device σ) (tr : List Event)
    (sources : List (SoundSource σ)) (i : Nat) (s : Sys σ) :
    SoundSource.readinessPass dev sources i (s.prepend tr)
      = ((SoundSource.readinessPass dev sources i s).1,
          (SoundSource.readinessPass dev sources i s).2.prepend tr) := by
  induction sources generalizing i s with
  | nil => simp [SoundSource.readinessPass]
  | cons src rest ih =>
    cases hr : (src.isSynchronizedPlaybackReady s.world).1 with
    | false => simp [SoundSource.readinessPass, Sys.prepend, hr]
    | true =>
      have := ih (i + 1) ⟨(src.isSynchronizedPlaybackReady s.world).2,
          s.trace ++ [Event.isSynchronizedPlaybackReady i true]⟩
      simp only [Sys.prepend] at this
      simp [SoundSource.readinessPass, Sys.prepend, hr, this]

theorem waitAllReady_prepend (dev : Device σ) (tr : List Event)
    (sources : List (SoundSource σ)) (fuel : Nat) (s : Sys σ) :
    SoundSource.waitAllReady dev sources fuel (s.prepend tr)
      = (SoundSource.waitAllReady dev sources fuel s).prepend tr := by
  induction fuel generalizing s with
  | zero => simp [SoundSource.waitAllReady, Outcome.prepend]
  | succ fuel ih =>
    simp only [SoundSource.waitAllReady, readinessPass_prepend]
    cases hb : (SoundSource.readinessPass dev sources 0 s).1 with
    | true =>
      have hp : SoundSource.readinessPass dev sources 0 s
          = (true, (SoundSource.readinessPass dev sources 0 s).2) := by rw [← hb]
      rw [hp]
      simp [Outcome.prepend]
    | false =>
      have hp : SoundSource.readinessPass dev sources 0 s
          = (false, (SoundSource.readinessPass dev sources 0 s).2) := by rw [← hb]
      rw [hp]
      simp [ih]

theorem synchronizeOffset_prepend (dev : Device σ) (tr : List Event) (fuel : Nat)
    (status : Status) (t : Time) (sources : List (SoundSource σ)) (s : Sys σ) :
    SoundSource.synchronizeOffset dev fuel status t sources (s.prepend tr)
      = (SoundSource.synchronizeOffset dev fuel status t sources s).prepend tr := by
  unfold SoundSource.synchronizeOffset
  split
  · simp [stopLoop_eq, Outcome.prepend, Sys.prepend]
  · have hprep : SoundSource.prepareLoop t sources 0 (s.prepend tr)
        = (SoundSource.prepareLoop t sources 0 s).prepend tr := by
      simp [prepareLoop_eq, Sys.prepend]
    rw [hprep, waitAllReady_prepend]
    cases SoundSource.waitAllReady dev sources fuel (SoundSource.prepareLoop t sources 0 s) with
    | returned s1 => simp [Outcome.prepend, synchronizeImpl_eq, Sys.prepend]
    | waiting s1 => simp [Outcome.prepend]

/-! ### The status scan -/

theorem statusScan_eq (sources : List (SoundSource σ)) (i : Nat) (s : Sys σ) :
    SoundSource.statusScan sources i s
      = (decide (firstStopped s.world sources < sources.length),
          ⟨s.world, s.trace ++
            (statusEvents s.world sources i).take (firstStopped s.world sources + 1)⟩) := by
  induction sources generalizing i s with
  | nil => simp [SoundSource.statusScan, firstStopped, statusEvents]
  | cons src rest ih =>
    by_cases hst : src.getStatus s.world = Status.Stopped
    · simp [SoundSource.statusScan, firstStopped, statusEvents, List.findIdx_cons, hst]
    · have := ih (i + 1) ⟨s.world, s.trace ++ [Event.getStatus i (src.getStatus s.world)]⟩
      simp only [firstStopped] at this
      simp [SoundSource.statusScan, firstStopped, statusEvents, List.findIdx_cons, hst, this]

theorem firstStopped_lt_iff (w : σ) (sources : List (SoundSource σ)) :
    firstStopped w sources < sources.length
      ↔ ∃ src ∈ sources, src.getStatus w = Status.Stopped := by
  unfold firstStopped
  rw [List.findIdx_lt_length]
  simp

theorem statusEvents_length (w : σ) (sources : List (SoundSource σ)) (i : Nat) :
    (statusEvents w sources i).length = sources.length := by
  induction sources generalizing i with
  | nil => rfl
  | cons src rest ih => simp [statusEvents, ih]

/-! ### Kinds of events in the pieces of a trace -/

theorem mem_prepareEvents {t : Time} {i n : Nat} {e : Event} (h : e ∈ prepareEvents t i n) :
    ∃ k, e = Event.prepareSynchronizedPlayback k t := by
  simp only [prepareEvents, List.mem_map] at h
  obtain ⟨k, _, hk⟩ := h
  exact ⟨k, hk.symm⟩

theorem mem_readyEvents {i n : Nat} {e : Event} (h : e ∈ readyEvents i n) :
    ∃ k, e = Event.isSynchronizedPlaybackReady k true := by
  simp only [readyEvents, List.mem_map] at h
  obtain ⟨k, _, hk⟩ := h
  exact ⟨k, hk.symm⟩

theorem mem_failedPasses {ks : List Nat} {e : Event} (h : e ∈ failedPasses ks) :
    (∃ k b, e = Event.isSynchronizedPlaybackReady k b) ∨ e = Event.sleep (milliseconds 5) := by
  induction ks with
  | nil => simp [failedPasses] at h
  | cons k ks ih =>
    simp only [failedPasses, failedPass, List.mem_append, List.mem_cons,
      List.mem_singleton, List.not_mem_nil, or_false] at h
    rcases h with (h | h | h) | h
    · obtain ⟨j, hj⟩ := mem_readyEvents h
      exact Or.inl ⟨j, true, hj⟩
    · exact Or.inl ⟨k, false, h⟩
    · exact Or.inr h
    · exact ih h

theorem countP_isSleep_failedPasses (ks : List Nat) :
    (failedPasses ks).countP Event.isSleep = ks.length := by
  induction ks with
  | nil => simp [failedPasses]
  | cons k ks ih =>
    have h0 : (readyEvents 0 k).countP Event.isSleep = 0 := by
      rw [List.countP_eq_zero]
      intro e he
      obtain ⟨j, rfl⟩ := mem_readyEvents he
      simp [Event.isSleep]
    simp [failedPasses, failedPass, List.countP_cons, h0, ih, Event.isSleep]

/-! ### The explicit-offset overload as a whole -/

theorem not_isBatched_of_mem {t : Time} {n : Nat} {ks : List Nat} {e : Event}
    (h : e ∈ prepareEvents t 0 n ++ failedPasses ks ++ readyEvents 0 n) :
    e.isBatched = false := by
  simp only [List.mem_append] at h
  rcases h with (h | h) | h
  · obtain ⟨k, rfl⟩ := mem_prepareEvents h
    rfl
  · rcases mem_failedPasses h with ⟨k, b, rfl⟩ | rfl <;> rfl
  · obtain ⟨k, rfl⟩ := mem_readyEvents h
    rfl

theorem isBatched_batchedCall (status : Status) (ids : List ALuint) :
    (batchedCall status ids).isBatched = true := by
  unfold batchedCall
  split <;> rfl

theorem synchronizeOffset_trace (dev : Device σ) (fuel : Nat) (status : Status) (t : Time)
    (sources : List (SoundSource σ)) (s : Sys σ) (hs : status ≠ Status.Stopped) :
    ∃ ks : List Nat, (∀ k ∈ ks, k < sources.length) ∧
      ((∃ s1, SoundSource.synchronizeOffset dev fuel status t sources s = Outcome.returned s1 ∧
          ks.length < fuel ∧
          s1.trace = s.trace ++ (prepareEvents t 0 sources.length ++ failedPasses ks
            ++ readyEvents 0 sources.length) ++ [batchedCall status (handles sources)]) ∨
       (∃ s1, SoundSource.synchronizeOffset dev fuel status t sources s = Outcome.waiting s1 ∧
          ks.length = fuel ∧
          s1.trace = s.trace ++ (prepareEvents t 0 sources.length ++ failedPasses ks))) := by
  obtain ⟨ks, hks, hcase⟩ :=
    waitAllReady_trace dev sources fuel (SoundSource.prepareLoop t sources 0 s)
  refine ⟨ks, hks, ?_⟩
  unfold SoundSource.synchronizeOffset
  rw [if_neg hs]
  rcases hcase with ⟨s1, he, hl, ht⟩ | ⟨s1, he, hl, ht⟩
  · refine Or.inl ⟨SoundSource.synchronizeImpl dev status sources s1, by rw [he], hl, ?_⟩
    rw [synchronizeImpl_eq]
    simp only [ht, prepareLoop_eq]
    simp
  · refine Or.inr ⟨s1, by rw [he], hl, ?_⟩
    simp only [ht, prepareLoop_eq]
    simp

theorem readinessPass_stalled (dev : Device σ) (sources : List (SoundSource σ)) (i : Nat)
    (s : Sys σ)
    (h : ∃ src ∈ sources, ∀ w, (src.isSynchronizedPlaybackReady w).1 = false) :
    (SoundSource.readinessPass dev sources i s).1 = false := by
  induction sources generalizing i s with
  | nil => simp at h
  | cons src rest ih =>
    cases hr : (src.isSynchronizedPlaybackReady s.world).1 with
    | false => simp [SoundSource.readinessPass, hr]
    | true =>
      obtain ⟨x, hx, hstall⟩ := h
      rcases List.mem_cons.mp hx with rfl | hx
      · rw [hstall] at hr
        cases hr
      · simp only [SoundSource.readinessPass, hr]
        exact ih _ _ ⟨x, hx, hstall⟩

theorem waitAllReady_stalled (dev : Device σ) (sources : List (SoundSource σ)) (fuel : Nat)
    (s : Sys σ)
    (h : ∃ src ∈ sources, ∀ w, (src.isSynchronizedPlaybackReady w).1 = false) :
    (SoundSource.waitAllReady dev sources fuel s).hasReturned = false := by
  induction fuel generalizing s with
  | zero => rfl
  | succ fuel ih =>
    have hb := readinessPass_stalled dev sources 0 s h
    have hp : SoundSource.readinessPass dev sources 0 s
        = (false, (SoundSource.readinessPass dev sources 0 s).2) := by rw [← hb]
    simp only [SoundSource.waitAllReady]
    rw [hp]
    exact ih _

theorem prepareLoop_default (t : Time) (sources : List (SoundSource σ)) (w : σ)
    (h : ∀ src ∈ sources,
      src.prepareSynchronizedPlayback = SoundSourceBase.prepareSynchronizedPlayback) :
    sources.foldl (fun w src => src.prepareSynchronizedPlayback t w) w = w := by
  induction sources generalizing w with
  | nil => rfl
  | cons src rest ih =>
    have h0 := h src (by simp)
    simp only [List.foldl_cons, h0, SoundSourceBase.prepareSynchronizedPlayback]
    exact ih w (fun x hx => h x (by simp [hx]))

theorem readinessPass_default (dev : Device σ) (sources : List (SoundSource σ)) (i : Nat)
    (s : Sys σ)
    (h : ∀ src ∈ sources,
      src.isSynchronizedPlaybackReady = SoundSourceBase.isSynchronizedPlaybackReady) :
    SoundSource.readinessPass dev sources i s
      = (true, ⟨s.world, s.trace ++ readyEvents i sources.length⟩) := by
  induction sources generalizing i s with
  | nil => simp [SoundSource.readinessPass, readyEvents]
  | cons src rest ih =>
    have h0 := h src (by simp)
    simp only [SoundSource.readinessPass, h0, SoundSourceBase.isSynchronizedPlaybackReady]
    rw [ih _ _ (fun x hx => h x (by simp [hx]))]
    simp [readyEvents_succ]

theorem toALsizei_of_lt (n : Nat) (h : n < 2 ^ 31) : toALsizei n = (n : Int) := by
  unfold toALsizei
  have h1 : (0 : Int) ≤ (n : Int) + 2 ^ 31 := by positivity
  have h2 : (n : Int) + 2 ^ 31 < 2 ^ 32 := by
    have : (n : Int) < 2 ^ 31 := by exact_mod_cast h
    omega
  rw [Int.emod_eq_of_lt h1 h2]
  ring

/-! ### Claims about the explicit-offset overload -/

/-- C1. No early or partial transition: whenever a call of the explicit-offset
`synchronize` with a target status other than `Stopped` has issued a batched
play/pause call, it has returned, the calls it issued are the prepare calls,
then some failed readiness passes, then one pass that polled every source in
list order with every answer `true`, then the batched call; that batched call
is the only play/pause device call of the run and nothing precedes it but
prepare calls, polls and sleeps. -/
theorem synchronizeOffset_no_early_transition (dev : Device σ) (fuel : Nat) (status : Status)
    (t : Time) (sources : List (SoundSource σ)) (s : Sys σ)
    (hs : status ≠ Status.Stopped)
    (hcall : s.trace.countP Event.isBatched
      < (SoundSource.synchronizeOffset dev fuel status t sources s).sys.trace.countP
          Event.isBatched) :
    ∃ (ks : List Nat) (s1 : Sys σ),
      SoundSource.synchronizeOffset dev fuel status t sources s = Outcome.returned s1 ∧
      (∀ k ∈ ks, k < sources.length) ∧
      s1.trace = s.trace
        ++ (prepareEvents t 0 sources.length ++ failedPasses ks
            ++ readyEvents 0 sources.length)
        ++ [batchedCall status (handles sources)] ∧
      (∀ e ∈ prepareEvents t 0 sources.length ++ failedPasses ks
            ++ readyEvents 0 sources.length, e.isBatched = false) ∧
      (batchedCall status (handles sources)).isBatched = true ∧
      s1.trace.countP Event.isBatched = s.trace.countP Event.isBatched + 1 := by
  obtain ⟨ks, hks, hcase⟩ := synchronizeOffset_trace dev fuel status t sources s hs
  have hzero : (prepareEvents t 0 sources.length ++ failedPasses ks
      ++ readyEvents 0 sources.length).countP Event.isBatched = 0 := by
    rw [List.countP_eq_zero]
    intro e he
    simp [not_isBatched_of_mem he]
  rcases hcase with ⟨s1, he, _, ht⟩ | ⟨s1, he, _, ht⟩
  · refine ⟨ks, s1, he, hks, ht, fun e h => not_isBatched_of_mem h,
      isBatched_batchedCall _ _, ?_⟩
    rw [ht, List.countP_append, List.countP_append, hzero]
    simp [isBatched_batchedCall]
  · exfalso
    have hz : (prepareEvents t 0 sources.length ++ failedPasses ks).countP Event.isBatched
        = 0 := by
      rw [List.countP_eq_zero]
      intro e he
      have : e ∈ prepareEvents t 0 sources.length ++ failedPasses ks
          ++ readyEvents 0 sources.length := List.mem_append_left _ he
      simp [not_isBatched_of_mem this]
    rw [he] at hcall
    simp only [Outcome.sys, ht, List.countP_append, hz] at hcall
    omega

/-- Run of C1 on the mixer: the streaming source fails two passes, the third
pass finds all three sources ready, and the batched play follows. -/
theorem synchronizeOffset_no_early_transition_witness :
    Status.Playing ≠ Status.Stopped ∧
    (SoundSource.synchronizeOffset mixerDevice 5 Status.Playing tenSeconds trio
        twoPlaying).sys.trace
      = prepareEvents tenSeconds 0 3 ++ failedPasses [1, 1] ++ readyEvents 0 3
          ++ [Event.alSourcePlayv 3 [1, 2, 3]] ∧
    ∃ (ks : List Nat) (s1 : Sys Mixer),
      SoundSource.synchronizeOffset mixerDevice 5 Status.Playing tenSeconds trio twoPlaying
        = Outcome.returned s1 ∧
      (∀ k ∈ ks, k < trio.length) ∧
      s1.trace = twoPlaying.trace
        ++ (prepareEvents tenSeconds 0 trio.length ++ failedPasses ks
            ++ readyEvents 0 trio.length)
        ++ [batchedCall Status.Playing (handles trio)] ∧
      (∀ e ∈ prepareEvents tenSeconds 0 trio.length ++ failedPasses ks
            ++ readyEvents 0 trio.length, e.isBatched = false) ∧
      (batchedCall Status.Playing (handles trio)).isBatched = true ∧
      s1.trace.countP Event.isBatched = twoPlaying.trace.countP Event.isBatched + 1 :=
  ⟨by decide, by decide,
    synchronizeOffset_no_early_transition mixerDevice 5 Status.Playing tenSeconds trio
      twoPlaying (by decide) (by decide)⟩

/-- C2. With a target status other than `Stopped`, the explicit-offset
`synchronize` calls the prepare hook of every source once per occurrence, in
list order and with the offset it was given, whatever the statuses of the
sources are: on entry to the readiness loop the world is the one obtained by
applying the hooks in that order and the calls issued are exactly these, and
whatever is issued afterwards is no prepare call. -/
theorem synchronizeOffset_prepares_each_source (dev : Device σ) (fuel : Nat)
    (status : Status) (t : Time) (sources : List (SoundSource σ)) (s : Sys σ)
    (hs : status ≠ Status.Stopped) :
    SoundSource.synchronizeOffset dev 0 status t sources s
      = Outcome.waiting
          ⟨sources.foldl (fun w src => src.prepareSynchronizedPlayback t w) s.world,
            s.trace ++ (List.range sources.length).map
              (fun i => Event.prepareSynchronizedPlayback i t)⟩ ∧
    ∃ later : List Event,
      (SoundSource.synchronizeOffset dev fuel status t sources s).sys.trace
        = s.trace ++ (List.range sources.length).map
            (fun i => Event.prepareSynchronizedPlayback i t) ++ later ∧
      (∀ e ∈ later, e.isPrepare = false) ∧
      (∀ e, later.head? = some e → e.isPoll = true ∨ e.isBatched = true) := by
  have hrange : (List.range sources.length).map
      (fun i => Event.prepareSynchronizedPlayback i t) = prepareEvents t 0 sources.length := by
    simp [prepareEvents, List.range_eq_range']
  rw [hrange]
  refine ⟨?_, ?_⟩
  · simp [SoundSource.synchronizeOffset, hs, SoundSource.waitAllReady, prepareLoop_eq]
  · obtain ⟨ks, _, hcase⟩ := synchronizeOffset_trace dev fuel status t sources s hs
    have hfp : ∀ e ∈ failedPasses ks, e.isPrepare = false := by
      intro e he
      rcases mem_failedPasses he with ⟨k, b, rfl⟩ | rfl <;> rfl
    have hre : ∀ e ∈ readyEvents 0 sources.length, e.isPrepare = false := by
      intro e he
      obtain ⟨k, rfl⟩ := mem_readyEvents he
      rfl
    have hbc : (batchedCall status (handles sources)).isPrepare = false := by
      unfold batchedCall
      split <;> rfl
    have hhead : ∀ (l : List Event) (e : Event),
        (failedPasses ks ++ l).head? = some e → l.head? = some e ∨ e.isPoll = true := by
      intro l e he
      cases ks with
      | nil => exact Or.inl (by simpa [failedPasses] using he)
      | cons k ks =>
        right
        cases k with
        | zero =>
          simp [failedPasses, failedPass, readyEvents] at he
          rw [← he]; rfl
        | succ k =>
          simp [failedPasses, failedPass, readyEvents_succ] at he
          rw [← he]; rfl
    rcases hcase with ⟨s1, he, _, ht⟩ | ⟨s1, he, _, ht⟩
    · refine ⟨failedPasses ks ++ readyEvents 0 sources.length
          ++ [batchedCall status (handles sources)], ?_, ?_, ?_⟩
      · rw [he]
        simp [Outcome.sys, ht]
      · intro e hmem
        simp only [List.mem_append, List.mem_singleton] at hmem
        rcases hmem with (h | h) | h
        · exact hfp e h
        · exact hre e h
        · rw [h]; exact hbc
      · intro e hh
        rw [List.append_assoc] at hh
        rcases hhead _ e hh with h | h
        · cases hn : sources.length with
          | zero =>
            rw [hn] at h
            simp [readyEvents] at h
            right
            rw [← h]
            exact isBatched_batchedCall _ _
          | succ n =>
            rw [hn] at h
            simp [readyEvents_succ] at h
            left
            rw [← h]; rfl
        · exact Or.inl h
    · refine ⟨failedPasses ks, ?_, hfp, ?_⟩
      · rw [he]
        simp [Outcome.sys, ht]
      · intro e hh
        have := hhead [] e (by simpa using hh)
        rcases this with h | h
        · simp at h
        · exact Or.inl h

/-- Run of C2 on the mixer: three sources, two of them playing and one stopped,
offset ten seconds; all three receive the prepare call with ten seconds. -/
theorem synchronizeOffset_prepares_each_source_witness :
    Status.Playing ≠ Status.Stopped ∧
    plainTrio.map (fun src => src.getStatus twoPlaying.world)
      = [Status.Playing, Status.Playing, Status.Stopped] ∧
    (SoundSource.synchronizeOffset mixerDevice 1 Status.Playing tenSeconds plainTrio
        twoPlaying).sys.trace
      = [Event.prepareSynchronizedPlayback 0 tenSeconds,
          Event.prepareSynchronizedPlayback 1 tenSeconds,
          Event.prepareSynchronizedPlayback 2 tenSeconds,
          Event.isSynchronizedPlaybackReady 0 true,
          Event.isSynchronizedPlaybackReady 1 true,
          Event.isSynchronizedPlaybackReady 2 true,
          Event.alSourcePlayv 3 [1, 2, 3]] ∧
    (SoundSource.synchronizeOffset mixerDevice 0 Status.Playing tenSeconds plainTrio twoPlaying
      = Outcome.waiting
          ⟨plainTrio.foldl (fun w src => src.prepareSynchronizedPlayback tenSeconds w)
              twoPlaying.world,
            twoPlaying.trace ++ (List.range plainTrio.length).map
              (fun i => Event.prepareSynchronizedPlayback i tenSeconds)⟩ ∧
    ∃ later : List Event,
      (SoundSource.synchronizeOffset mixerDevice 1 Status.Playing tenSeconds plainTrio
          twoPlaying).sys.trace
        = twoPlaying.trace ++ (List.range plainTrio.length).map
            (fun i => Event.prepareSynchronizedPlayback i tenSeconds) ++ later ∧
      (∀ e ∈ later, e.isPrepare = false) ∧
      (∀ e, later.head? = some e → e.isPoll = true ∨ e.isBatched = true)) :=
  ⟨by decide, by decide, by decide,
    synchronizeOffset_prepares_each_source mixerDevice 1 Status.Playing tenSeconds plainTrio
      twoPlaying (by decide)⟩

/-! ### The two branches of the offset-less overload -/

theorem isStatusQuery_of_mem_statusEvents (w : σ) (sources : List (SoundSource σ)) (i : Nat)
    (e : Event) (he : e ∈ statusEvents w sources i) : e.isStatusQuery = true := by
  induction sources generalizing i with
  | nil => simp [statusEvents] at he
  | cons src rest ih =>
    simp only [statusEvents, List.mem_cons] at he
    rcases he with rfl | he
    · rfl
    · exact ih _ he

theorem synchronize_of_stopped (dev : Device σ) (fuel : Nat) (status : Status)
    (sources : List (SoundSource σ)) (s : Sys σ) (hs : status ≠ Status.Stopped)
    (hstopped : ∃ src ∈ sources, src.getStatus s.world = Status.Stopped) :
    SoundSource.synchronize dev fuel status sources s
      = (SoundSource.synchronizeOffset dev fuel status Time.Zero sources
            ⟨s.world, []⟩).prepend
          (s.trace ++ (statusEvents s.world sources 0).take
            (firstStopped s.world sources + 1)) := by
  have hlt := (firstStopped_lt_iff s.world sources).mpr hstopped
  have h1 : (⟨s.world, s.trace ++ (statusEvents s.world sources 0).take
        (firstStopped s.world sources + 1)⟩ : Sys σ)
      = (⟨s.world, []⟩ : Sys σ).prepend (s.trace ++ (statusEvents s.world sources 0).take
        (firstStopped s.world sources + 1)) := by
    simp [Sys.prepend]
  unfold SoundSource.synchronize
  rw [if_neg hs, statusScan_eq]
  simp only [hlt, decide_True]
  rw [h1, synchronizeOffset_prepend]

theorem synchronize_of_none_stopped (dev : Device σ) (fuel : Nat) (status : Status)
    (sources : List (SoundSource σ)) (s : Sys σ) (hs : status ≠ Status.Stopped)
    (hnone : ¬ ∃ src ∈ sources, src.getStatus s.world = Status.Stopped) :
    SoundSource.synchronize dev fuel status sources s
      = Outcome.returned
          ⟨batchedEffect dev status (handles sources) s.world,
            s.trace ++ statusEvents s.world sources 0
              ++ [batchedCall status (handles sources)]⟩ := by
  have hnlt : ¬ firstStopped s.world sources < sources.length := by
    rw [firstStopped_lt_iff]
    exact hnone
  have hfs : firstStopped s.world sources = sources.length := by
    have : firstStopped s.world sources ≤ sources.length := by
      unfold firstStopped
      exact List.findIdx_le_length _
    omega
  have htake : (statusEvents s.world sources 0).take (firstStopped s.world sources + 1)
      = statusEvents s.world sources 0 := by
    apply List.take_of_length_le
    rw [statusEvents_length, hfs]
    omega
  unfold SoundSource.synchronize
  rw [if_neg hs, statusScan_eq]
  simp only [hnlt, decide_False, htake, synchronizeImpl_eq]

/-! ### Claims about the offset-less overload, the batched call and the stop path -/

/-- C3. Escalation: when some source of the list is `Stopped`, the offset-less
`synchronize(Playing, sources)` queries the statuses up to and including the
first stopped source and from there on is the explicit-offset
`synchronize(Playing, Time::Zero, sources)`: both runs are the same run of the
explicit-offset overload from the same world, the first with the status queries
in front of its calls, so the prepare calls, polls, sleeps and the batched play
agree and nothing is issued on top. -/
theorem synchronize_escalates_to_offset_zero (dev : Device σ) (fuel : Nat)
    (sources : List (SoundSource σ)) (s : Sys σ)
    (hstopped : ∃ src ∈ sources, src.getStatus s.world = Status.Stopped) :
    firstStopped s.world sources < sources.length ∧
    (∀ e ∈ (statusEvents s.world sources 0).take (firstStopped s.world sources + 1),
      e.isStatusQuery = true) ∧
    SoundSource.synchronize dev fuel Status.Playing sources s
      = (SoundSource.synchronizeOffset dev fuel Status.Playing Time.Zero sources
            ⟨s.world, []⟩).prepend
          (s.trace ++ (statusEvents s.world sources 0).take
            (firstStopped s.world sources + 1)) ∧
    SoundSource.synchronizeOffset dev fuel Status.Playing Time.Zero sources s
      = (SoundSource.synchronizeOffset dev fuel Status.Playing Time.Zero sources
            ⟨s.world, []⟩).prepend s.trace := by
  refine ⟨(firstStopped_lt_iff s.world sources).mpr hstopped,
    fun e he => isStatusQuery_of_mem_statusEvents _ _ _ e (List.mem_of_mem_take he),
    synchronize_of_stopped dev fuel Status.Playing sources s (by decide) hstopped, ?_⟩
  have h2 : s = (⟨s.world, []⟩ : Sys σ).prepend s.trace := by
    simp [Sys.prepend]
  conv_lhs => rw [h2]
  rw [synchronizeOffset_prepend]

/-- Run of C3 on the mixer: handle 1 plays, handles 2 and 3 are stopped; the
scan stops at the second source and the offset-zero protocol follows. -/
theorem synchronize_escalates_to_offset_zero_witness :
    (∃ src ∈ plainTrio, src.getStatus onePlaying.world = Status.Stopped) ∧
    (SoundSource.synchronize mixerDevice 1 Status.Playing plainTrio onePlaying).sys.trace
      = [Event.getStatus 0 Status.Playing, Event.getStatus 1 Status.Stopped]
        ++ (SoundSource.synchronizeOffset mixerDevice 1 Status.Playing Time.Zero plainTrio
              onePlaying).sys.trace ∧
    (firstStopped onePlaying.world plainTrio < plainTrio.length ∧
    (∀ e ∈ (statusEvents onePlaying.world plainTrio 0).take
        (firstStopped onePlaying.world plainTrio + 1), e.isStatusQuery = true) ∧
    SoundSource.synchronize mixerDevice 1 Status.Playing plainTrio onePlaying
      = (SoundSource.synchronizeOffset mixerDevice 1 Status.Playing Time.Zero plainTrio
            ⟨onePlaying.world, []⟩).prepend
          (onePlaying.trace ++ (statusEvents onePlaying.world plainTrio 0).take
            (firstStopped onePlaying.world plainTrio + 1)) ∧
    SoundSource.synchronizeOffset mixerDevice 1 Status.Playing Time.Zero plainTrio onePlaying
      = (SoundSource.synchronizeOffset mixerDevice 1 Status.Playing Time.Zero plainTrio
            ⟨onePlaying.world, []⟩).prepend onePlaying.trace) :=
  ⟨⟨plainSource 2, by simp [plainTrio], by decide⟩, by decide,
    synchronize_escalates_to_offset_zero mixerDevice 1 plainTrio onePlaying
      ⟨plainSource 2, by simp [plainTrio], by decide⟩⟩

/-- C4. Fast path: when all sources share one status `st` other than `Stopped`,
the offset-less `synchronize(Playing, sources)` returns after the status
queries of all sources and one batched play call on the handles of all sources
in list order; when all sources are `Playing`, `synchronize(Paused, sources)`
does the same with one batched pause call.  No prepare call, no poll and no
sleep is issued, whatever the bound on the passes; the count handed to the
device is the number of sources as long as that fits an `ALsizei`. -/
theorem synchronize_fast_path (dev : Device σ) (fuel : Nat) (st : Status)
    (sources : List (SoundSource σ)) (s : Sys σ)
    (hst : st ≠ Status.Stopped)
    (hall : ∀ src ∈ sources, src.getStatus s.world = st) :
    SoundSource.synchronize dev fuel Status.Playing sources s
      = Outcome.returned
          ⟨dev.alSourcePlayv (toALsizei sources.length)
              (sources.map (fun src => src.m_source)) s.world,
            s.trace ++ statusEvents s.world sources 0
              ++ [Event.alSourcePlayv (toALsizei sources.length)
                    (sources.map (fun src => src.m_source))]⟩ ∧
    (st = Status.Playing →
      SoundSource.synchronize dev fuel Status.Paused sources s
        = Outcome.returned
            ⟨dev.alSourcePausev (toALsizei sources.length)
                (sources.map (fun src => src.m_source)) s.world,
              s.trace ++ statusEvents s.world sources 0
                ++ [Event.alSourcePausev (toALsizei sources.length)
                      (sources.map (fun src => src.m_source))]⟩) ∧
    (∀ e ∈ statusEvents s.world sources 0, e.isStatusQuery = true) ∧
    (statusEvents s.world sources 0).length = sources.length ∧
    (sources.length < 2 ^ 31 → toALsizei sources.length = (sources.length : Int)) := by
  have hnone : ¬ ∃ src ∈ sources, src.getStatus s.world = Status.Stopped := by
    rintro ⟨src, hmem, hsrc⟩
    exact hst ((hall src hmem).symm.trans hsrc)
  refine ⟨?_, ?_, isStatusQuery_of_mem_statusEvents _ _ _, statusEvents_length _ _ _,
    toALsizei_of_lt _⟩
  · rw [synchronize_of_none_stopped dev fuel Status.Playing sources s (by decide) hnone]
    simp [batchedEffect, batchedCall, handles]
  · intro _
    rw [synchronize_of_none_stopped dev fuel Status.Paused sources s (by decide) hnone]
    simp [batchedEffect, batchedCall, handles]

/-- Run of C4 on the mixer: two sources, both paused; one batched play call
follows the two status queries. -/
theorem synchronize_fast_path_witness :
    Status.Paused ≠ Status.Stopped ∧
    (∀ src ∈ plainPair, src.getStatus twoPaused.world = Status.Paused) ∧
    (SoundSource.synchronize mixerDevice 0 Status.Playing plainPair twoPaused).sys.trace
      = [Event.getStatus 0 Status.Paused, Event.getStatus 1 Status.Paused,
          Event.alSourcePlayv 2 [1, 2]] ∧
    (SoundSource.synchronize mixerDevice 0 Status.Playing plainPair twoPaused
      = Outcome.returned
          ⟨mixerDevice.alSourcePlayv (toALsizei plainPair.length)
              (plainPair.map (fun src => src.m_source)) twoPaused.world,
            twoPaused.trace ++ statusEvents twoPaused.world plainPair 0
              ++ [Event.alSourcePlayv (toALsizei plainPair.length)
                    (plainPair.map (fun src => src.m_source))]⟩ ∧
    (Status.Paused = Status.Playing →
      SoundSource.synchronize mixerDevice 0 Status.Paused plainPair twoPaused
        = Outcome.returned
            ⟨mixerDevice.alSourcePausev (toALsizei plainPair.length)
                (plainPair.map (fun src => src.m_source)) twoPaused.world,
              twoPaused.trace ++ statusEvents twoPaused.world plainPair 0
                ++ [Event.alSourcePausev (toALsizei plainPair.length)
                      (plainPair.map (fun src => src.m_source))]⟩) ∧
    (∀ e ∈ statusEvents twoPaused.world plainPair 0, e.isStatusQuery = true) ∧
    (statusEvents twoPaused.world plainPair 0).length = plainPair.length ∧
    (plainPair.length < 2 ^ 31 → toALsizei plainPair.length = (plainPair.length : Int))) :=
  ⟨by decide, by decide, by decide,
    synchronize_fast_path mixerDevice 0 Status.Paused plainPair twoPaused (by decide)
      (by decide)⟩

/-- C5. Batched transition: `synchronizeImpl` issues one device call and
nothing else.  The handle list it passes is the list of the handles of the
sources: it has the length of the source list and its `i`-th entry is the
handle of the `i`-th source.  The call is `alSourcePlayv` when the status is
`Playing` and `alSourcePausev` otherwise, and the count handed over is the
number of sources as long as that fits an `ALsizei`. -/
theorem synchronizeImpl_single_batched_call (dev : Device σ) (status : Status)
    (sources : List (SoundSource σ)) (s : Sys σ) :
    ∃ ids : List ALuint,
      ids.length = sources.length ∧
      (∀ i : Nat, ids[i]? = (sources[i]?).map (fun src => src.m_source)) ∧
      SoundSource.synchronizeImpl dev status sources s
        = (if status = Status.Playing then
            ⟨dev.alSourcePlayv (toALsizei sources.length) ids s.world,
              s.trace ++ [Event.alSourcePlayv (toALsizei sources.length) ids]⟩
          else
            ⟨dev.alSourcePausev (toALsizei sources.length) ids s.world,
              s.trace ++ [Event.alSourcePausev (toALsizei sources.length) ids]⟩) ∧
      (sources.length < 2 ^ 31 → toALsizei sources.length = (sources.length : Int)) := by
  refine ⟨handles sources, by simp [handles], ?_, ?_, toALsizei_of_lt _⟩
  · intro i
    simp [handles]
  · rw [synchronizeImpl_eq]
    unfold batchedEffect batchedCall
    split <;> simp [handles]

/-- Run of C5 on the mixer: a list with a repeated source keeps its order and
its duplicate in the handle list. -/
theorem synchronizeImpl_single_batched_call_witness :
    (SoundSource.synchronizeImpl mixerDevice Status.Paused
        [plainSource 2, plainSource 1, plainSource 2] twoPlaying).trace
      = [Event.alSourcePausev 3 [2, 1, 2]] ∧
    ∃ ids : List ALuint,
      ids.length = [plainSource 2, plainSource 1, plainSource 2].length ∧
      (∀ i : Nat, ids[i]? = ([plainSource 2, plainSource 1, plainSource 2][i]?).map
        (fun src => src.m_source)) ∧
      SoundSource.synchronizeImpl mixerDevice Status.Paused
          [plainSource 2, plainSource 1, plainSource 2] twoPlaying
        = (if Status.Paused = Status.Playing then
            ⟨mixerDevice.alSourcePlayv
                (toALsizei [plainSource 2, plainSource 1, plainSource 2].length) ids
                twoPlaying.world,
              twoPlaying.trace ++ [Event.alSourcePlayv
                (toALsizei [plainSource 2, plainSource 1, plainSource 2].length) ids]⟩
          else
            ⟨mixerDevice.alSourcePausev
                (toALsizei [plainSource 2, plainSource 1, plainSource 2].length) ids
                twoPlaying.world,
              twoPlaying.trace ++ [Event.alSourcePausev
                (toALsizei [plainSource 2, plainSource 1, plainSource 2].length) ids]⟩) ∧
      ([plainSource 2, plainSource 1, plainSource 2].length < 2 ^ 31 →
        toALsizei [plainSource 2, plainSource 1, plainSource 2].length
          = ([plainSource 2, plainSource 1, plainSource 2].length : Int)) :=
  ⟨by decide,
    synchronizeImpl_single_batched_call mixerDevice Status.Paused
      [plainSource 2, plainSource 1, plainSource 2] twoPlaying⟩

/-- C6. Stop path: for every list, every offset and every bound on the passes,
both overloads called with `Stopped` return after calling `stop()` on each
source once per occurrence, in list order, and issue nothing else: the calls
added to the trace are exactly these `stop` calls and the world is the one the
`stop` hooks produce. -/
theorem synchronize_stopped_only_stops (dev : Device σ) (fuel : Nat) (t : Time)
    (sources : List (SoundSource σ)) (s : Sys σ) :
    SoundSource.synchronize dev fuel Status.Stopped sources s
      = Outcome.returned
          ⟨sources.foldl (fun w src => src.stop w) s.world,
            s.trace ++ (List.range sources.length).map Event.stop⟩ ∧
    SoundSource.synchronizeOffset dev fuel Status.Stopped t sources s
      = Outcome.returned
          ⟨sources.foldl (fun w src => src.stop w) s.world,
            s.trace ++ (List.range sources.length).map Event.stop⟩ := by
  have hrange : (List.range sources.length).map Event.stop = stopEvents 0 sources.length := by
    simp [stopEvents, List.range_eq_range']
  rw [hrange]
  constructor
  · simp [SoundSource.synchronize, stopLoop_eq]
  · simp [SoundSource.synchronizeOffset, stopLoop_eq]

/-- C7, as the code has it.  A group of mixed statuses is escalated exactly when
it contains a `Stopped` source.  If some source is `Stopped`, the offset-less
`synchronize(Playing, sources)` issues, after the status queries up to the
first stopped source, the prepare call with offset zero for every source in
list order, then the readiness passes, and the batched play only after a pass
in which every source was ready.  If no source is `Stopped`, be the statuses
mixed or not, it returns after the status queries of all sources and one
batched play call, without any prepare call or poll. -/
theorem synchronize_escalates_iff_stopped (dev : Device σ) (fuel : Nat)
    (sources : List (SoundSource σ)) (s : Sys σ) :
    ((∃ src ∈ sources, src.getStatus s.world = Status.Stopped) →
      ∃ (ks : List Nat) (later : List Event),
        (∀ k ∈ ks, k < sources.length) ∧
        (SoundSource.synchronize dev fuel Status.Playing sources s).sys.trace
          = s.trace
            ++ (statusEvents s.world sources 0).take (firstStopped s.world sources + 1)
            ++ prepareEvents Time.Zero 0 sources.length
            ++ failedPasses ks ++ later ∧
        ((later = [] ∧ ks.length = fuel ∧
            (SoundSource.synchronize dev fuel Status.Playing sources s).hasReturned = false) ∨
         (later = readyEvents 0 sources.length
              ++ [Event.alSourcePlayv (toALsizei sources.length)
                    (sources.map (fun src => src.m_source))] ∧
            (SoundSource.synchronize dev fuel Status.Playing sources s).hasReturned = true))) ∧
    ((¬ ∃ src ∈ sources, src.getStatus s.world = Status.Stopped) →
      SoundSource.synchronize dev fuel Status.Playing sources s
        = Outcome.returned
            ⟨dev.alSourcePlayv (toALsizei sources.length)
                (sources.map (fun src => src.m_source)) s.world,
              s.trace ++ statusEvents s.world sources 0
                ++ [Event.alSourcePlayv (toALsizei sources.length)
                      (sources.map (fun src => src.m_source))]⟩) := by
  constructor
  · intro hstopped
    rw [synchronize_of_stopped dev fuel Status.Playing sources s (by decide) hstopped]
    obtain ⟨ks, hks, hcase⟩ := synchronizeOffset_trace dev fuel Status.Playing Time.Zero
      sources ⟨s.world, []⟩ (by decide)
    rcases hcase with ⟨s1, he, _, ht⟩ | ⟨s1, he, hl, ht⟩
    · refine ⟨ks, readyEvents 0 sources.length
          ++ [Event.alSourcePlayv (toALsizei sources.length)
                (sources.map (fun src => src.m_source))], hks, ?_, Or.inr ⟨rfl, ?_⟩⟩
      · rw [he]
        simp [Outcome.prepend, Outcome.sys, Sys.prepend, ht, batchedCall, handles]
      · rw [he]
        rfl
    · refine ⟨ks, [], hks, ?_, Or.inl ⟨rfl, hl, ?_⟩⟩
      · rw [he]
        simp [Outcome.prepend, Outcome.sys, Sys.prepend, ht]
      · rw [he]
        rfl
  · intro hnone
    rw [synchronize_of_none_stopped dev fuel Status.Playing sources s (by decide) hnone]
    simp [batchedEffect, batchedCall, handles]

/-- Runs of the amended C7 on the mixer: a playing source with two stopped ones
is escalated, a paused source with a playing one is not. -/
theorem synchronize_escalates_iff_stopped_witness :
    (∃ src ∈ plainTrio, src.getStatus onePlaying.world = Status.Stopped) ∧
    (¬ ∃ src ∈ plainPair, src.getStatus pausedAndPlaying.world = Status.Stopped) ∧
    (∃ (ks : List Nat) (later : List Event),
        (∀ k ∈ ks, k < plainTrio.length) ∧
        (SoundSource.synchronize mixerDevice 2 Status.Playing plainTrio onePlaying).sys.trace
          = onePlaying.trace
            ++ (statusEvents onePlaying.world plainTrio 0).take
                (firstStopped onePlaying.world plainTrio + 1)
            ++ prepareEvents Time.Zero 0 plainTrio.length
            ++ failedPasses ks ++ later ∧
        ((later = [] ∧ ks.length = 2 ∧
            (SoundSource.synchronize mixerDevice 2 Status.Playing plainTrio
              onePlaying).hasReturned = false) ∨
         (later = readyEvents 0 plainTrio.length
              ++ [Event.alSourcePlayv (toALsizei plainTrio.length)
                    (plainTrio.map (fun src => src.m_source))] ∧
            (SoundSource.synchronize mixerDevice 2 Status.Playing plainTrio
              onePlaying).hasReturned = true))) ∧
    SoundSource.synchronize mixerDevice 2 Status.Playing plainPair pausedAndPlaying
      = Outcome.returned
          ⟨mixerDevice.alSourcePlayv (toALsizei plainPair.length)
              (plainPair.map (fun src => src.m_source)) pausedAndPlaying.world,
            pausedAndPlaying.trace ++ statusEvents pausedAndPlaying.world plainPair 0
              ++ [Event.alSourcePlayv (toALsizei plainPair.length)
                    (plainPair.map (fun src => src.m_source))]⟩ :=
  ⟨⟨plainSource 2, by simp [plainTrio], by decide⟩, by decide,
    (synchronize_escalates_iff_stopped mixerDevice 2 plainTrio onePlaying).1
      ⟨plainSource 2, by simp [plainTrio], by decide⟩,
    (synchronize_escalates_iff_stopped mixerDevice 2 plainPair pausedAndPlaying).2
      (by decide)⟩

/-- C7 as stated fails: with one source paused and one playing the statuses
differ, yet `synchronize(Playing, sources)` issues the two status queries and
the batched play and nothing else, so no source receives the prepare call. -/
theorem synchronize_mixed_group_not_escalated :
    (∃ a ∈ plainPair, ∃ b ∈ plainPair,
      a.getStatus pausedAndPlaying.world ≠ b.getStatus pausedAndPlaying.world) ∧
    plainPair.map (fun src => src.getStatus pausedAndPlaying.world)
      = [Status.Paused, Status.Playing] ∧
    (SoundSource.synchronize mixerDevice 2 Status.Playing plainPair pausedAndPlaying).sys.trace
      = [Event.getStatus 0 Status.Paused, Event.getStatus 1 Status.Playing,
          Event.alSourcePlayv 2 [1, 2]] ∧
    ¬ (∀ i, i < plainPair.length →
        Event.prepareSynchronizedPlayback i Time.Zero
          ∈ (SoundSource.synchronize mixerDevice 2 Status.Playing plainPair
              pausedAndPlaying).sys.trace) := by
  refine ⟨⟨plainSource 1, by simp [plainPair], plainSource 2, by simp [plainPair], by decide⟩,
    by decide, by decide, ?_⟩
  intro h
  have h0 := h 0 (by decide)
  revert h0
  decide

/-! ### Claims about the readiness loop -/

/-- C8. Structure of the rendezvous.  A readiness pass starts at the first
source and polls in list order; either every source answers `true`, nothing is
slept and the loop ends, or the pass ends at the first source `k` that answers
`false` (the sources after `k` are not polled), one sleep of 5 ms follows and
the next pass starts at the first source again.  Hence the calls of the
explicit-offset `synchronize` after the prepare calls are a sequence of such
failed passes, with one sleep each, followed once the loop has ended by one
pass without a `false` answer and the batched call. -/
theorem rendezvous_pass_structure (dev : Device σ) (fuel : Nat) (status : Status) (t : Time)
    (sources : List (SoundSource σ)) (s : Sys σ) (hs : status ≠ Status.Stopped) :
    (∀ s0 : Sys σ,
      ((SoundSource.readinessPass dev sources 0 s0).1 = true ∧
        (SoundSource.readinessPass dev sources 0 s0).2.trace
          = s0.trace ++ (List.range sources.length).map
              (fun i => Event.isSynchronizedPlaybackReady i true) ∧
        SoundSource.waitAllReady dev sources (fuel + 1) s0
          = Outcome.returned (SoundSource.readinessPass dev sources 0 s0).2) ∨
      ((SoundSource.readinessPass dev sources 0 s0).1 = false ∧
        (∃ k, k < sources.length ∧
          (SoundSource.readinessPass dev sources 0 s0).2.trace
            = s0.trace ++ (List.range k).map
                (fun i => Event.isSynchronizedPlaybackReady i true)
              ++ [Event.isSynchronizedPlaybackReady k false, Event.sleep ⟨5000⟩]) ∧
        SoundSource.waitAllReady dev sources (fuel + 1) s0
          = SoundSource.waitAllReady dev sources fuel
              (SoundSource.readinessPass dev sources 0 s0).2)) ∧
    ∃ ks : List Nat,
      (∀ k ∈ ks, k < sources.length) ∧
      (failedPasses ks).countP Event.isSleep = ks.length ∧
      ((∃ s1, SoundSource.synchronizeOffset dev fuel status t sources s = Outcome.returned s1 ∧
          ks.length < fuel ∧
          s1.trace = s.trace ++ prepareEvents t 0 sources.length ++ failedPasses ks
            ++ readyEvents 0 sources.length ++ [batchedCall status (handles sources)]) ∨
       (∃ s1, SoundSource.synchronizeOffset dev fuel status t sources s = Outcome.waiting s1 ∧
          ks.length = fuel ∧
          s1.trace = s.trace ++ prepareEvents t 0 sources.length ++ failedPasses ks)) := by
  have hrange : ∀ n : Nat, (List.range n).map
      (fun i => Event.isSynchronizedPlaybackReady i true) = readyEvents 0 n := by
    intro n
    simp [readyEvents, List.range_eq_range']
  constructor
  · intro s0
    rcases readinessPass_failedPass dev sources s0 with h | ⟨h1, k, hk, h2⟩
    · left
      refine ⟨h.1, by rw [hrange]; exact h.2, ?_⟩
      have hp : SoundSource.readinessPass dev sources 0 s0
          = (true, (SoundSource.readinessPass dev sources 0 s0).2) := by rw [← h.1]
      simp only [SoundSource.waitAllReady]
      rw [hp]
    · right
      refine ⟨h1, ⟨k, hk, ?_⟩, ?_⟩
      · rw [hrange, h2]
        simp [failedPass, milliseconds]
      · have hp : SoundSource.readinessPass dev sources 0 s0
            = (false, (SoundSource.readinessPass dev sources 0 s0).2) := by rw [← h1]
        simp only [SoundSource.waitAllReady]
        rw [hp]
  · obtain ⟨ks, hks, hcase⟩ := synchronizeOffset_trace dev fuel status t sources s hs
    refine ⟨ks, hks, countP_isSleep_failedPasses ks, ?_⟩
    rcases hcase with ⟨s1, he, hl, ht⟩ | ⟨s1, he, hl, ht⟩
    · exact Or.inl ⟨s1, he, hl, by rw [ht]; simp⟩
    · exact Or.inr ⟨s1, he, hl, by rw [ht]; simp⟩

/-- Run of C8 on the mixer: the streaming source is ready after 3 ms, so the
first pass fails at it, 5 ms are slept once, and the second pass succeeds. -/
theorem rendezvous_pass_structure_witness :
    Status.Paused ≠ Status.Stopped ∧
    (SoundSource.synchronizeOffset mixerDevice 4 Status.Paused Time.Zero plainAndStream
        twoPlaying).sys.trace
      = [Event.prepareSynchronizedPlayback 0 Time.Zero,
          Event.prepareSynchronizedPlayback 1 Time.Zero,
          Event.isSynchronizedPlaybackReady 0 true,
          Event.isSynchronizedPlaybackReady 1 false,
          Event.sleep ⟨5000⟩,
          Event.isSynchronizedPlaybackReady 0 true,
          Event.isSynchronizedPlaybackReady 1 true,
          Event.alSourcePausev 2 [1, 2]] ∧
    ((∀ s0 : Sys Mixer,
      ((SoundSource.readinessPass mixerDevice plainAndStream 0 s0).1 = true ∧
        (SoundSource.readinessPass mixerDevice plainAndStream 0 s0).2.trace
          = s0.trace ++ (List.range plainAndStream.length).map
              (fun i => Event.isSynchronizedPlaybackReady i true) ∧
        SoundSource.waitAllReady mixerDevice plainAndStream (4 + 1) s0
          = Outcome.returned (SoundSource.readinessPass mixerDevice plainAndStream 0 s0).2) ∨
      ((SoundSource.readinessPass mixerDevice plainAndStream 0 s0).1 = false ∧
        (∃ k, k < plainAndStream.length ∧
          (SoundSource.readinessPass mixerDevice plainAndStream 0 s0).2.trace
            = s0.trace ++ (List.range k).map
                (fun i => Event.isSynchronizedPlaybackReady i true)
              ++ [Event.isSynchronizedPlaybackReady k false, Event.sleep ⟨5000⟩]) ∧
        SoundSource.waitAllReady mixerDevice plainAndStream (4 + 1) s0
          = SoundSource.waitAllReady mixerDevice plainAndStream 4
              (SoundSource.readinessPass mixerDevice plainAndStream 0 s0).2)) ∧
    ∃ ks : List Nat,
      (∀ k ∈ ks, k < plainAndStream.length) ∧
      (failedPasses ks).countP Event.isSleep = ks.length ∧
      ((∃ s1, SoundSource.synchronizeOffset mixerDevice 4 Status.Paused Time.Zero
            plainAndStream twoPlaying = Outcome.returned s1 ∧
          ks.length < 4 ∧
          s1.trace = twoPlaying.trace ++ prepareEvents Time.Zero 0 plainAndStream.length
            ++ failedPasses ks ++ readyEvents 0 plainAndStream.length
            ++ [batchedCall Status.Paused (handles plainAndStream)]) ∨
       (∃ s1, SoundSource.synchronizeOffset mixerDevice 4 Status.Paused Time.Zero
            plainAndStream twoPlaying = Outcome.waiting s1 ∧
          ks.length = 4 ∧
          s1.trace = twoPlaying.trace ++ prepareEvents Time.Zero 0 plainAndStream.length
            ++ failedPasses ks))) :=
  ⟨by decide, by decide,
    rendezvous_pass_structure mixerDevice 4 Status.Paused Time.Zero plainAndStream twoPlaying
      (by decide)⟩

/-- C9. Unbounded wait: when some source of the list answers `false` to every
readiness poll and the target status is not `Stopped`, the explicit-offset
`synchronize` is still inside its readiness loop after any number `fuel` of
passes: all `fuel` passes have failed, each with its sleep, and no batched
play/pause call has been issued. -/
theorem synchronizeOffset_waits_forever (dev : Device σ) (fuel : Nat) (status : Status)
    (t : Time) (sources : List (SoundSource σ)) (s : Sys σ)
    (hs : status ≠ Status.Stopped)
    (hstall : ∃ src ∈ sources, ∀ w, (src.isSynchronizedPlaybackReady w).1 = false) :
    ∃ (ks : List Nat) (s1 : Sys σ),
      SoundSource.synchronizeOffset dev fuel status t sources s = Outcome.waiting s1 ∧
      ks.length = fuel ∧
      (∀ k ∈ ks, k < sources.length) ∧
      s1.trace = s.trace ++ prepareEvents t 0 sources.length ++ failedPasses ks ∧
      (s1.trace.drop s.trace.length).countP Event.isSleep = fuel ∧
      (s1.trace.drop s.trace.length).countP Event.isBatched = 0 := by
  obtain ⟨ks, hks, hcase⟩ := synchronizeOffset_trace dev fuel status t sources s hs
  rcases hcase with ⟨s1, he, _, _⟩ | ⟨s1, he, hl, ht⟩
  · exfalso
    have hw := waitAllReady_stalled dev sources fuel
      (SoundSource.prepareLoop t sources 0 s) hstall
    unfold SoundSource.synchronizeOffset at he
    rw [if_neg hs] at he
    cases hwait : SoundSource.waitAllReady dev sources fuel
        (SoundSource.prepareLoop t sources 0 s) with
    | returned s2 =>
      rw [hwait] at hw
      simp [Outcome.hasReturned] at hw
    | waiting s2 =>
      rw [hwait] at he
      simp at he
  · have hdrop : s1.trace.drop s.trace.length
        = prepareEvents t 0 sources.length ++ failedPasses ks := by
      rw [ht]
      simp
    have hprepSleep : (prepareEvents t 0 sources.length).countP Event.isSleep = 0 := by
      rw [List.countP_eq_zero]
      intro e he
      obtain ⟨k, rfl⟩ := mem_prepareEvents he
      simp [Event.isSleep]
    refine ⟨ks, s1, he, hl, hks, by rw [ht]; simp, ?_, ?_⟩
    · rw [hdrop, List.countP_append, hprepSleep, countP_isSleep_failedPasses, hl]
      simp
    · rw [hdrop, List.countP_eq_zero]
      intro e he
      have : e ∈ prepareEvents t 0 sources.length ++ failedPasses ks
          ++ readyEvents 0 sources.length := List.mem_append_left _ he
      simp [not_isBatched_of_mem this]

/-- Run of C9 on the mixer: with a source that is never ready the call is still
waiting after 6 passes, having slept 6 times and issued no batched call. -/
theorem synchronizeOffset_waits_forever_witness :
    Status.Playing ≠ Status.Stopped ∧
    (∃ src ∈ plainAndStalled, ∀ w, (src.isSynchronizedPlaybackReady w).1 = false) ∧
    (SoundSource.synchronizeOffset mixerDevice 6 Status.Playing tenSeconds plainAndStalled
        twoPlaying).hasReturned = false ∧
    ∃ (ks : List Nat) (s1 : Sys Mixer),
      SoundSource.synchronizeOffset mixerDevice 6 Status.Playing tenSeconds plainAndStalled
        twoPlaying = Outcome.waiting s1 ∧
      ks.length = 6 ∧
      (∀ k ∈ ks, k < plainAndStalled.length) ∧
      s1.trace = twoPlaying.trace ++ prepareEvents tenSeconds 0 plainAndStalled.length
        ++ failedPasses ks ∧
      (s1.trace.drop twoPlaying.trace.length).countP Event.isSleep = 6 ∧
      (s1.trace.drop twoPlaying.trace.length).countP Event.isBatched = 0 :=
  ⟨by decide, ⟨stalledSource 2, by simp [plainAndStalled], fun _ => rfl⟩, by decide,
    synchronizeOffset_waits_forever mixerDevice 6 Status.Playing tenSeconds plainAndStalled
      twoPlaying (by decide) ⟨stalledSource 2, by simp [plainAndStalled], fun _ => rfl⟩⟩

/-- C10. Default hooks: the base-class prepare hook leaves the world as it is
for every offset and the base-class readiness hook answers `true` on every
call.  So when all sources of the list keep both default hooks and the target
status is not `Stopped`, the explicit-offset `synchronize` returns as soon as
one pass is allowed: it has not returned before the first pass, and with one
pass or more it issues the prepare calls, one readiness pass in which every
source is ready, no sleep, and the batched call, whose effect on the world is
the only one. -/
theorem synchronizeOffset_default_hooks (dev : Device σ) (fuel : Nat) (status : Status)
    (t : Time) (sources : List (SoundSource σ)) (s : Sys σ)
    (hs : status ≠ Status.Stopped)
    (hdefault : ∀ src ∈ sources,
      src.prepareSynchronizedPlayback = SoundSourceBase.prepareSynchronizedPlayback ∧
      src.isSynchronizedPlaybackReady = SoundSourceBase.isSynchronizedPlaybackReady) :
    (∀ (t0 : Time) (w : σ), SoundSourceBase.prepareSynchronizedPlayback t0 w = w) ∧
    (∀ w : σ, SoundSourceBase.isSynchronizedPlaybackReady w = (true, w)) ∧
    (SoundSource.synchronizeOffset dev 0 status t sources s).hasReturned = false ∧
    SoundSource.synchronizeOffset dev (fuel + 1) status t sources s
      = Outcome.returned
          ⟨(if status = Status.Playing then
              dev.alSourcePlayv (toALsizei sources.length)
                (sources.map (fun src => src.m_source)) s.world
            else
              dev.alSourcePausev (toALsizei sources.length)
                (sources.map (fun src => src.m_source)) s.world),
            s.trace
              ++ (List.range sources.length).map
                  (fun i => Event.prepareSynchronizedPlayback i t)
              ++ (List.range sources.length).map
                  (fun i => Event.isSynchronizedPlaybackReady i true)
              ++ [if status = Status.Playing then
                    Event.alSourcePlayv (toALsizei sources.length)
                      (sources.map (fun src => src.m_source))
                  else
                    Event.alSourcePausev (toALsizei sources.length)
                      (sources.map (fun src => src.m_source))]⟩ := by
  have hr1 : (List.range sources.length).map
      (fun i => Event.prepareSynchronizedPlayback i t) = prepareEvents t 0 sources.length := by
    simp [prepareEvents, List.range_eq_range']
  have hr2 : (List.range sources.length).map
      (fun i => Event.isSynchronizedPlaybackReady i true) = readyEvents 0 sources.length := by
    simp [readyEvents, List.range_eq_range']
  refine ⟨fun _ _ => rfl, fun _ => rfl, ?_, ?_⟩
  · simp [SoundSource.synchronizeOffset, hs, SoundSource.waitAllReady, Outcome.hasReturned]
  · rw [hr1, hr2]
    unfold SoundSource.synchronizeOffset
    rw [if_neg hs, prepareLoop_eq,
      prepareLoop_default t sources s.world (fun src h => (hdefault src h).1)]
    simp only [SoundSource.waitAllReady]
    rw [readinessPass_default dev sources 0 _ (fun src h => (hdefault src h).2)]
    simp only [synchronizeImpl_eq, batchedEffect, batchedCall, handles, List.length_map]

/-- Run of C10 on the mixer: three sources with the default hooks are paused
together after one pass and without any sleep. -/
theorem synchronizeOffset_default_hooks_witness :
    Status.Paused ≠ Status.Stopped ∧
    (∀ src ∈ plainTrio,
      src.prepareSynchronizedPlayback = SoundSourceBase.prepareSynchronizedPlayback ∧
      src.isSynchronizedPlaybackReady = SoundSourceBase.isSynchronizedPlaybackReady) ∧
    (SoundSource.synchronizeOffset mixerDevice 1 Status.Paused tenSeconds plainTrio
        twoPlaying).sys.trace
      = [Event.prepareSynchronizedPlayback 0 tenSeconds,
          Event.prepareSynchronizedPlayback 1 tenSeconds,
          Event.prepareSynchronizedPlayback 2 tenSeconds,
          Event.isSynchronizedPlaybackReady 0 true,
          Event.isSynchronizedPlaybackReady 1 true,
          Event.isSynchronizedPlaybackReady 2 true,
          Event.alSourcePausev 3 [1, 2, 3]] ∧
    (SoundSource.synchronizeOffset mixerDevice 1 Status.Paused tenSeconds plainTrio
        twoPlaying).sys.world = ⟨[], [1, 2], 0⟩ ∧
    ((∀ (t0 : Time) (w : Mixer), SoundSourceBase.prepareSynchronizedPlayback t0 w = w) ∧
    (∀ w : Mixer, SoundSourceBase.isSynchronizedPlaybackReady w = (true, w)) ∧
    (SoundSource.synchronizeOffset mixerDevice 0 Status.Paused tenSeconds plainTrio
        twoPlaying).hasReturned = false ∧
    SoundSource.synchronizeOffset mixerDevice (0 + 1) Status.Paused tenSeconds plainTrio
        twoPlaying
      = Outcome.returned
          ⟨(if Status.Paused = Status.Playing then
              mixerDevice.alSourcePlayv (toALsizei plainTrio.length)
                (plainTrio.map (fun src => src.m_source)) twoPlaying.world
            else
              mixerDevice.alSourcePausev (toALsizei plainTrio.length)
                (plainTrio.map (fun src => src.m_source)) twoPlaying.world),
            twoPlaying.trace
              ++ (List.range plainTrio.length).map
                  (fun i => Event.prepareSynchronizedPlayback i tenSeconds)
              ++ (List.range plainTrio.length).map
                  (fun i => Event.isSynchronizedPlaybackReady i true)
              ++ [if Status.Paused = Status.Playing then
                    Event.alSourcePlayv (toALsizei plainTrio.length)
                      (plainTrio.map (fun src => src.m_source))
                  else
                    Event.alSourcePausev (toALsizei plainTrio.length)
                      (plainTrio.map (fun src => src.m_source))]⟩) :=
  have hplain : ∀ src ∈ plainTrio,
      src.prepareSynchronizedPlayback = SoundSourceBase.prepareSynchronizedPlayback ∧
      src.isSynchronizedPlaybackReady = SoundSourceBase.isSynchronizedPlaybackReady := by
    intro src hmem
    simp only [plainTrio, List.mem_cons, List.mem_singleton, List.not_mem_nil, or_false] at hmem
    rcases hmem with rfl | rfl | rfl <;> exact ⟨rfl, rfl⟩
  ⟨by decide, hplain, by decide, by decide,
    synchronizeOffset_default_hooks mixerDevice 0 Status.Paused tenSeconds plainTrio twoPlaying
      (by decide) hplain⟩

/-! ### Always-ready sources -/

theorem readinessPass_ready (dev : Device σ) (sources : List (SoundSource σ)) (i : Nat)
    (s : Sys σ)
    (hready : ∀ src ∈ sources, ∀ w, (src.isSynchronizedPlaybackReady w).1 = true) :
    (SoundSource.readinessPass dev sources i s).1 = true := by
  induction sources generalizing i s with
  | nil => rfl
  | cons src rest ih =>
    have h0 := hready src (by simp) s.world
    simp only [SoundSource.readinessPass, h0]
    exact ih _ _ (fun x hx => hready x (by simp [hx]))

theorem synchronizeOffset_ready (dev : Device σ) (fuel : Nat) (status : Status) (t : Time)
    (sources : List (SoundSource σ)) (s : Sys σ) (hs : status ≠ Status.Stopped)
    (hready : ∀ src ∈ sources, ∀ w, (src.isSynchronizedPlaybackReady w).1 = true) :
    ∃ w1 : σ,
      SoundSource.synchronizeOffset dev (fuel + 1) status t sources s
        = Outcome.returned
            ⟨batchedEffect dev status (handles sources) w1,
              s.trace ++ (prepareEvents t 0 sources.length ++ readyEvents 0 sources.length)
                ++ [batchedCall status (handles sources)]⟩ := by
  have hb := readinessPass_ready dev sources 0 (SoundSource.prepareLoop t sources 0 s) hready
  have hp : SoundSource.readinessPass dev sources 0 (SoundSource.prepareLoop t sources 0 s)
      = (true, (SoundSource.readinessPass dev sources 0
          (SoundSource.prepareLoop t sources 0 s)).2) := by rw [← hb]
  have htr : (SoundSource.readinessPass dev sources 0
      (SoundSource.prepareLoop t sources 0 s)).2.trace
      = (SoundSource.prepareLoop t sources 0 s).trace ++ readyEvents 0 sources.length := by
    rcases readinessPass_trace dev sources 0 (SoundSource.prepareLoop t sources 0 s)
      with h | h
    · exact h.2
    · rw [hb] at h
      exact absurd h.1 (by simp)
  refine ⟨(SoundSource.readinessPass dev sources 0
    (SoundSource.prepareLoop t sources 0 s)).2.world, ?_⟩
  unfold SoundSource.synchronizeOffset
  rw [if_neg hs]
  simp only [SoundSource.waitAllReady]
  rw [hp]
  simp only [synchronizeImpl_eq, htr]
  simp [prepareLoop_eq]

theorem synchronize_ready (dev : Device σ) (fuel : Nat) (status : Status)
    (sources : List (SoundSource σ)) (s : Sys σ) (hs : status ≠ Status.Stopped)
    (hready : ∀ src ∈ sources, ∀ w, (src.isSynchronizedPlaybackReady w).1 = true) :
    ∃ (w1 : σ) (before : List Event),
      (∀ e ∈ before, e.isBatched = false) ∧
      SoundSource.synchronize dev (fuel + 1) status sources s
        = Outcome.returned
            ⟨batchedEffect dev status (handles sources) w1,
              s.trace ++ before ++ [batchedCall status (handles sources)]⟩ := by
  by_cases hstopped : ∃ src ∈ sources, src.getStatus s.world = Status.Stopped
  · obtain ⟨w1, hw1⟩ := synchronizeOffset_ready dev fuel status Time.Zero sources
      ⟨s.world, []⟩ hs hready
    refine ⟨w1, (statusEvents s.world sources 0).take (firstStopped s.world sources + 1)
      ++ (prepareEvents Time.Zero 0 sources.length ++ readyEvents 0 sources.length), ?_, ?_⟩
    · intro e he
      rcases List.mem_append.mp he with h | h
      · have := isStatusQuery_of_mem_statusEvents _ _ _ e (List.mem_of_mem_take h)
        cases e <;> simp_all [Event.isStatusQuery, Event.isBatched]
      · have : e ∈ prepareEvents Time.Zero 0 sources.length ++ failedPasses []
            ++ readyEvents 0 sources.length := by
          simpa [failedPasses] using h
        exact not_isBatched_of_mem this
    · rw [synchronize_of_stopped dev (fuel + 1) status sources s hs hstopped, hw1]
      simp [Outcome.prepend, Sys.prepend]
  · refine ⟨s.world, statusEvents s.world sources 0, ?_, ?_⟩
    · intro e he
      have := isStatusQuery_of_mem_statusEvents _ _ _ e he
      cases e <;> simp_all [Event.isStatusQuery, Event.isBatched]
    · rw [synchronize_of_none_stopped dev (fuel + 1) status sources s hs hstopped]

theorem filter_isBatched_added (tr before : List Event) (e : Event)
    (hbefore : ∀ x ∈ before, x.isBatched = false) (he : e.isBatched = true) :
    ((tr ++ before ++ [e]).drop tr.length).filter Event.isBatched = [e] := by
  have hdrop : (tr ++ before ++ [e]).drop tr.length = before ++ [e] := by
    rw [List.append_assoc, List.drop_left]
  have hnone : before.filter Event.isBatched = [] := by
    rw [List.filter_eq_nil_iff]
    intro x hx
    simp [hbefore x hx]
  rw [hdrop, List.filter_append, hnone]
  simp [he]

/-! ### Claims about repeated calls and empty groups -/

/-- C11. Idempotence: let every source of the list answer `true` to every
readiness poll and let the device be one on which the batched play of the
handles of the list leaves every source of the list `Playing`.  Then two
successive calls of the offset-less `synchronize(Playing, sources)`, the second
started in the state the first one left, both return; each issues exactly one
batched call, `alSourcePlayv` with the handles of the sources in list order;
and every source has the same status, `Playing`, after the second call as after
the first. -/
theorem synchronize_playing_twice (dev : Device σ) (fuel fuel2 : Nat)
    (sources : List (SoundSource σ)) (s : Sys σ)
    (hready : ∀ src ∈ sources, ∀ w, (src.isSynchronizedPlaybackReady w).1 = true)
    (hplay : ∀ w, ∀ src ∈ sources,
      src.getStatus (dev.alSourcePlayv (toALsizei sources.length)
        (sources.map (fun src => src.m_source)) w) = Status.Playing) :
    ∃ s1 s2 : Sys σ,
      SoundSource.synchronize dev (fuel + 1) Status.Playing sources s = Outcome.returned s1 ∧
      SoundSource.synchronize dev fuel2 Status.Playing sources s1 = Outcome.returned s2 ∧
      (s1.trace.drop s.trace.length).filter Event.isBatched
        = [Event.alSourcePlayv (toALsizei sources.length)
            (sources.map (fun src => src.m_source))] ∧
      (s2.trace.drop s1.trace.length).filter Event.isBatched
        = [Event.alSourcePlayv (toALsizei sources.length)
            (sources.map (fun src => src.m_source))] ∧
      (∀ src ∈ sources, src.getStatus s1.world = Status.Playing) ∧
      (∀ src ∈ sources, src.getStatus s2.world = src.getStatus s1.world) := by
  have hcall : batchedCall Status.Playing (handles sources)
      = Event.alSourcePlayv (toALsizei sources.length)
          (sources.map (fun src => src.m_source)) := by
    simp [batchedCall, handles]
  have heff : ∀ w, batchedEffect dev Status.Playing (handles sources) w
      = dev.alSourcePlayv (toALsizei sources.length)
          (sources.map (fun src => src.m_source)) w := by
    intro w
    simp [batchedEffect, handles]
  obtain ⟨w1, before, hbefore, hfirst⟩ :=
    synchronize_ready dev fuel Status.Playing sources s (by decide) hready
  have hstatus1 : ∀ src ∈ sources,
      src.getStatus (batchedEffect dev Status.Playing (handles sources) w1)
        = Status.Playing := by
    intro src hsrc
    rw [heff]
    exact hplay w1 src hsrc
  have hnone : ¬ ∃ src ∈ sources,
      src.getStatus (batchedEffect dev Status.Playing (handles sources) w1)
        = Status.Stopped := by
    rintro ⟨src, hsrc, hst⟩
    rw [hstatus1 src hsrc] at hst
    cases hst
  refine ⟨_, _, hfirst,
    synchronize_of_none_stopped dev fuel2 Status.Playing sources _ (by decide) hnone,
    ?_, ?_, hstatus1, ?_⟩
  · rw [← hcall]
    exact filter_isBatched_added _ _ _ hbefore (isBatched_batchedCall _ _)
  · rw [← hcall]
    refine filter_isBatched_added _ _ _ ?_ (isBatched_batchedCall _ _)
    intro e he
    have := isStatusQuery_of_mem_statusEvents _ _ _ e he
    cases e <;> simp_all [Event.isStatusQuery, Event.isBatched]
  · intro src hsrc
    rw [hstatus1 src hsrc]
    show src.getStatus (batchedEffect dev Status.Playing (handles sources) _) = Status.Playing
    rw [heff]
    exact hplay _ src hsrc

theorem mixer_status_after_play (ids : List ALuint) (w : Mixer) (h : ALuint) (hmem : h ∈ ids) :
    (mixerDevice.alSourcePlayv (ids.length : Int) ids w).status h = Status.Playing := by
  have hn : ¬ ((ids.length : Int) < 0) := by omega
  by_cases hp : h ∈ w.playing
  · simp [mixerDevice, Mixer.status, hn, hp]
  · simp [mixerDevice, Mixer.status, hn, hp, hmem]

/-- Run of C11 on the mixer: handle 1 plays and handles 2 and 3 are stopped; the
first call is escalated, the second is not, and both end in the same batched
play of the handles 1, 2, 3. -/
theorem synchronize_playing_twice_witness :
    (∀ src ∈ plainTrio, ∀ w, (src.isSynchronizedPlaybackReady w).1 = true) ∧
    (∀ w, ∀ src ∈ plainTrio,
      src.getStatus (mixerDevice.alSourcePlayv (toALsizei plainTrio.length)
        (plainTrio.map (fun src => src.m_source)) w) = Status.Playing) ∧
    (SoundSource.synchronize mixerDevice 1 Status.Playing plainTrio onePlaying).sys.trace
      = [Event.getStatus 0 Status.Playing, Event.getStatus 1 Status.Stopped,
          Event.prepareSynchronizedPlayback 0 Time.Zero,
          Event.prepareSynchronizedPlayback 1 Time.Zero,
          Event.prepareSynchronizedPlayback 2 Time.Zero,
          Event.isSynchronizedPlaybackReady 0 true,
          Event.isSynchronizedPlaybackReady 1 true,
          Event.isSynchronizedPlaybackReady 2 true,
          Event.alSourcePlayv 3 [1, 2, 3]] ∧
    ((SoundSource.synchronize mixerDevice 1 Status.Playing plainTrio
        (SoundSource.synchronize mixerDevice 1 Status.Playing plainTrio
          onePlaying).sys).sys.trace.drop 9)
      = [Event.getStatus 0 Status.Playing, Event.getStatus 1 Status.Playing,
          Event.getStatus 2 Status.Playing, Event.alSourcePlayv 3 [1, 2, 3]] ∧
    ∃ s1 s2 : Sys Mixer,
      SoundSource.synchronize mixerDevice (0 + 1) Status.Playing plainTrio onePlaying
        = Outcome.returned s1 ∧
      SoundSource.synchronize mixerDevice 1 Status.Playing plainTrio s1
        = Outcome.returned s2 ∧
      (s1.trace.drop onePlaying.trace.length).filter Event.isBatched
        = [Event.alSourcePlayv (toALsizei plainTrio.length)
            (plainTrio.map (fun src => src.m_source))] ∧
      (s2.trace.drop s1.trace.length).filter Event.isBatched
        = [Event.alSourcePlayv (toALsizei plainTrio.length)
            (plainTrio.map (fun src => src.m_source))] ∧
      (∀ src ∈ plainTrio, src.getStatus s1.world = Status.Playing) ∧
      (∀ src ∈ plainTrio, src.getStatus s2.world = src.getStatus s1.world) :=
  have hready : ∀ src ∈ plainTrio, ∀ w, (src.isSynchronizedPlaybackReady w).1 = true := by
    intro src hmem w
    simp only [plainTrio, List.mem_cons, List.mem_singleton, List.not_mem_nil, or_false] at hmem
    rcases hmem with rfl | rfl | rfl <;> rfl
  have hplay : ∀ w, ∀ src ∈ plainTrio,
      src.getStatus (mixerDevice.alSourcePlayv (toALsizei plainTrio.length)
        (plainTrio.map (fun src => src.m_source)) w) = Status.Playing := by
    intro w src hmem
    have hcount : toALsizei plainTrio.length
        = (((plainTrio.map (fun src => src.m_source)).length : Nat) : Int) := by decide
    rw [hcount]
    simp only [plainTrio, List.mem_cons, List.mem_singleton, List.not_mem_nil, or_false] at hmem
    rcases hmem with rfl | rfl | rfl
    · exact mixer_status_after_play _ w 1 (by decide)
    · exact mixer_status_after_play _ w 2 (by decide)
    · exact mixer_status_after_play _ w 3 (by decide)
  ⟨hready, hplay, by decide, by decide,
    synchronize_playing_twice mixerDevice 0 1 plainTrio onePlaying hready hplay⟩

/-- C12, as the code has it.  On a list of zero sources both overloads return
for every target status, call no hook and never sleep.  With `Stopped` nothing
at all is issued and the world is untouched.  With `Paused` or `Playing` one
call is issued, the batched pause or play with count 0 and no handle (in the
explicit-offset overload after one readiness pass that polls nothing), so the
world is untouched on every device on which an empty batch changes nothing. -/
theorem synchronize_empty_group (dev : Device σ) (fuel : Nat) (status : Status) (t : Time)
    (s : Sys σ) :
    ∃ after : Sys σ,
      after = (if status = Status.Stopped then s
        else if status = Status.Playing then
          ⟨dev.alSourcePlayv 0 [] s.world, s.trace ++ [Event.alSourcePlayv 0 []]⟩
        else
          ⟨dev.alSourcePausev 0 [] s.world, s.trace ++ [Event.alSourcePausev 0 []]⟩) ∧
      SoundSource.synchronize dev fuel status [] s = Outcome.returned after ∧
      SoundSource.synchronizeOffset dev (fuel + 1) status t [] s = Outcome.returned after ∧
      ((∀ w, dev.alSourcePlayv 0 [] w = w) → (∀ w, dev.alSourcePausev 0 [] w = w) →
        after.world = s.world) := by
  have hzero : toALsizei 0 = 0 := by decide
  refine ⟨_, rfl, ?_, ?_, ?_⟩
  · cases status <;>
      simp [SoundSource.synchronize, SoundSource.stopLoop, SoundSource.statusScan,
        SoundSource.synchronizeImpl, SoundSource.fillSourceIDs, hzero]
  · cases status <;>
      simp [SoundSource.synchronizeOffset, SoundSource.stopLoop, SoundSource.prepareLoop,
        SoundSource.waitAllReady, SoundSource.readinessPass, SoundSource.synchronizeImpl,
        SoundSource.fillSourceIDs, hzero]
  · intro hplay hpause
    cases status <;> simp [hplay, hpause]

/-- Run of the amended C12 on the mixer, whose device leaves the world as it is
on an empty batch. -/
theorem synchronize_empty_group_witness :
    (∀ w, mixerDevice.alSourcePlayv 0 [] w = w) ∧
    (∀ w, mixerDevice.alSourcePausev 0 [] w = w) ∧
    ∃ after : Sys Mixer,
      after = (if Status.Paused = Status.Stopped then twoPlaying
        else if Status.Paused = Status.Playing then
          ⟨mixerDevice.alSourcePlayv 0 [] twoPlaying.world,
            twoPlaying.trace ++ [Event.alSourcePlayv 0 []]⟩
        else
          ⟨mixerDevice.alSourcePausev 0 [] twoPlaying.world,
            twoPlaying.trace ++ [Event.alSourcePausev 0 []]⟩) ∧
      SoundSource.synchronize mixerDevice 3 Status.Paused [] twoPlaying
        = Outcome.returned after ∧
      SoundSource.synchronizeOffset mixerDevice (3 + 1) Status.Paused tenSeconds [] twoPlaying
        = Outcome.returned after ∧
      after.world = twoPlaying.world :=
  have hplay : ∀ w, mixerDevice.alSourcePlayv 0 [] w = w := by
    intro w
    simp [mixerDevice]
  have hpause : ∀ w, mixerDevice.alSourcePausev 0 [] w = w := by
    intro w
    simp [mixerDevice]
  ⟨hplay, hpause,
    (synchronize_empty_group mixerDevice 3 Status.Paused tenSeconds twoPlaying).elim
      (fun after h => ⟨after, h.1, h.2.1, h.2.2.1, h.2.2.2 hplay hpause⟩)⟩

/-- C12 as stated fails: on the empty list `synchronize(Playing, ...)` and the
explicit-offset `synchronize(Paused, ...)` each issue a device call, the batched
play or pause with count 0. -/
theorem synchronize_empty_group_issues_call :
    (SoundSource.synchronize mixerDevice 1 Status.Playing [] twoPlaying).sys.trace
      = [Event.alSourcePlayv 0 []] ∧
    (SoundSource.synchronizeOffset mixerDevice 1 Status.Paused tenSeconds [] twoPlaying).sys.trace
      = [Event.alSourcePausev 0 []] ∧
    ¬ (∀ e ∈ (SoundSource.synchronize mixerDevice 1 Status.Playing []
          twoPlaying).sys.trace, e.isBatched = false) := by
  refine ⟨by decide, by decide, ?_⟩
  intro h
  have := h (Event.alSourcePlayv 0 []) (by decide)
  revert this
  decide

/-! ### Claims about `getStatus` -/

theorem getStatus_eq (al : OpenAL σ) (self : SoundSource σ) (s : Sys σ) :
    SoundSourceBase.getStatus al self s
      = (normalizedStatus (al.alGetSourcei self.m_source AL_SOURCE_STATE s.world),
          ⟨s.world, s.trace ++ [Event.alGetSourcei self.m_source AL_SOURCE_STATE
            (al.alGetSourcei self.m_source AL_SOURCE_STATE s.world)]⟩) := by
  unfold SoundSourceBase.getStatus normalizedStatus
  simp only [alCheck.alGetSourcei]
  by_cases h1 : al.alGetSourcei self.m_source AL_SOURCE_STATE s.world = AL_INITIAL
  · simp [h1]
  · by_cases h2 : al.alGetSourcei self.m_source AL_SOURCE_STATE s.world = AL_STOPPED
    · simp [h2]
    · by_cases h3 : al.alGetSourcei self.m_source AL_SOURCE_STATE s.world = AL_PAUSED
      · simp [h3]
      · by_cases h4 : al.alGetSourcei self.m_source AL_SOURCE_STATE s.world = AL_PLAYING
        · simp [h4]
        · simp [h1, h2, h3, h4]

/-- C13. `getStatus` is a query of the device state of the own handle: it issues
one call, the read of `AL_SOURCE_STATE` of `m_source`, and leaves the world as
it is; it returns `Stopped` for the states `initial` and `stopped`, `Paused`
exactly for `paused` and `Playing` exactly for `playing`.  Nothing is kept
between calls: a second call right after the first returns the same status, and
the results in two states of the world differ exactly when the two device
states stand for different statuses. -/
theorem getStatus_pure_query (al : OpenAL σ) (self : SoundSource σ) (s s2 : Sys σ) :
    (SoundSourceBase.getStatus al self s).2.world = s.world ∧
    (SoundSourceBase.getStatus al self s).2.trace
      = s.trace ++ [Event.alGetSourcei self.m_source AL_SOURCE_STATE
          (al.alGetSourcei self.m_source AL_SOURCE_STATE s.world)] ∧
    (al.alGetSourcei self.m_source AL_SOURCE_STATE s.world = AL_INITIAL ∨
      al.alGetSourcei self.m_source AL_SOURCE_STATE s.world = AL_STOPPED →
        (SoundSourceBase.getStatus al self s).1 = Status.Stopped) ∧
    ((SoundSourceBase.getStatus al self s).1 = Status.Paused
      ↔ al.alGetSourcei self.m_source AL_SOURCE_STATE s.world = AL_PAUSED) ∧
    ((SoundSourceBase.getStatus al self s).1 = Status.Playing
      ↔ al.alGetSourcei self.m_source AL_SOURCE_STATE s.world = AL_PLAYING) ∧
    (SoundSourceBase.getStatus al self (SoundSourceBase.getStatus al self s).2).1
      = (SoundSourceBase.getStatus al self s).1 ∧
    ((SoundSourceBase.getStatus al self s).1 ≠ (SoundSourceBase.getStatus al self s2).1
      ↔ normalizedStatus (al.alGetSourcei self.m_source AL_SOURCE_STATE s.world)
          ≠ normalizedStatus (al.alGetSourcei self.m_source AL_SOURCE_STATE s2.world)) := by
  have hres : ∀ x : Sys σ, (SoundSourceBase.getStatus al self x).1
      = normalizedStatus (al.alGetSourcei self.m_source AL_SOURCE_STATE x.world) := by
    intro x
    rw [getStatus_eq]
  have hsys : (SoundSourceBase.getStatus al self s).2
      = ⟨s.world, s.trace ++ [Event.alGetSourcei self.m_source AL_SOURCE_STATE
          (al.alGetSourcei self.m_source AL_SOURCE_STATE s.world)]⟩ := by
    rw [getStatus_eq]
  refine ⟨by rw [hsys], by rw [hsys], ?_, ?_, ?_, by rw [hres, hres, hsys],
    by rw [hres s, hres s2]⟩
  · rintro (h | h) <;> simp [hres, normalizedStatus, h]
  · rw [hres]
    unfold normalizedStatus
    by_cases h : al.alGetSourcei self.m_source AL_SOURCE_STATE s.world = AL_PAUSED
    · simp [h]
    · simp only [h, if_false, iff_false]
      split <;> simp
  · rw [hres]
    unfold normalizedStatus
    by_cases h : al.alGetSourcei self.m_source AL_SOURCE_STATE s.world = AL_PLAYING
    · simp [h]
    · simp only [h, if_false, iff_false]
      split <;> simp

/-- Run of C13 on the store: source 2 is in its initial state and is reported
`Stopped`, source 1 plays and is reported `Playing`. -/
theorem getStatus_pure_query_witness :
    (alStore.alGetSourcei (storeSource 2 none).m_source AL_SOURCE_STATE demoStore = AL_INITIAL ∨
      alStore.alGetSourcei (storeSource 2 none).m_source AL_SOURCE_STATE demoStore
        = AL_STOPPED) ∧
    (SoundSourceBase.getStatus alStore (storeSource 2 none) ⟨demoStore, []⟩).1
      = Status.Stopped ∧
    (SoundSourceBase.getStatus alStore (storeSource 1 none) ⟨demoStore, []⟩).1
      = Status.Playing ∧
    (SoundSourceBase.getStatus alStore (storeSource 2 none) ⟨demoStore, []⟩).2.trace
      = [Event.alGetSourcei 2 AL_SOURCE_STATE AL_INITIAL] :=
  have hinit : alStore.alGetSourcei (storeSource 2 none).m_source AL_SOURCE_STATE demoStore
      = AL_INITIAL ∨
      alStore.alGetSourcei (storeSource 2 none).m_source AL_SOURCE_STATE demoStore
        = AL_STOPPED := Or.inl (by decide)
  ⟨hinit,
    (getStatus_pure_query alStore (storeSource 2 none) ⟨demoStore, []⟩
      ⟨demoStore, []⟩).2.2.1 hinit,
    by decide, by decide⟩

/-- C14. Defensive normalisation: for a device state that is none of `initial`,
`stopped`, `paused` and `playing`, `getStatus` returns `Stopped`, as an ordinary
result after its one read and with the world untouched; and for every device
state whatsoever the result is one of `Stopped`, `Paused`, `Playing`. -/
theorem getStatus_defensive (al : OpenAL σ) (self : SoundSource σ) (s : Sys σ) :
    (al.alGetSourcei self.m_source AL_SOURCE_STATE s.world ≠ AL_INITIAL →
      al.alGetSourcei self.m_source AL_SOURCE_STATE s.world ≠ AL_STOPPED →
      al.alGetSourcei self.m_source AL_SOURCE_STATE s.world ≠ AL_PAUSED →
      al.alGetSourcei self.m_source AL_SOURCE_STATE s.world ≠ AL_PLAYING →
      SoundSourceBase.getStatus al self s
        = (Status.Stopped,
            ⟨s.world, s.trace ++ [Event.alGetSourcei self.m_source AL_SOURCE_STATE
              (al.alGetSourcei self.m_source AL_SOURCE_STATE s.world)]⟩)) ∧
    ((SoundSourceBase.getStatus al self s).1 = Status.Stopped ∨
      (SoundSourceBase.getStatus al self s).1 = Status.Paused ∨
      (SoundSourceBase.getStatus al self s).1 = Status.Playing) := by
  constructor
  · intro _ _ h3 h4
    rw [getStatus_eq]
    simp [normalizedStatus, h3, h4]
  · cases (SoundSourceBase.getStatus al self s).1 <;> simp

/-- Run of C14 on the store: the state of source 3 is 0, which is no source
state of OpenAL, and `getStatus` returns `Stopped`. -/
theorem getStatus_defensive_witness :
    alStore.alGetSourcei (storeSource 3 none).m_source AL_SOURCE_STATE demoStore = 0 ∧
    SoundSourceBase.getStatus alStore (storeSource 3 none) ⟨demoStore, []⟩
      = (Status.Stopped,
          ⟨demoStore, [] ++ [Event.alGetSourcei (storeSource 3 none).m_source AL_SOURCE_STATE
            (alStore.alGetSourcei (storeSource 3 none).m_source AL_SOURCE_STATE
              demoStore)]⟩) :=
  ⟨by decide,
    (getStatus_defensive alStore (storeSource 3 none) ⟨demoStore, []⟩).1
      (by decide) (by decide) (by decide) (by decide)⟩

/-! ### Claims about the filter of a source -/

theorem toALint_of_lt (n : Nat) (h : n < 2 ^ 31) : toALint n = (n : Int) := by
  unfold toALint
  have h1 : (0 : Int) ≤ (n : Int) + 2 ^ 31 := by positivity
  have h2 : (n : Int) + 2 ^ 31 < 2 ^ 32 := by
    have : (n : Int) < 2 ^ 31 := by exact_mod_cast h
    omega
  rw [Int.emod_eq_of_lt h1 h2]
  ring

theorem setFilter_eq (al : OpenAL σ) (self : SoundSource σ) (filter : Option SoundFilter)
    (s : Sys σ) :
    SoundSource.setFilter al self filter s
      = ({ self with m_filter := filter },
          match filter with
          | some g =>
            g.bind al self.m_source
              (match self.m_filter with
                | some f => f.unbind al self.m_source s
                | none => s)
          | none =>
            match self.m_filter with
            | some f => f.unbind al self.m_source s
            | none => s) := by
  unfold SoundSource.setFilter
  cases filter <;> rfl

/-- C15. Rebinding: on a source associated with filter `A`, `setFilter(B)` with a
non-null `B` calls `A.unbind(m_source)` and then `B.bind(m_source)` and nothing
else; the two OpenAL calls made are the write of the null filter and then the
write of the name of `B` to the direct-filter slot of `m_source`.  On a device
that returns what was last written to that slot, the slot holds the name of
`A` before the call, the null filter between the two calls and the name of `B`
after the call, so it never stands for both filters. -/
theorem setFilter_rebinds_in_order (al : OpenAL σ) (self : SoundSource σ)
    (A B : SoundFilter) (s : Sys σ) (hA : self.m_filter = some A) :
    SoundSource.setFilter al self (some B) s
      = ({ self with m_filter := some B },
          B.bind al self.m_source (A.unbind al self.m_source s)) ∧
    (SoundSource.setFilter al self (some B) s).2.trace
      = s.trace ++ [Event.unbind A self.m_source,
          Event.alSourcei self.m_source AL_DIRECT_FILTER AL_FILTER_NULL,
          Event.bind B self.m_source,
          Event.alSourcei self.m_source AL_DIRECT_FILTER (toALint B.m_filter)] ∧
    ((SoundSource.setFilter al self (some B) s).2.trace.drop s.trace.length).filter
        Event.isFilterCall
      = [Event.unbind A self.m_source, Event.bind B self.m_source] ∧
    (B.m_filter < 2 ^ 31 → toALint B.m_filter = (B.m_filter : Int)) ∧
    ((∀ v w, al.alGetSourcei self.m_source AL_DIRECT_FILTER
          (al.alSourcei self.m_source AL_DIRECT_FILTER v w) = v) →
      al.alGetSourcei self.m_source AL_DIRECT_FILTER s.world = toALint A.m_filter →
        al.alGetSourcei self.m_source AL_DIRECT_FILTER s.world = toALint A.m_filter ∧
        al.alGetSourcei self.m_source AL_DIRECT_FILTER (A.unbind al self.m_source s).world
          = AL_FILTER_NULL ∧
        al.alGetSourcei self.m_source AL_DIRECT_FILTER
            (SoundSource.setFilter al self (some B) s).2.world
          = toALint B.m_filter) := by
  have heq : SoundSource.setFilter al self (some B) s
      = ({ self with m_filter := some B },
          B.bind al self.m_source (A.unbind al self.m_source s)) := by
    rw [setFilter_eq, hA]
  refine ⟨heq, ?_, ?_, toALint_of_lt _, ?_⟩
  · rw [heq]
    simp [SoundFilter.bind, SoundFilter.unbind, alCheck.alSourcei]
  · rw [heq]
    simp [SoundFilter.bind, SoundFilter.unbind, alCheck.alSourcei, Event.isFilterCall,
      List.filter_cons]
  · intro hslot hbound
    refine ⟨hbound, ?_, ?_⟩
    · simp only [SoundFilter.unbind, alCheck.alSourcei]
      exact hslot _ _
    · rw [heq]
      simp only [SoundFilter.bind, alCheck.alSourcei]
      exact hslot _ _

/-- Run of C15 on the store: source 1 is associated with filter 7, which is in
its slot; `setFilter` with filter 9 writes 0 and then 9 to the slot. -/
theorem setFilter_rebinds_in_order_witness :
    (storeSource 1 (some ⟨7⟩)).m_filter = some ⟨7⟩ ∧
    (∀ v w, alStore.alGetSourcei (storeSource 1 (some ⟨7⟩)).m_source AL_DIRECT_FILTER
        (alStore.alSourcei (storeSource 1 (some ⟨7⟩)).m_source AL_DIRECT_FILTER v w) = v) ∧
    alStore.alGetSourcei (storeSource 1 (some ⟨7⟩)).m_source AL_DIRECT_FILTER boundStore
      = toALint (SoundFilter.mk 7).m_filter ∧
    (SoundSource.setFilter alStore (storeSource 1 (some ⟨7⟩)) (some ⟨9⟩)
        ⟨boundStore, []⟩).2.trace
      = [Event.unbind ⟨7⟩ 1, Event.alSourcei 1 AL_DIRECT_FILTER 0,
          Event.bind ⟨9⟩ 1, Event.alSourcei 1 AL_DIRECT_FILTER 9] ∧
    (alStore.alGetSourcei (storeSource 1 (some ⟨7⟩)).m_source AL_DIRECT_FILTER
        (Sys.mk boundStore []).world = toALint (SoundFilter.mk 7).m_filter ∧
      alStore.alGetSourcei (storeSource 1 (some ⟨7⟩)).m_source AL_DIRECT_FILTER
          ((SoundFilter.mk 7).unbind alStore (storeSource 1 (some ⟨7⟩)).m_source
            ⟨boundStore, []⟩).world
        = AL_FILTER_NULL ∧
      alStore.alGetSourcei (storeSource 1 (some ⟨7⟩)).m_source AL_DIRECT_FILTER
          (SoundSource.setFilter alStore (storeSource 1 (some ⟨7⟩)) (some ⟨9⟩)
            ⟨boundStore, []⟩).2.world
        = toALint (SoundFilter.mk 9).m_filter) :=
  have hslot : ∀ v w, alStore.alGetSourcei (storeSource 1 (some ⟨7⟩)).m_source
      AL_DIRECT_FILTER
      (alStore.alSourcei (storeSource 1 (some ⟨7⟩)).m_source AL_DIRECT_FILTER v w) = v := by
    intro v w
    simp [alStore]
  ⟨rfl, hslot, by decide, by decide,
    (setFilter_rebinds_in_order alStore (storeSource 1 (some ⟨7⟩)) ⟨7⟩ ⟨9⟩ ⟨boundStore, []⟩
      rfl).2.2.2.2 hslot (by decide)⟩

/-- C16. The null cases of `setFilter`.  Without an associated filter,
`setFilter(B)` with a non-null `B` makes one filter call, `B.bind(m_source)`, and
no unbind.  With filter `A` associated, `setFilter(null)` makes one filter call,
`A.unbind(m_source)`, and no bind.  Without an associated filter,
`setFilter(null)` makes no call at all and leaves object and world as they
are. -/
theorem setFilter_null_cases (al : OpenAL σ) (self : SoundSource σ) (A B : SoundFilter)
    (s : Sys σ) :
    (self.m_filter = none →
      SoundSource.setFilter al self (some B) s
        = ({ self with m_filter := some B },
            ⟨al.alSourcei self.m_source AL_DIRECT_FILTER (toALint B.m_filter) s.world,
              s.trace ++ [Event.bind B self.m_source,
                Event.alSourcei self.m_source AL_DIRECT_FILTER (toALint B.m_filter)]⟩)) ∧
    (self.m_filter = some A →
      SoundSource.setFilter al self none s
        = ({ self with m_filter := none },
            ⟨al.alSourcei self.m_source AL_DIRECT_FILTER AL_FILTER_NULL s.world,
              s.trace ++ [Event.unbind A self.m_source,
                Event.alSourcei self.m_source AL_DIRECT_FILTER AL_FILTER_NULL]⟩)) ∧
    (self.m_filter = none → SoundSource.setFilter al self none s = (self, s)) := by
  refine ⟨?_, ?_, ?_⟩
  · intro h
    rw [setFilter_eq, h]
    simp [SoundFilter.bind, alCheck.alSourcei]
  · intro h
    rw [setFilter_eq, h]
    simp [SoundFilter.unbind, alCheck.alSourcei]
  · intro h
    rw [setFilter_eq, h]
    have : ({ self with m_filter := none } : SoundSource σ) = self := by
      cases self
      simp_all
    rw [this]

/-- Runs of C16 on the store, one for each of the three cases. -/
theorem setFilter_null_cases_witness :
    (storeSource 1 none).m_filter = none ∧
    (storeSource 1 (some ⟨7⟩)).m_filter = some ⟨7⟩ ∧
    (SoundSource.setFilter alStore (storeSource 1 none) (some ⟨9⟩) ⟨demoStore, []⟩).2.trace
      = [Event.bind ⟨9⟩ 1, Event.alSourcei 1 AL_DIRECT_FILTER 9] ∧
    (SoundSource.setFilter alStore (storeSource 1 (some ⟨7⟩)) none ⟨boundStore, []⟩).2.trace
      = [Event.unbind ⟨7⟩ 1, Event.alSourcei 1 AL_DIRECT_FILTER 0] ∧
    (SoundSource.setFilter alStore (storeSource 1 none) none ⟨demoStore, []⟩).2.trace = [] ∧
    SoundSource.setFilter alStore (storeSource 1 none) (some ⟨9⟩) ⟨demoStore, []⟩
      = ({ storeSource 1 none with m_filter := some ⟨9⟩ },
          ⟨alStore.alSourcei (storeSource 1 none).m_source AL_DIRECT_FILTER
              (toALint (SoundFilter.mk 9).m_filter) (Sys.mk demoStore []).world,
            (Sys.mk demoStore []).trace ++ [Event.bind ⟨9⟩ (storeSource 1 none).m_source,
              Event.alSourcei (storeSource 1 none).m_source AL_DIRECT_FILTER
                (toALint (SoundFilter.mk 9).m_filter)]⟩) ∧
    SoundSource.setFilter alStore (storeSource 1 (some ⟨7⟩)) none ⟨boundStore, []⟩
      = ({ storeSource 1 (some ⟨7⟩) with m_filter := none },
          ⟨alStore.alSourcei (storeSource 1 (some ⟨7⟩)).m_source AL_DIRECT_FILTER
              AL_FILTER_NULL (Sys.mk boundStore []).world,
            (Sys.mk boundStore []).trace
              ++ [Event.unbind ⟨7⟩ (storeSource 1 (some ⟨7⟩)).m_source,
                Event.alSourcei (storeSource 1 (some ⟨7⟩)).m_source AL_DIRECT_FILTER
                  AL_FILTER_NULL]⟩) ∧
    SoundSource.setFilter alStore (storeSource 1 none) none ⟨demoStore, []⟩
      = (storeSource 1 none, ⟨demoStore, []⟩) :=
  ⟨rfl, rfl, by decide, by decide, by decide,
    (setFilter_null_cases alStore (storeSource 1 none) ⟨7⟩ ⟨9⟩ ⟨demoStore, []⟩).1 rfl,
    (setFilter_null_cases alStore (storeSource 1 (some ⟨7⟩)) ⟨7⟩ ⟨9⟩ ⟨boundStore, []⟩).2.1 rfl,
    (setFilter_null_cases alStore (storeSource 1 none) ⟨7⟩ ⟨9⟩ ⟨demoStore, []⟩).2.2 rfl⟩

/-- C17. Filter round trip: after `setFilter(f)`, with `f` a filter or null,
`getFilter()` returns `f`.  The object differs from the one before in its
filter association only, so its handle is the same, and `getFilter` is a
function of the object alone.  Every call `setFilter` makes is a filter call on
`m_source` or a write to the direct-filter slot of `m_source`; on the store no
other attribute of any source and no other slot changes. -/
theorem setFilter_getFilter (al : OpenAL σ) (self : SoundSource σ)
    (f : Option SoundFilter) (s : Sys σ) (me : SoundSource ALStore) (d : Sys ALStore) :
    (SoundSource.setFilter al self f s).1.getFilter = f ∧
    (SoundSource.setFilter al self f s).1 = { self with m_filter := f } ∧
    (SoundSource.setFilter al self f s).1.m_source = self.m_source ∧
    (∃ added, (SoundSource.setFilter al self f s).2.trace = s.trace ++ added ∧
      ∀ e ∈ added,
        (∃ g, e = Event.bind g self.m_source) ∨ (∃ g, e = Event.unbind g self.m_source) ∨
        (∃ v, e = Event.alSourcei self.m_source AL_DIRECT_FILTER v)) ∧
    ((SoundSource.setFilter alStore me f d).2.world.floatAttr = d.world.floatAttr ∧
      (SoundSource.setFilter alStore me f d).2.world.vecAttr = d.world.vecAttr ∧
      (SoundSource.setFilter alStore me f d).2.world.generated = d.world.generated ∧
      ∀ h p, ¬ (h = me.m_source ∧ p = AL_DIRECT_FILTER) →
        (SoundSource.setFilter alStore me f d).2.world.intAttr h p = d.world.intAttr h p) := by
  refine ⟨by rw [setFilter_eq]; rfl, by rw [setFilter_eq], by rw [setFilter_eq], ?_, ?_⟩
  · rw [setFilter_eq]
    cases f with
    | none =>
      cases hm : self.m_filter with
      | none => exact ⟨[], by simp, by simp⟩
      | some a =>
        refine ⟨[Event.unbind a self.m_source,
          Event.alSourcei self.m_source AL_DIRECT_FILTER AL_FILTER_NULL], ?_, ?_⟩
        · simp [SoundFilter.unbind, alCheck.alSourcei]
        · intro e he
          simp only [List.mem_cons, List.mem_singleton, List.not_mem_nil, or_false] at he
          rcases he with rfl | rfl
          · exact Or.inr (Or.inl ⟨a, rfl⟩)
          · exact Or.inr (Or.inr ⟨_, rfl⟩)
    | some g =>
      cases hm : self.m_filter with
      | none =>
        refine ⟨[Event.bind g self.m_source,
          Event.alSourcei self.m_source AL_DIRECT_FILTER (toALint g.m_filter)], ?_, ?_⟩
        · simp [SoundFilter.bind, alCheck.alSourcei]
        · intro e he
          simp only [List.mem_cons, List.mem_singleton, List.not_mem_nil, or_false] at he
          rcases he with rfl | rfl
          · exact Or.inl ⟨g, rfl⟩
          · exact Or.inr (Or.inr ⟨_, rfl⟩)
      | some a =>
        refine ⟨[Event.unbind a self.m_source,
          Event.alSourcei self.m_source AL_DIRECT_FILTER AL_FILTER_NULL,
          Event.bind g self.m_source,
          Event.alSourcei self.m_source AL_DIRECT_FILTER (toALint g.m_filter)], ?_, ?_⟩
        · simp [SoundFilter.bind, SoundFilter.unbind, alCheck.alSourcei]
        · intro e he
          simp only [List.mem_cons, List.mem_singleton, List.not_mem_nil, or_false] at he
          rcases he with rfl | rfl | rfl | rfl
          · exact Or.inr (Or.inl ⟨a, rfl⟩)
          · exact Or.inr (Or.inr ⟨_, rfl⟩)
          · exact Or.inl ⟨g, rfl⟩
          · exact Or.inr (Or.inr ⟨_, rfl⟩)
  · rw [setFilter_eq]
    cases f with
    | none =>
      cases hm : me.m_filter with
      | none => simp
      | some a =>
        refine ⟨rfl, rfl, rfl, ?_⟩
        intro h p hne
        simp [SoundFilter.unbind, alCheck.alSourcei, alStore, hne]
    | some g =>
      cases hm : me.m_filter with
      | none =>
        refine ⟨rfl, rfl, rfl, ?_⟩
        intro h p hne
        simp [SoundFilter.bind, alCheck.alSourcei, alStore, hne]
      | some a =>
        refine ⟨rfl, rfl, rfl, ?_⟩
        intro h p hne
        simp [SoundFilter.bind, SoundFilter.unbind, alCheck.alSourcei, alStore, hne]

/-- Run of C17 on the store: rebinding source 1 from filter 7 to filter 9 leaves
the state of source 1 and the slot of source 2 as they were. -/
theorem setFilter_getFilter_witness :
    ¬ ((1 : ALuint) = (storeSource 1 (some ⟨7⟩)).m_source ∧ AL_SOURCE_STATE = AL_DIRECT_FILTER) ∧
    ¬ ((2 : ALuint) = (storeSource 1 (some ⟨7⟩)).m_source ∧ AL_DIRECT_FILTER = AL_DIRECT_FILTER) ∧
    (SoundSource.setFilter alStore (storeSource 1 (some ⟨7⟩)) (some ⟨9⟩)
      ⟨boundStore, []⟩).1.getFilter = some ⟨9⟩ ∧
    (SoundSource.setFilter alStore (storeSource 1 (some ⟨7⟩)) (some ⟨9⟩)
        ⟨boundStore, []⟩).2.world.intAttr 1 AL_SOURCE_STATE
      = (Sys.mk boundStore []).world.intAttr 1 AL_SOURCE_STATE ∧
    (SoundSource.setFilter alStore (storeSource 1 (some ⟨7⟩)) (some ⟨9⟩)
        ⟨boundStore, []⟩).2.world.intAttr 2 AL_DIRECT_FILTER
      = (Sys.mk boundStore []).world.intAttr 2 AL_DIRECT_FILTER :=
  ⟨by decide, by decide,
    (setFilter_getFilter alStore (storeSource 1 (some ⟨7⟩)) (some ⟨9⟩) ⟨boundStore, []⟩
      (storeSource 1 (some ⟨7⟩)) ⟨boundStore, []⟩).1,
    (setFilter_getFilter alStore (storeSource 1 (some ⟨7⟩)) (some ⟨9⟩) ⟨boundStore, []⟩
      (storeSource 1 (some ⟨7⟩)) ⟨boundStore, []⟩).2.2.2.2.2.2.2 1 AL_SOURCE_STATE (by decide),
    (setFilter_getFilter alStore (storeSource 1 (some ⟨7⟩)) (some ⟨9⟩) ⟨boundStore, []⟩
      (storeSource 1 (some ⟨7⟩)) ⟨boundStore, []⟩).2.2.2.2.2.2.2 2 AL_DIRECT_FILTER
        (by decide)⟩

/-! ### Rounding to single precision -/

theorem roundHalfEven_le (x : ℚ) (K : Nat) (h0 : 0 ≤ x) (h : x ≤ K) : roundHalfEven x ≤ K := by
  have hfl : (0 : Int) ≤ ⌊x⌋ := Int.floor_nonneg.mpr h0
  have hn : ((⌊x⌋.toNat : Nat) : ℚ) = ((⌊x⌋ : Int) : ℚ) := by
    have e : ((⌊x⌋.toNat : Nat) : Int) = ⌊x⌋ := Int.toNat_of_nonneg hfl
    exact_mod_cast congrArg (fun z : Int => (z : ℚ)) e
  have hle : ((⌊x⌋.toNat : Nat) : ℚ) ≤ x := by rw [hn]; exact Int.floor_le x
  have hnK : ⌊x⌋.toNat ≤ K := by
    have : ((⌊x⌋.toNat : Nat) : ℚ) ≤ (K : ℚ) := le_trans hle h
    exact_mod_cast this
  unfold roundHalfEven
  simp only []
  split
  · exact hnK
  · rename_i h1
    have hlt : ((⌊x⌋.toNat : Nat) : ℚ) < (K : ℚ) := by
      have : (1 : ℚ) / 2 ≤ x - ((⌊x⌋.toNat : Nat) : ℚ) := not_lt.mp h1
      linarith
    have hlt2 : ⌊x⌋.toNat < K := by exact_mod_cast hlt
    split
    · omega
    · split <;> omega

theorem roundHalfEven_of_le_half (x : ℚ) (h0 : 0 ≤ x) (h : x ≤ 1 / 2) : roundHalfEven x = 0 := by
  have hfl : ⌊x⌋ = 0 := by
    rw [Int.floor_eq_iff]
    constructor
    · simpa using h0
    · have : x < 1 := by linarith
      simpa using this
  unfold roundHalfEven
  simp only [hfl, Int.toNat_zero, Nat.cast_zero, sub_zero]
  split
  · rfl
  · split
    · rename_i h1 h2
      exact absurd h (not_le.mpr h2)
    · simp

theorem roundBinary32_le_one (p : ℚ) (h0 : 0 ≤ p) (h1 : p ≤ 1) :
    ∃ r, roundBinary32 p = some r ∧ 0 ≤ r ∧ r ≤ 1 := by
  by_cases hp : p = 0
  · exact ⟨0, by simp [roundBinary32, hp], le_refl 0, zero_le_one⟩
  · unfold roundBinary32
    simp only [hp, if_false]
    generalize max (floorLog2 p - 23) (-149) = e
    have hpow : (0 : ℚ) < 2 ^ e := zpow_pos (by norm_num) e
    have hr0 : (0 : ℚ) ≤ (roundHalfEven (p / 2 ^ e) : ℚ) * 2 ^ e :=
      mul_nonneg (Nat.cast_nonneg _) (le_of_lt hpow)
    have hr1 : (roundHalfEven (p / 2 ^ e) : ℚ) * 2 ^ e ≤ 1 := by
      by_cases he : e ≤ 0
      · obtain ⟨k, hk⟩ := Int.exists_eq_neg_ofNat he
        have hK : ((2 ^ k : Nat) : ℚ) = (2 ^ e)⁻¹ := by
          rw [hk, zpow_neg, inv_inv, zpow_natCast]
          push_cast
          rfl
        have hx : p / 2 ^ e ≤ ((2 ^ k : Nat) : ℚ) := by
          rw [hK, div_eq_mul_inv]
          have hinv : (0 : ℚ) ≤ (2 ^ e)⁻¹ := le_of_lt (inv_pos.mpr hpow)
          calc p * (2 ^ e)⁻¹ ≤ 1 * (2 ^ e)⁻¹ := mul_le_mul_of_nonneg_right h1 hinv
            _ = (2 ^ e)⁻¹ := one_mul _
        have hN := roundHalfEven_le (p / 2 ^ e) (2 ^ k) (div_nonneg h0 (le_of_lt hpow)) hx
        have hN2 : (roundHalfEven (p / 2 ^ e) : ℚ) ≤ ((2 ^ k : Nat) : ℚ) := by exact_mod_cast hN
        calc (roundHalfEven (p / 2 ^ e) : ℚ) * 2 ^ e ≤ ((2 ^ k : Nat) : ℚ) * 2 ^ e :=
              mul_le_mul_of_nonneg_right hN2 (le_of_lt hpow)
          _ = 1 := by rw [hK]; exact inv_mul_cancel₀ (ne_of_gt hpow)
      · have he1 : (1 : Int) ≤ e := by omega
        have h2 : (2 : ℚ) ≤ 2 ^ e := by
          have := zpow_le_zpow_right₀ (show (1 : ℚ) ≤ 2 by norm_num) he1
          simpa using this
        have hx : p / 2 ^ e ≤ 1 / 2 := by
          rw [div_le_iff₀ hpow]
          linarith
        rw [roundHalfEven_of_le_half _ (div_nonneg h0 (le_of_lt hpow)) hx]
        simp
    have hlt : ¬ ((2 : ℚ) ^ (128 : Int) ≤ (roundHalfEven (p / 2 ^ e) : ℚ) * 2 ^ e) := by
      have : (1 : ℚ) < 2 ^ (128 : Int) := by norm_num
      intro hc
      linarith
    exact ⟨_, by simp only [hlt, if_false], hr0, hr1⟩

theorem log2Fuel_spec (fuel n : Nat) (h1 : 1 ≤ n) (hf : n ≤ fuel) :
    2 ^ log2Fuel fuel n ≤ n ∧ n < 2 ^ (log2Fuel fuel n + 1) := by
  induction fuel generalizing n with
  | zero => omega
  | succ fuel ih =>
    simp only [log2Fuel]
    split
    · rename_i h2
      have hd1 : 1 ≤ n / 2 := by omega
      have hd2 : n / 2 ≤ fuel := by omega
      obtain ⟨ha, hb⟩ := ih (n / 2) hd1 hd2
      rw [pow_succ] at hb
      constructor
      · rw [pow_succ]; omega
      · rw [pow_succ, pow_succ]; omega
    · simp only [pow_zero, zero_add, pow_one]
      omega

theorem floorLog2_spec (p : ℚ) (hp : 0 < p) :
    (2 : ℚ) ^ floorLog2 p ≤ p ∧ p < 2 ^ (floorLog2 p + 1) := by
  have hnum : 0 < p.num := Rat.num_pos.mpr hp
  have hn1 : 1 ≤ p.num.natAbs := by omega
  have hd1 : 1 ≤ p.den := p.den_pos
  obtain ⟨na, nb⟩ := log2Fuel_spec p.num.natAbs p.num.natAbs hn1 (le_refl _)
  obtain ⟨da, db⟩ := log2Fuel_spec p.den p.den hd1 (le_refl _)
  unfold floorLog2
  simp only []
  generalize log2Fuel p.num.natAbs p.num.natAbs = a at na nb ⊢
  generalize log2Fuel p.den p.den = b at da db ⊢
  have hpe : p = (p.num.natAbs : ℚ) / (p.den : ℚ) := by
    have h2 : ((p.num.natAbs : Nat) : ℚ) = (p.num : ℚ) := by
      rw [Nat.cast_natAbs, abs_of_pos hnum]
    rw [h2]
    exact (Rat.num_div_den p).symm
  have hden : (0 : ℚ) < (p.den : ℚ) := by exact_mod_cast hd1
  have na' : (2 : ℚ) ^ a ≤ (p.num.natAbs : ℚ) := by exact_mod_cast na
  have nb' : (p.num.natAbs : ℚ) < 2 ^ (a + 1) := by exact_mod_cast nb
  have da' : (2 : ℚ) ^ b ≤ (p.den : ℚ) := by exact_mod_cast da
  have db' : (p.den : ℚ) < 2 ^ (b + 1) := by exact_mod_cast db
  have h2a : (0 : ℚ) < 2 ^ a := by positivity
  have h2b : (0 : ℚ) < 2 ^ b := by positivity
  have hz : ∀ k : Int, (2 : ℚ) ^ ((a : Int) - (b : Int) + k) = 2 ^ a / 2 ^ b * 2 ^ k := by
    intro k
    rw [zpow_add₀ (by norm_num : (2 : ℚ) ≠ 0), zpow_sub₀ (by norm_num : (2 : ℚ) ≠ 0),
      zpow_natCast, zpow_natCast]
  have hz0 := hz 0
  have hz1 := hz 1
  have hzm := hz (-1)
  simp only [add_zero, zpow_zero, mul_one, zpow_one] at hz0 hz1
  have hupper : p < 2 ^ a / 2 ^ b * 2 := by
    rw [hpe, div_lt_iff₀ hden]
    have e1 : (2 : ℚ) ^ a / 2 ^ b * 2 * (p.den : ℚ) = 2 ^ (a + 1) * ((p.den : ℚ) / 2 ^ b) := by
      field_simp
      ring
    rw [e1]
    have h3 : (1 : ℚ) ≤ (p.den : ℚ) / 2 ^ b := by
      rw [le_div_iff₀ h2b]
      linarith
    have h4 : (0 : ℚ) < 2 ^ (a + 1) := by positivity
    nlinarith
  have hlower : (2 : ℚ) ^ a / 2 ^ b * 2 ^ (-1 : Int) ≤ p := by
    rw [hpe, le_div_iff₀ hden]
    have e1 : (2 : ℚ) ^ a / 2 ^ b * 2 ^ (-1 : Int) * (p.den : ℚ)
        = 2 ^ a * ((p.den : ℚ) / 2 ^ (b + 1)) := by
      rw [zpow_neg, zpow_one, pow_succ]
      field_simp
    rw [e1]
    have h3 : (p.den : ℚ) / 2 ^ (b + 1) ≤ 1 := by
      rw [div_le_iff₀ (by positivity)]
      linarith
    nlinarith
  split
  · rename_i h
    refine ⟨h, ?_⟩
    rw [hz1]
    exact hupper
  · rename_i h
    have h' := not_le.mp h
    have e : (a : Int) - (b : Int) - 1 + 1 = (a : Int) - (b : Int) := by ring
    have e2 : (a : Int) - (b : Int) - 1 = (a : Int) - (b : Int) + (-1) := by ring
    refine ⟨?_, ?_⟩
    · rw [e2, hzm]
      exact hlower
    · rw [e]
      exact h'

theorem roundHalfEven_near (x : ℚ) (h0 : 0 ≤ x) :
    |(roundHalfEven x : ℚ) - x| ≤ 1 / 2 ∧
      (|(roundHalfEven x : ℚ) - x| = 1 / 2 → roundHalfEven x % 2 = 0) := by
  have hfl : (0 : Int) ≤ ⌊x⌋ := Int.floor_nonneg.mpr h0
  have hn : ((⌊x⌋.toNat : Nat) : ℚ) = ((⌊x⌋ : Int) : ℚ) := by
    have e : ((⌊x⌋.toNat : Nat) : Int) = ⌊x⌋ := Int.toNat_of_nonneg hfl
    exact_mod_cast congrArg (fun z : Int => (z : ℚ)) e
  have hle : ((⌊x⌋.toNat : Nat) : ℚ) ≤ x := by rw [hn]; exact Int.floor_le x
  have hlt : x < ((⌊x⌋.toNat : Nat) : ℚ) + 1 := by rw [hn]; exact Int.lt_floor_add_one x
  unfold roundHalfEven
  simp only []
  generalize ⌊x⌋.toNat = n at hle hlt
  split
  · rename_i h1
    constructor
    · rw [abs_le]; constructor <;> linarith
    · intro he
      rw [abs_sub_comm, abs_of_nonneg (by linarith)] at he
      linarith
  · rename_i h1
    split
    · rename_i h2
      push_cast
      constructor
      · rw [abs_le]; constructor <;> linarith
      · intro he
        rw [abs_of_nonneg (by linarith)] at he
        linarith
    · rename_i h2
      have hx : x - (n : ℚ) = 1 / 2 := le_antisymm (not_lt.mp h2) (not_lt.mp h1)
      split
      · rename_i h3
        constructor
        · rw [abs_le]; constructor <;> linarith
        · intro _; exact h3
      · rename_i h3
        push_cast
        constructor
        · rw [abs_le]; constructor <;> linarith
        · intro _; omega

/-- The rounding is IEEE 754 rounding to nearest, ties to even.  For a positive
`p` let `e` be the exponent of the last of 24 binary digits of `p`, and `-149`
where that is lower.  A result `r` is a multiple `n * 2 ^ e` with at most 24
digits, or the next power of two; it is within half of `2 ^ e` of `p`, with `n`
even when it is exactly half of `2 ^ e` away, so no multiple of `2 ^ e` is
nearer; and there is no result exactly when the nearest multiple is `2 ^ 128`
or more. -/
theorem roundBinary32_spec (p : ℚ) (hp : 0 < p) :
    ∃ n : Nat,
      ((2 : ℚ) ^ (max (floorLog2 p - 23) (-149) + 23) ≤ p ∨
        max (floorLog2 p - 23) (-149) = -149) ∧
      p < 2 ^ (max (floorLog2 p - 23) (-149) + 24) ∧
      n ≤ 2 ^ 24 ∧
      |(n : ℚ) * 2 ^ max (floorLog2 p - 23) (-149) - p|
        ≤ 2 ^ max (floorLog2 p - 23) (-149) / 2 ∧
      (|(n : ℚ) * 2 ^ max (floorLog2 p - 23) (-149) - p|
        = 2 ^ max (floorLog2 p - 23) (-149) / 2 → n % 2 = 0) ∧
      (∀ m : Nat, |(n : ℚ) * 2 ^ max (floorLog2 p - 23) (-149) - p|
        ≤ |(m : ℚ) * 2 ^ max (floorLog2 p - 23) (-149) - p|) ∧
      roundBinary32 p =
        if (2 : ℚ) ^ (128 : Int) ≤ (n : ℚ) * 2 ^ max (floorLog2 p - 23) (-149) then none
        else some ((n : ℚ) * 2 ^ max (floorLog2 p - 23) (-149)) := by
  obtain ⟨hlo, hhi⟩ := floorLog2_spec p hp
  have hmax : floorLog2 p - 23 ≤ max (floorLog2 p - 23) (-149) := le_max_left _ _
  have hcases : max (floorLog2 p - 23) (-149) = floorLog2 p - 23 ∨
      max (floorLog2 p - 23) (-149) = -149 := by
    rcases le_total (floorLog2 p - 23) (-149) with h | h
    · right; exact max_eq_right h
    · left; exact max_eq_left h
  generalize he : max (floorLog2 p - 23) (-149) = e at hmax hcases
  have hpow : (0 : ℚ) < 2 ^ e := zpow_pos (by norm_num) e
  have hx0 : 0 ≤ p / 2 ^ e := div_nonneg (le_of_lt hp) (le_of_lt hpow)
  obtain ⟨hnear, htie⟩ := roundHalfEven_near (p / 2 ^ e) hx0
  have hscale : ∀ m : Nat, |(m : ℚ) * 2 ^ e - p| = |(m : ℚ) - p / 2 ^ e| * 2 ^ e := by
    intro m
    have e1 : (m : ℚ) * 2 ^ e - p = ((m : ℚ) - p / 2 ^ e) * 2 ^ e := by
      field_simp
    rw [e1, abs_mul, abs_of_pos hpow]
  have hp24 : p < 2 ^ (e + 24) := by
    have h1 : floorLog2 p + 1 ≤ e + 24 := by omega
    exact lt_of_lt_of_le hhi (zpow_le_zpow_right₀ (by norm_num) h1)
  refine ⟨roundHalfEven (p / 2 ^ e), ?_, hp24, ?_, ?_, ?_, ?_, ?_⟩
  · rcases hcases with h | h
    · left
      have : e + 23 = floorLog2 p := by omega
      rw [this]
      exact hlo
    · right; exact h
  · have hx : p / 2 ^ e ≤ ((2 ^ 24 : Nat) : ℚ) := by
      rw [div_le_iff₀ hpow]
      have e1 : ((2 ^ 24 : Nat) : ℚ) * 2 ^ e = 2 ^ (e + 24) := by
        rw [zpow_add₀ (by norm_num : (2 : ℚ) ≠ 0)]
        norm_num
        ring
      rw [e1]
      exact le_of_lt hp24
    exact roundHalfEven_le _ _ hx0 hx
  · rw [hscale]
    calc |(roundHalfEven (p / 2 ^ e) : ℚ) - p / 2 ^ e| * 2 ^ e ≤ 1 / 2 * 2 ^ e :=
          mul_le_mul_of_nonneg_right hnear (le_of_lt hpow)
      _ = 2 ^ e / 2 := by ring
  · intro h
    rw [hscale] at h
    apply htie
    have h2 : |(roundHalfEven (p / 2 ^ e) : ℚ) - p / 2 ^ e| * 2 ^ e = 1 / 2 * 2 ^ e := by
      rw [h]; ring
    exact mul_right_cancel₀ (ne_of_gt hpow) h2
  · intro m
    rw [hscale, hscale]
    apply mul_le_mul_of_nonneg_right _ (le_of_lt hpow)
    by_cases hm : m = roundHalfEven (p / 2 ^ e)
    · rw [hm]
    · have h1 : (1 : ℚ) ≤ |(m : ℚ) - (roundHalfEven (p / 2 ^ e) : ℚ)| := by
        have h2 : (1 : Int) ≤ |(m : Int) - (roundHalfEven (p / 2 ^ e) : Int)| := by
          have : (m : Int) - (roundHalfEven (p / 2 ^ e) : Int) ≠ 0 := by omega
          exact Int.one_le_abs this
        have h3 : ((1 : Int) : ℚ) ≤ ((|(m : Int) - (roundHalfEven (p / 2 ^ e) : Int)| : Int) : ℚ) :=
          by exact_mod_cast h2
        simpa using h3
      have h4 : |(m : ℚ) - (roundHalfEven (p / 2 ^ e) : ℚ)|
          ≤ |(m : ℚ) - p / 2 ^ e| + |(roundHalfEven (p / 2 ^ e) : ℚ) - p / 2 ^ e| := by
        have := abs_sub_le (m : ℚ) (p / 2 ^ e) (roundHalfEven (p / 2 ^ e) : ℚ)
        rw [abs_sub_comm (p / 2 ^ e) _] at this
        exact this
      linarith
  · unfold roundBinary32
    simp only [ne_of_gt hp, if_false, he]

theorem binary32_hundredth : binary32.hundredth = float.finite false (5368709 / 536870912) := by
  decide!

theorem binary32_hundred : binary32.hundred = float.finite false 100 := by
  decide!

theorem binary32_gain_range (negative : Bool) (v : ℚ) (h0 : 0 ≤ v) (h100 : v ≤ 100) :
    ∃ g, binary32.mul (float.finite negative v) binary32.hundredth = float.finite negative g ∧
      0 ≤ g ∧ g ≤ 1 := by
  have hp0 : (0 : ℚ) ≤ v * (5368709 / 536870912) := by positivity
  have hp1 : v * (5368709 / 536870912) ≤ 1 := by linarith
  obtain ⟨r, hr, hr0, hr1⟩ := roundBinary32_le_one _ hp0 hp1
  refine ⟨r, ?_, hr0, hr1⟩
  rw [binary32_hundredth]
  simp [binary32, float.mulWith, hr]


theorem exactArith_round_trip (v : float) :
    exactArith.mul (exactArith.mul v exactArith.hundredth) exactArith.hundred = v := by
  cases v with
  | nan => rfl
  | inf s => simp [exactArith, float.mulWith, float.literal]
  | finite s p => simp [exactArith, float.mulWith, float.literal]


/-! ### Copying a source -/

theorem copyAttributes_trace (fl : FloatArith) (al : OpenAL σ) (self other : SoundSource σ) (s : Sys σ) :
    ∃ (pitch gain : float) (position : float × float × float) (relative : ALint)
        (distance attenuation : float),
      (SoundSource.copyAttributes fl al self other s).trace
        = s.trace ++ copyEvents fl self.m_source other.m_source pitch gain position relative
            distance attenuation := by
  simp only [SoundSource.copyAttributes, SoundSource.getPitch, SoundSource.setPitch,
    SoundSource.getVolume, SoundSource.setVolume, SoundSource.getPosition,
    SoundSource.setPosition, SoundSource.setPositionXYZ, SoundSource.isRelativeToListener,
    SoundSource.setRelativeToListener, SoundSource.getMinDistance, SoundSource.setMinDistance,
    SoundSource.getAttenuation, SoundSource.setAttenuation, alCheck.alGetSourcef,
    alCheck.alSourcef, alCheck.alGetSource3f, alCheck.alSource3f, alCheck.alGetSourcei,
    alCheck.alSourcei, List.append_assoc, List.singleton_append, List.cons_append,
    List.nil_append, copyEvents]
  exact ⟨_, _, _, _, _, _, rfl⟩

theorem copyAttributes_store (fl : FloatArith) (me other : SoundSource ALStore) (d : Sys ALStore) :
    (SoundSource.copyAttributes fl alStore me other d).world
      = { d.world with
          intAttr := fun h p =>
            if h = me.m_source ∧ p = AL_SOURCE_RELATIVE then
              (if d.world.intAttr other.m_source AL_SOURCE_RELATIVE ≠ 0 then 1 else 0)
            else d.world.intAttr h p
          floatAttr := fun h p =>
            if h = me.m_source ∧ p = AL_ROLLOFF_FACTOR then
              d.world.floatAttr other.m_source AL_ROLLOFF_FACTOR
            else if h = me.m_source ∧ p = AL_REFERENCE_DISTANCE then
              d.world.floatAttr other.m_source AL_REFERENCE_DISTANCE
            else if h = me.m_source ∧ p = AL_GAIN then
              fl.mul (fl.mul (d.world.floatAttr other.m_source AL_GAIN) fl.hundred)
                fl.hundredth
            else if h = me.m_source ∧ p = AL_PITCH then
              d.world.floatAttr other.m_source AL_PITCH
            else d.world.floatAttr h p
          vecAttr := fun h p =>
            if h = me.m_source ∧ p = AL_POSITION then d.world.vecAttr other.m_source AL_POSITION
            else d.world.vecAttr h p } := by
  simp [SoundSource.copyAttributes, SoundSource.getPitch, SoundSource.setPitch,
    SoundSource.getVolume, SoundSource.setVolume, SoundSource.getPosition,
    SoundSource.setPosition, SoundSource.setPositionXYZ, SoundSource.isRelativeToListener,
    SoundSource.setRelativeToListener, SoundSource.getMinDistance, SoundSource.setMinDistance,
    SoundSource.getAttenuation, SoundSource.setAttenuation, alCheck.alGetSourcef,
    alCheck.alSourcef, alCheck.alGetSource3f, alCheck.alSource3f, alCheck.alGetSourcei,
    alCheck.alSourcei, alStore]

theorem copyAttributes_getters (fl : FloatArith) (me other : SoundSource ALStore) (d : Sys ALStore) :
    (SoundSource.getPitch alStore me (SoundSource.copyAttributes fl alStore me other d)).1
      = (SoundSource.getPitch alStore other
          (SoundSource.copyAttributes fl alStore me other d)).1 ∧
    (SoundSource.getPosition alStore me (SoundSource.copyAttributes fl alStore me other d)).1
      = (SoundSource.getPosition alStore other
          (SoundSource.copyAttributes fl alStore me other d)).1 ∧
    (SoundSource.isRelativeToListener alStore me
        (SoundSource.copyAttributes fl alStore me other d)).1
      = (SoundSource.isRelativeToListener alStore other
          (SoundSource.copyAttributes fl alStore me other d)).1 ∧
    (SoundSource.getMinDistance alStore me (SoundSource.copyAttributes fl alStore me other d)).1
      = (SoundSource.getMinDistance alStore other
          (SoundSource.copyAttributes fl alStore me other d)).1 ∧
    (SoundSource.getAttenuation alStore me (SoundSource.copyAttributes fl alStore me other d)).1
      = (SoundSource.getAttenuation alStore other
          (SoundSource.copyAttributes fl alStore me other d)).1 := by
  by_cases h : me.m_source = other.m_source
  · simp [SoundSource.getPitch, SoundSource.getPosition,
      SoundSource.isRelativeToListener, SoundSource.getMinDistance,
      SoundSource.getAttenuation, alCheck.alGetSourcef, alCheck.alGetSource3f,
      alCheck.alGetSourcei, h]
  · have h' : ¬ other.m_source = me.m_source := fun e => h e.symm
    simp only [SoundSource.getPitch, SoundSource.getPosition,
      SoundSource.isRelativeToListener, SoundSource.getMinDistance,
      SoundSource.getAttenuation, alCheck.alGetSourcef, alCheck.alGetSource3f,
      alCheck.alGetSourcei, copyAttributes_store]
    refine ⟨?_, ?_, ?_, ?_, ?_⟩
    · simp [alStore, h']
    · simp [alStore, h']
    · by_cases hz : d.world.intAttr other.m_source AL_SOURCE_RELATIVE = 0
      · simp [alStore, h', hz]
      · simp [alStore, h', hz]
    · simp [alStore, h']
    · simp [alStore, h']

/-- C18. Copying leaves the handles where they are.  The assignment `a = b`
returns `a` as it was, handle and filter association included, and makes twelve
OpenAL calls: six reads of attributes of the handle of `b`, each followed by the
write of that attribute to the handle of `a`; no name is generated.  On the
store, when the two handles differ every attribute of `b` is as before, and in
any case the state, the direct-filter slot and hence the status of `a` are as
before.  The copy constructor gives the copy the name that `alGenSources`
returns and copies no data member of `b`; on the store that name differs from
the handle of `b` whenever that handle was generated before, and the attributes
of `b` are as before. -/
theorem copy_keeps_handles (fl : FloatArith) (al : OpenAL σ) (self right : SoundSource σ) (s : Sys σ)
    (me other : SoundSource ALStore) (d : Sys ALStore) :
    (SoundSource.assign fl al self right s).1 = self ∧
    (∃ (pitch gain : float) (position : float × float × float) (relative : ALint)
        (distance attenuation : float),
      (SoundSource.assign fl al self right s).2.trace
        = s.trace ++ copyEvents fl self.m_source right.m_source pitch gain position relative
            distance attenuation) ∧
    (me.m_source ≠ other.m_source →
      ∀ p, (SoundSource.assign fl alStore me other d).2.world.intAttr other.m_source p
          = d.world.intAttr other.m_source p ∧
        (SoundSource.assign fl alStore me other d).2.world.floatAttr other.m_source p
          = d.world.floatAttr other.m_source p ∧
        (SoundSource.assign fl alStore me other d).2.world.vecAttr other.m_source p
          = d.world.vecAttr other.m_source p) ∧
    ((SoundSource.assign fl alStore me other d).2.world.intAttr me.m_source AL_SOURCE_STATE
        = d.world.intAttr me.m_source AL_SOURCE_STATE ∧
      (SoundSource.assign fl alStore me other d).2.world.intAttr me.m_source AL_DIRECT_FILTER
        = d.world.intAttr me.m_source AL_DIRECT_FILTER ∧
      (SoundSourceBase.getStatus alStore me (SoundSource.assign fl alStore me other d).2).1
        = (SoundSourceBase.getStatus alStore me d).1 ∧
      (SoundSource.assign fl alStore me other d).2.world.generated = d.world.generated) ∧
    (SoundSource.copyConstruct fl al self right s).1
      = { self with m_source := (al.alGenSources s.world).1 } ∧
    (∃ (pitch gain : float) (position : float × float × float) (relative : ALint)
        (distance attenuation : float),
      (SoundSource.copyConstruct fl al self right s).2.trace
        = s.trace ++ [Event.alGenSources (al.alGenSources s.world).1,
            Event.alSourcei (al.alGenSources s.world).1 AL_BUFFER 0]
          ++ copyEvents fl (al.alGenSources s.world).1 right.m_source pitch gain position
              relative distance attenuation) ∧
    (other.m_source ≤ d.world.generated →
      (SoundSource.copyConstruct fl alStore me other d).1.m_source = d.world.generated + 1 ∧
      (SoundSource.copyConstruct fl alStore me other d).1.m_source ≠ other.m_source ∧
      (SoundSource.copyConstruct fl alStore me other d).2.world.generated
        = d.world.generated + 1 ∧
      ∀ p, (SoundSource.copyConstruct fl alStore me other d).2.world.intAttr other.m_source p
          = d.world.intAttr other.m_source p ∧
        (SoundSource.copyConstruct fl alStore me other d).2.world.floatAttr other.m_source p
          = d.world.floatAttr other.m_source p ∧
        (SoundSource.copyConstruct fl alStore me other d).2.world.vecAttr other.m_source p
          = d.world.vecAttr other.m_source p) := by
  refine ⟨rfl, copyAttributes_trace fl al self right s, ?_, ?_, rfl, ?_, ?_⟩
  · intro hne p
    have h' : ¬ other.m_source = me.m_source := fun e => hne e.symm
    simp only [SoundSource.assign, copyAttributes_store]
    simp [h']
  · refine ⟨?_, ?_, ?_, ?_⟩
    · simp only [SoundSource.assign, copyAttributes_store]
      simp
    · simp only [SoundSource.assign, copyAttributes_store]
      simp
    · rw [getStatus_eq, getStatus_eq]
      simp only [SoundSource.assign, copyAttributes_store]
      simp [alStore]
    · simp only [SoundSource.assign, copyAttributes_store]
  · obtain ⟨pitch, gain, position, relative, distance, attenuation, h⟩ :=
      copyAttributes_trace fl al { self with m_source := (al.alGenSources s.world).1 } right
        (alCheck.alSourcei al (al.alGenSources s.world).1 AL_BUFFER 0
          (alCheck.alGenSources al s).2)
    refine ⟨pitch, gain, position, relative, distance, attenuation, ?_⟩
    simp only [SoundSource.copyConstruct]
    rw [show (alCheck.alGenSources al s).1 = (al.alGenSources s.world).1 from rfl, h]
    simp [alCheck.alSourcei, alCheck.alGenSources]
  · intro hle
    have hlt : other.m_source < d.world.generated + 1 := Nat.lt_succ_of_le hle
    have hne : ¬ other.m_source = d.world.generated + 1 := Nat.ne_of_lt hlt
    have hnew : (SoundSource.copyConstruct fl alStore me other d).1.m_source
        = d.world.generated + 1 := rfl
    refine ⟨hnew, ?_, ?_, ?_⟩
    · rw [hnew]
      exact fun e => hne e.symm
    · simp only [SoundSource.copyConstruct, copyAttributes_store]
      simp [alCheck.alSourcei, alCheck.alGenSources, alStore]
    · intro p
      simp only [SoundSource.copyConstruct, copyAttributes_store]
      simp [alCheck.alSourcei, alCheck.alGenSources, alStore, hne]

/-- Run of C18 on the store: source 2 is assigned from source 1, and a copy of
source 1 is constructed; source 1 keeps its handle, its gain and its state, and
the copy gets the new name 3. -/
theorem copy_keeps_handles_witness :
    (storeSource 2 none).m_source ≠ (storeSource 1 (some ⟨7⟩)).m_source ∧
    (storeSource 1 (some ⟨7⟩)).m_source ≤ (Sys.mk demoStore []).world.generated ∧
    (SoundSource.assign binary32 alStore (storeSource 2 none) (storeSource 1 (some ⟨7⟩))
        ⟨demoStore, []⟩).1.m_source = 2 ∧
    (SoundSource.assign binary32 alStore (storeSource 2 none) (storeSource 1 (some ⟨7⟩))
        ⟨demoStore, []⟩).1.getFilter = none ∧
    (∀ p, (SoundSource.assign binary32 alStore (storeSource 2 none) (storeSource 1 (some ⟨7⟩))
          ⟨demoStore, []⟩).2.world.intAttr (storeSource 1 (some ⟨7⟩)).m_source p
        = (Sys.mk demoStore []).world.intAttr (storeSource 1 (some ⟨7⟩)).m_source p ∧
      (SoundSource.assign binary32 alStore (storeSource 2 none) (storeSource 1 (some ⟨7⟩))
          ⟨demoStore, []⟩).2.world.floatAttr (storeSource 1 (some ⟨7⟩)).m_source p
        = (Sys.mk demoStore []).world.floatAttr (storeSource 1 (some ⟨7⟩)).m_source p ∧
      (SoundSource.assign binary32 alStore (storeSource 2 none) (storeSource 1 (some ⟨7⟩))
          ⟨demoStore, []⟩).2.world.vecAttr (storeSource 1 (some ⟨7⟩)).m_source p
        = (Sys.mk demoStore []).world.vecAttr (storeSource 1 (some ⟨7⟩)).m_source p) ∧
    ((SoundSource.copyConstruct binary32 alStore (storeSource 2 none) (storeSource 1 (some ⟨7⟩))
        ⟨demoStore, []⟩).1.m_source = (Sys.mk demoStore []).world.generated + 1 ∧
      (SoundSource.copyConstruct binary32 alStore (storeSource 2 none) (storeSource 1 (some ⟨7⟩))
        ⟨demoStore, []⟩).1.m_source ≠ (storeSource 1 (some ⟨7⟩)).m_source ∧
      (SoundSource.copyConstruct binary32 alStore (storeSource 2 none) (storeSource 1 (some ⟨7⟩))
        ⟨demoStore, []⟩).2.world.generated = (Sys.mk demoStore []).world.generated + 1 ∧
      ∀ p, (SoundSource.copyConstruct binary32 alStore (storeSource 2 none)
            (storeSource 1 (some ⟨7⟩)) ⟨demoStore, []⟩).2.world.intAttr
              (storeSource 1 (some ⟨7⟩)).m_source p
          = (Sys.mk demoStore []).world.intAttr (storeSource 1 (some ⟨7⟩)).m_source p ∧
        (SoundSource.copyConstruct binary32 alStore (storeSource 2 none)
            (storeSource 1 (some ⟨7⟩)) ⟨demoStore, []⟩).2.world.floatAttr
              (storeSource 1 (some ⟨7⟩)).m_source p
          = (Sys.mk demoStore []).world.floatAttr (storeSource 1 (some ⟨7⟩)).m_source p ∧
        (SoundSource.copyConstruct binary32 alStore (storeSource 2 none)
            (storeSource 1 (some ⟨7⟩)) ⟨demoStore, []⟩).2.world.vecAttr
              (storeSource 1 (some ⟨7⟩)).m_source p
          = (Sys.mk demoStore []).world.vecAttr (storeSource 1 (some ⟨7⟩)).m_source p) :=
  ⟨by decide, by decide, rfl, rfl,
    (copy_keeps_handles binary32 alStore (storeSource 2 none) (storeSource 1 (some ⟨7⟩))
      ⟨demoStore, []⟩ (storeSource 2 none) (storeSource 1 (some ⟨7⟩))
      ⟨demoStore, []⟩).2.2.1 (by decide),
    (copy_keeps_handles binary32 alStore (storeSource 2 none) (storeSource 1 (some ⟨7⟩))
      ⟨demoStore, []⟩ (storeSource 2 none) (storeSource 1 (some ⟨7⟩))
      ⟨demoStore, []⟩).2.2.2.2.2.2 (by decide)⟩

/-- C19. Copying duplicates the attributes, on the store and for every
arithmetic of `float`.  After `a = b`, and after constructing `a` as a copy of
`b`, each of `getPitch`, `getPosition`, `isRelativeToListener`,
`getMinDistance` and `getAttenuation` returns for `a` what it returns for `b`.
The gain written to `a` is the product of 0.01 and the product of 100 and the
gain of `b`, both taken in `float`.  When that is the gain of `b`, the gain of
`a` is the gain of `b` afterwards and `getVolume` returns for `a` what it
returns for `b`. -/
theorem copy_duplicates_attributes (fl : FloatArith) (me other : SoundSource ALStore)
    (d : Sys ALStore) :
    ((SoundSource.getPitch alStore (SoundSource.assign fl alStore me other d).1
          (SoundSource.assign fl alStore me other d).2).1
        = (SoundSource.getPitch alStore other (SoundSource.assign fl alStore me other d).2).1 ∧
      (SoundSource.getPosition alStore (SoundSource.assign fl alStore me other d).1
          (SoundSource.assign fl alStore me other d).2).1
        = (SoundSource.getPosition alStore other
            (SoundSource.assign fl alStore me other d).2).1 ∧
      (SoundSource.isRelativeToListener alStore (SoundSource.assign fl alStore me other d).1
          (SoundSource.assign fl alStore me other d).2).1
        = (SoundSource.isRelativeToListener alStore other
            (SoundSource.assign fl alStore me other d).2).1 ∧
      (SoundSource.getMinDistance alStore (SoundSource.assign fl alStore me other d).1
          (SoundSource.assign fl alStore me other d).2).1
        = (SoundSource.getMinDistance alStore other
            (SoundSource.assign fl alStore me other d).2).1 ∧
      (SoundSource.getAttenuation alStore (SoundSource.assign fl alStore me other d).1
          (SoundSource.assign fl alStore me other d).2).1
        = (SoundSource.getAttenuation alStore other
            (SoundSource.assign fl alStore me other d).2).1) ∧
    ((SoundSource.getPitch alStore (SoundSource.copyConstruct fl alStore me other d).1
          (SoundSource.copyConstruct fl alStore me other d).2).1
        = (SoundSource.getPitch alStore other
            (SoundSource.copyConstruct fl alStore me other d).2).1 ∧
      (SoundSource.getPosition alStore (SoundSource.copyConstruct fl alStore me other d).1
          (SoundSource.copyConstruct fl alStore me other d).2).1
        = (SoundSource.getPosition alStore other
            (SoundSource.copyConstruct fl alStore me other d).2).1 ∧
      (SoundSource.isRelativeToListener alStore
          (SoundSource.copyConstruct fl alStore me other d).1
          (SoundSource.copyConstruct fl alStore me other d).2).1
        = (SoundSource.isRelativeToListener alStore other
            (SoundSource.copyConstruct fl alStore me other d).2).1 ∧
      (SoundSource.getMinDistance alStore (SoundSource.copyConstruct fl alStore me other d).1
          (SoundSource.copyConstruct fl alStore me other d).2).1
        = (SoundSource.getMinDistance alStore other
            (SoundSource.copyConstruct fl alStore me other d).2).1 ∧
      (SoundSource.getAttenuation alStore (SoundSource.copyConstruct fl alStore me other d).1
          (SoundSource.copyConstruct fl alStore me other d).2).1
        = (SoundSource.getAttenuation alStore other
            (SoundSource.copyConstruct fl alStore me other d).2).1) ∧
    (SoundSource.assign fl alStore me other d).2.world.floatAttr me.m_source AL_GAIN
      = fl.mul (fl.mul (d.world.floatAttr other.m_source AL_GAIN) fl.hundred) fl.hundredth ∧
    (SoundSource.copyConstruct fl alStore me other d).2.world.floatAttr
        (SoundSource.copyConstruct fl alStore me other d).1.m_source AL_GAIN
      = fl.mul (fl.mul (d.world.floatAttr other.m_source AL_GAIN) fl.hundred) fl.hundredth ∧
    (fl.mul (fl.mul (d.world.floatAttr other.m_source AL_GAIN) fl.hundred) fl.hundredth
        = d.world.floatAttr other.m_source AL_GAIN →
      (SoundSource.assign fl alStore me other d).2.world.floatAttr me.m_source AL_GAIN
        = (SoundSource.assign fl alStore me other d).2.world.floatAttr other.m_source AL_GAIN ∧
      (SoundSource.getVolume fl alStore (SoundSource.assign fl alStore me other d).1
          (SoundSource.assign fl alStore me other d).2).1
        = (SoundSource.getVolume fl alStore other
            (SoundSource.assign fl alStore me other d).2).1 ∧
      (SoundSource.copyConstruct fl alStore me other d).2.world.floatAttr
          (SoundSource.copyConstruct fl alStore me other d).1.m_source AL_GAIN
        = (SoundSource.copyConstruct fl alStore me other d).2.world.floatAttr
            other.m_source AL_GAIN ∧
      (SoundSource.getVolume fl alStore (SoundSource.copyConstruct fl alStore me other d).1
          (SoundSource.copyConstruct fl alStore me other d).2).1
        = (SoundSource.getVolume fl alStore other
            (SoundSource.copyConstruct fl alStore me other d).2).1) := by
  have hgain : ∀ (a : SoundSource ALStore) (d1 : Sys ALStore),
      (SoundSource.copyAttributes fl alStore a other d1).world.floatAttr a.m_source AL_GAIN
        = fl.mul (fl.mul (d1.world.floatAttr other.m_source AL_GAIN) fl.hundred)
            fl.hundredth := by
    intro a d1
    rw [copyAttributes_store]
    simp
  have hsame : ∀ (a : SoundSource ALStore) (d1 : Sys ALStore),
      fl.mul (fl.mul (d1.world.floatAttr other.m_source AL_GAIN) fl.hundred) fl.hundredth
        = d1.world.floatAttr other.m_source AL_GAIN →
      (SoundSource.copyAttributes fl alStore a other d1).world.floatAttr a.m_source AL_GAIN
        = (SoundSource.copyAttributes fl alStore a other d1).world.floatAttr
            other.m_source AL_GAIN := by
    intro a d1 hround
    by_cases h : a.m_source = other.m_source
    · rw [h]
    · have h2 : ¬ other.m_source = a.m_source := fun e => h e.symm
      rw [hgain a d1, hround, copyAttributes_store]
      simp [h2]
  have hvol : ∀ (a : SoundSource ALStore) (d1 : Sys ALStore),
      fl.mul (fl.mul (d1.world.floatAttr other.m_source AL_GAIN) fl.hundred) fl.hundredth
        = d1.world.floatAttr other.m_source AL_GAIN →
      (SoundSource.getVolume fl alStore a (SoundSource.copyAttributes fl alStore a other d1)).1
        = (SoundSource.getVolume fl alStore other
            (SoundSource.copyAttributes fl alStore a other d1)).1 := by
    intro a d1 hround
    have h := hsame a d1 hround
    simp only [SoundSource.getVolume, alCheck.alGetSourcef]
    show fl.mul (alStore.alGetSourcef a.m_source AL_GAIN _) fl.hundred
      = fl.mul (alStore.alGetSourcef other.m_source AL_GAIN _) fl.hundred
    show fl.mul ((SoundSource.copyAttributes fl alStore a other d1).world.floatAttr
        a.m_source AL_GAIN) fl.hundred
      = fl.mul ((SoundSource.copyAttributes fl alStore a other d1).world.floatAttr
        other.m_source AL_GAIN) fl.hundred
    rw [h]
  have hd : (alCheck.alSourcei alStore (alCheck.alGenSources alStore d).1 AL_BUFFER 0
      (alCheck.alGenSources alStore d).2).world.floatAttr = d.world.floatAttr := rfl
  refine ⟨copyAttributes_getters fl me other d, copyAttributes_getters fl _ other _,
    hgain me d, ?_, ?_⟩
  · have h := hgain { me with m_source := (alCheck.alGenSources alStore d).1 }
      (alCheck.alSourcei alStore (alCheck.alGenSources alStore d).1 AL_BUFFER 0
        (alCheck.alGenSources alStore d).2)
    rw [hd] at h
    exact h
  · intro hround
    refine ⟨hsame me d hround, hvol me d hround, ?_, ?_⟩
    · exact hsame { me with m_source := (alCheck.alGenSources alStore d).1 }
        (alCheck.alSourcei alStore (alCheck.alGenSources alStore d).1 AL_BUFFER 0
          (alCheck.alGenSources alStore d).2) (by rw [hd]; exact hround)
    · exact hvol { me with m_source := (alCheck.alGenSources alStore d).1 }
        (alCheck.alSourcei alStore (alCheck.alGenSources alStore d).1 AL_BUFFER 0
          (alCheck.alGenSources alStore d).2) (by rw [hd]; exact hround)

/-- Runs of C19 on the store in single precision.  Source 1 has the gain 0.5:
multiplied by 100 and then by 0.01 it is 0.5 again, source 2 has the gain 0.5
after `source2 = source1`, and `getVolume` returns 50 for both.  With the gain
0.1f, which is 13421773/134217728, the two products give 3355443/33554432: that
is the gain written to source 2, and it is not the gain of source 1. -/
theorem copy_duplicates_attributes_witness :
    binary32.mul (binary32.mul
        ((Sys.mk demoStore []).world.floatAttr (storeSource 1 none).m_source AL_GAIN)
        binary32.hundred) binary32.hundredth
      = (Sys.mk demoStore []).world.floatAttr (storeSource 1 none).m_source AL_GAIN ∧
    (SoundSource.getVolume binary32 alStore
        (SoundSource.assign binary32 alStore (storeSource 2 none) (storeSource 1 none)
          ⟨demoStore, []⟩).1
        (SoundSource.assign binary32 alStore (storeSource 2 none) (storeSource 1 none)
          ⟨demoStore, []⟩).2).1
      = (SoundSource.getVolume binary32 alStore (storeSource 1 none)
          (SoundSource.assign binary32 alStore (storeSource 2 none) (storeSource 1 none)
            ⟨demoStore, []⟩).2).1 ∧
    (SoundSource.getVolume binary32 alStore (storeSource 1 none)
        (SoundSource.assign binary32 alStore (storeSource 2 none) (storeSource 1 none)
          ⟨demoStore, []⟩).2).1 = float.finite false 50 ∧
    (SoundSource.assign binary32 alStore (storeSource 2 none) (storeSource 1 none)
        ⟨tenthStore, []⟩).2.world.floatAttr 1 AL_GAIN
      = float.finite false (13421773 / 134217728) ∧
    (SoundSource.assign binary32 alStore (storeSource 2 none) (storeSource 1 none)
        ⟨tenthStore, []⟩).2.world.floatAttr 2 AL_GAIN
      = float.finite false (3355443 / 33554432) :=
  have hround : binary32.mul (binary32.mul
        ((Sys.mk demoStore []).world.floatAttr (storeSource 1 none).m_source AL_GAIN)
        binary32.hundred) binary32.hundredth
      = (Sys.mk demoStore []).world.floatAttr (storeSource 1 none).m_source AL_GAIN := by
    decide!
  ⟨hround,
    ((copy_duplicates_attributes binary32 (storeSource 2 none) (storeSource 1 none)
      ⟨demoStore, []⟩).2.2.2.2 hround).2.1,
    by decide!, by decide!, by decide!⟩

/-- C20. Volume normalisation without validation.  For every float `v`, finite
or not, and every arithmetic, `setVolume(v)` makes one call, the write of the
float product of `v` and `0.01f` to the gain of `m_source`.  In single
precision a finite `v` of magnitude at most 100 gives a gain of the same sign
and of magnitude at most 1, so a `v` between 0 and 100 a gain between 0 and 1.
`getVolume` reads the gain of `m_source`, leaves the world as it is and returns
the float product of the gain and `100.f`.  In exact arithmetic, on a device
that returns the gain it was given, `getVolume()` after `setVolume(v)` returns
`v`. -/
theorem setVolume_normalises (fl : FloatArith) (al : OpenAL σ) (self : SoundSource σ)
    (v : float) (s : Sys σ) :
    SoundSource.setVolume fl al self v s
      = ⟨al.alSourcef self.m_source AL_GAIN (fl.mul v fl.hundredth) s.world,
          s.trace ++ [Event.alSourcef self.m_source AL_GAIN (fl.mul v fl.hundredth)]⟩ ∧
    (∀ (negative : Bool) (q : ℚ), v = float.finite negative q → 0 ≤ q → q ≤ 100 →
      ∃ g : ℚ,
        SoundSource.setVolume binary32 al self v s
          = ⟨al.alSourcef self.m_source AL_GAIN (float.finite negative g) s.world,
              s.trace ++ [Event.alSourcef self.m_source AL_GAIN (float.finite negative g)]⟩ ∧
        0 ≤ g ∧ g ≤ 1) ∧
    SoundSource.getVolume fl al self s
      = (fl.mul (al.alGetSourcef self.m_source AL_GAIN s.world) fl.hundred,
          ⟨s.world, s.trace ++ [Event.alGetSourcef self.m_source AL_GAIN
            (al.alGetSourcef self.m_source AL_GAIN s.world)]⟩) ∧
    (al.alGetSourcef self.m_source AL_GAIN
        (al.alSourcef self.m_source AL_GAIN (exactArith.mul v exactArith.hundredth) s.world)
        = exactArith.mul v exactArith.hundredth →
      (SoundSource.getVolume exactArith al self
        (SoundSource.setVolume exactArith al self v s)).1 = v) := by
  refine ⟨rfl, ?_, rfl, ?_⟩
  · intro negative q hv h0 h100
    obtain ⟨g, hg, hg0, hg1⟩ := binary32_gain_range negative q h0 h100
    refine ⟨g, ?_, hg0, hg1⟩
    simp only [SoundSource.setVolume, alCheck.alSourcef, hv, hg]
  · intro hstore
    simp only [SoundSource.getVolume, SoundSource.setVolume, alCheck.alGetSourcef,
      alCheck.alSourcef, hstore]
    exact exactArith_round_trip v

/-- Runs of C20 on the store.  In single precision the volume 50 is written as
the gain 0.5, the volume 1 as 5368709/536870912, which is `0.01f`, and the
volume 150, out of range, as a gain above 1; at the gain 0.3f `getVolume`
returns 15728641/524288, at the gain 10^37 it returns infinity, and after
`setVolume(30)` it returns 15728639/524288.  In exact arithmetic `getVolume()`
after `setVolume(30)` returns 30. -/
theorem setVolume_normalises_witness :
    (0 : ℚ) ≤ 50 ∧ (50 : ℚ) ≤ 100 ∧
    (∃ g : ℚ,
      SoundSource.setVolume binary32 alStore (storeSource 1 none) (float.finite false 50)
          ⟨demoStore, []⟩
        = ⟨alStore.alSourcef (storeSource 1 none).m_source AL_GAIN (float.finite false g)
              (Sys.mk demoStore []).world,
            (Sys.mk demoStore []).trace
              ++ [Event.alSourcef (storeSource 1 none).m_source AL_GAIN
                    (float.finite false g)]⟩ ∧
      0 ≤ g ∧ g ≤ 1) ∧
    (SoundSource.setVolume binary32 alStore (storeSource 1 none) (float.finite false 50)
      ⟨demoStore, []⟩).trace = [Event.alSourcef 1 AL_GAIN (float.finite false (1 / 2))] ∧
    (SoundSource.setVolume binary32 alStore (storeSource 1 none) (float.finite false 1)
      ⟨demoStore, []⟩).trace
      = [Event.alSourcef 1 AL_GAIN (float.finite false (5368709 / 536870912))] ∧
    (SoundSource.setVolume binary32 alStore (storeSource 1 none) (float.finite false 150)
      ⟨demoStore, []⟩).trace = [Event.alSourcef 1 AL_GAIN (float.finite false (3 / 2))] ∧
    (SoundSource.getVolume binary32 alStore (storeSource 1 none)
      ⟨alStore.alSourcef 1 AL_GAIN (float.finite false (5033165 / 16777216)) demoStore, []⟩).1
      = float.finite false (15728641 / 524288) ∧
    (SoundSource.getVolume binary32 alStore (storeSource 1 none)
      ⟨alStore.alSourcef 1 AL_GAIN (float.finite false (10 ^ 37)) demoStore, []⟩).1
      = float.inf false ∧
    (SoundSource.getVolume binary32 alStore (storeSource 1 none)
      (SoundSource.setVolume binary32 alStore (storeSource 1 none) (float.finite false 30)
        ⟨demoStore, []⟩)).1 = float.finite false (15728639 / 524288) ∧
    alStore.alGetSourcef (storeSource 1 none).m_source AL_GAIN
        (alStore.alSourcef (storeSource 1 none).m_source AL_GAIN
          (exactArith.mul (float.finite false 30) exactArith.hundredth)
          (Sys.mk demoStore []).world)
      = exactArith.mul (float.finite false 30) exactArith.hundredth ∧
    (SoundSource.getVolume exactArith alStore (storeSource 1 none)
      (SoundSource.setVolume exactArith alStore (storeSource 1 none) (float.finite false 30)
        ⟨demoStore, []⟩)).1 = float.finite false 30 :=
  have hstore : alStore.alGetSourcef (storeSource 1 none).m_source AL_GAIN
      (alStore.alSourcef (storeSource 1 none).m_source AL_GAIN
        (exactArith.mul (float.finite false 30) exactArith.hundredth)
        (Sys.mk demoStore []).world)
      = exactArith.mul (float.finite false 30) exactArith.hundredth := by
    simp [alStore]
  ⟨by norm_num, by norm_num,
    (setVolume_normalises binary32 alStore (storeSource 1 none) (float.finite false 50)
      ⟨demoStore, []⟩).2.1 false 50 rfl (by norm_num) (by norm_num),
    by decide!, by decide!, by decide!, by decide!, by decide!, by decide!, hstore,
    (setVolume_normalises binary32 alStore (storeSource 1 none) (float.finite false 30)
      ⟨demoStore, []⟩).2.2.2 hstore⟩

/-! ### What the coordinator touches -/

theorem foldl_preserves {α : Type} (P : σ → Prop) (f : σ → α → σ) (l : List α) (w : σ)
    (h : ∀ a ∈ l, ∀ w, P w → P (f w a)) (h0 : P w) : P (l.foldl f w) := by
  induction l generalizing w with
  | nil => exact h0
  | cons a rest ih =>
    exact ih (f w a) (fun b hb => h b (by simp [hb])) (h a (by simp) w h0)

theorem readinessPass_preserves (dev : Device σ) (P : σ → Prop)
    (sources : List (SoundSource σ)) (i : Nat) (s : Sys σ)
    (hready : ∀ src ∈ sources, ∀ w, P w → P (src.isSynchronizedPlaybackReady w).2)
    (hsleep : ∀ t0 w, P w → P (dev.sleep t0 w)) (h0 : P s.world) :
    P (SoundSource.readinessPass dev sources i s).2.world := by
  induction sources generalizing i s with
  | nil => exact h0
  | cons src rest ih =>
    have h1 := hready src (by simp) s.world h0
    cases hr : (src.isSynchronizedPlaybackReady s.world).1 with
    | false =>
      simp only [SoundSource.readinessPass, hr]
      exact hsleep _ _ h1
    | true =>
      simp only [SoundSource.readinessPass, hr]
      exact ih _ _ (fun x hx => hready x (by simp [hx])) h1

theorem waitAllReady_preserves (dev : Device σ) (P : σ → Prop)
    (sources : List (SoundSource σ)) (fuel : Nat) (s : Sys σ)
    (hready : ∀ src ∈ sources, ∀ w, P w → P (src.isSynchronizedPlaybackReady w).2)
    (hsleep : ∀ t0 w, P w → P (dev.sleep t0 w)) (h0 : P s.world) :
    P (SoundSource.waitAllReady dev sources fuel s).sys.world := by
  induction fuel generalizing s with
  | zero => exact h0
  | succ fuel ih =>
    have h1 := readinessPass_preserves dev P sources 0 s hready hsleep h0
    cases hb : (SoundSource.readinessPass dev sources 0 s).1 with
    | true =>
      have hp : SoundSource.readinessPass dev sources 0 s
          = (true, (SoundSource.readinessPass dev sources 0 s).2) := by rw [← hb]
      simp only [SoundSource.waitAllReady]
      rw [hp]
      exact h1
    | false =>
      have hp : SoundSource.readinessPass dev sources 0 s
          = (false, (SoundSource.readinessPass dev sources 0 s).2) := by rw [← hb]
      simp only [SoundSource.waitAllReady]
      rw [hp]
      exact ih _ h1

theorem synchronizeOffset_preserves (dev : Device σ) (P : σ → Prop) (fuel : Nat)
    (status : Status) (t : Time) (sources : List (SoundSource σ)) (s : Sys σ)
    (hstop : ∀ src ∈ sources, ∀ w, P w → P (src.stop w))
    (hprepare : ∀ src ∈ sources, ∀ t0 w, P w → P (src.prepareSynchronizedPlayback t0 w))
    (hready : ∀ src ∈ sources, ∀ w, P w → P (src.isSynchronizedPlaybackReady w).2)
    (hsleep : ∀ t0 w, P w → P (dev.sleep t0 w))
    (hbatch : ∀ w, P w → P (batchedEffect dev status (handles sources) w))
    (h0 : P s.world) :
    P (SoundSource.synchronizeOffset dev fuel status t sources s).sys.world := by
  unfold SoundSource.synchronizeOffset
  split
  · rw [stopLoop_eq]
    exact foldl_preserves P _ _ _ hstop h0
  · have h1 : P (SoundSource.prepareLoop t sources 0 s).world := by
      rw [prepareLoop_eq]
      exact foldl_preserves P _ _ _ (fun src hsrc w => hprepare src hsrc t w) h0
    have h2 := waitAllReady_preserves dev P sources fuel _ hready hsleep h1
    cases hw : SoundSource.waitAllReady dev sources fuel
        (SoundSource.prepareLoop t sources 0 s) with
    | returned s1 =>
      rw [hw] at h2
      simp only [synchronizeImpl_eq, Outcome.sys]
      exact hbatch _ h2
    | waiting s1 =>
      rw [hw] at h2
      exact h2

theorem world_prepend (tr : List Event) (o : Outcome σ) :
    (o.prepend tr).sys.world = o.sys.world := by
  cases o <;> rfl

theorem trace_prepend (tr : List Event) (o : Outcome σ) :
    (o.prepend tr).sys.trace = tr ++ o.sys.trace := by
  cases o <;> rfl

theorem synchronize_preserves (dev : Device σ) (P : σ → Prop) (fuel : Nat)
    (status : Status) (sources : List (SoundSource σ)) (s : Sys σ)
    (hstop : ∀ src ∈ sources, ∀ w, P w → P (src.stop w))
    (hprepare : ∀ src ∈ sources, ∀ t0 w, P w → P (src.prepareSynchronizedPlayback t0 w))
    (hready : ∀ src ∈ sources, ∀ w, P w → P (src.isSynchronizedPlaybackReady w).2)
    (hsleep : ∀ t0 w, P w → P (dev.sleep t0 w))
    (hbatch : ∀ w, P w → P (batchedEffect dev status (handles sources) w))
    (h0 : P s.world) :
    P (SoundSource.synchronize dev fuel status sources s).sys.world := by
  by_cases hs : status = Status.Stopped
  · simp only [SoundSource.synchronize, hs, if_true, stopLoop_eq, Outcome.sys]
    exact foldl_preserves P _ _ _ hstop h0
  · by_cases hstopped : ∃ src ∈ sources, src.getStatus s.world = Status.Stopped
    · rw [synchronize_of_stopped dev fuel status sources s hs hstopped, world_prepend]
      exact synchronizeOffset_preserves dev P fuel status Time.Zero sources ⟨s.world, []⟩
        hstop hprepare hready hsleep hbatch h0
    · rw [synchronize_of_none_stopped dev fuel status sources s hs hstopped]
      exact hbatch _ h0

theorem mem_stopEvents {i n : Nat} {e : Event} (h : e ∈ stopEvents i n) :
    ∃ k, e = Event.stop k := by
  simp only [stopEvents, List.mem_map] at h
  obtain ⟨k, _, hk⟩ := h
  exact ⟨k, hk.symm⟩

theorem mem_statusEvents (w : σ) (sources : List (SoundSource σ)) (i : Nat) (e : Event)
    (he : e ∈ statusEvents w sources i) :
    ∃ j st, e = Event.getStatus j st ∧ i ≤ j ∧ j < i + sources.length := by
  induction sources generalizing i with
  | nil => simp [statusEvents] at he
  | cons src rest ih =>
    simp only [statusEvents, List.mem_cons] at he
    rcases he with rfl | he
    · exact ⟨i, _, rfl, Nat.le_refl _, by simp⟩
    · obtain ⟨j, st, hj, h1, h2⟩ := ih _ he
      exact ⟨j, st, hj, by omega, by simp only [List.length_cons]; omega⟩

theorem mem_take_statusEvents (w : σ) (sources : List (SoundSource σ)) (i m : Nat) (e : Event)
    (he : e ∈ (statusEvents w sources i).take m) :
    ∃ j st, e = Event.getStatus j st ∧ i ≤ j ∧ j < i + m := by
  induction sources generalizing i m with
  | nil => simp [statusEvents] at he
  | cons src rest ih =>
    cases m with
    | zero => simp at he
    | succ m =>
      simp only [statusEvents, List.take_succ_cons, List.mem_cons] at he
      rcases he with rfl | he
      · exact ⟨i, _, rfl, Nat.le_refl _, by omega⟩
      · obtain ⟨j, st, hj, h1, h2⟩ := ih _ _ he
        exact ⟨j, st, hj, by omega, by omega⟩

theorem synchronizeOffset_added (dev : Device σ) (fuel : Nat) (status : Status) (t : Time)
    (sources : List (SoundSource σ)) (s : Sys σ) :
    ∃ added : List Event,
      (SoundSource.synchronizeOffset dev fuel status t sources s).sys.trace = s.trace ++ added ∧
      (∀ e ∈ added, e.isCoordinatorCall = true ∧
        (e.isBatched = true → e = batchedCall status (handles sources))) ∧
      added.countP Event.isBatched ≤ 1 := by
  by_cases hs : status = Status.Stopped
  · refine ⟨stopEvents 0 sources.length, ?_, ?_, ?_⟩
    · simp [SoundSource.synchronizeOffset, hs, stopLoop_eq, Outcome.sys]
    · intro e he
      obtain ⟨k, rfl⟩ := mem_stopEvents he
      exact ⟨rfl, fun h => by cases h⟩
    · have : (stopEvents 0 sources.length).countP Event.isBatched = 0 := by
        rw [List.countP_eq_zero]
        intro e he
        obtain ⟨k, rfl⟩ := mem_stopEvents he
        simp [Event.isBatched]
      omega
  · obtain ⟨ks, _, hcase⟩ := synchronizeOffset_trace dev fuel status t sources s hs
    have hpieces : ∀ e ∈ prepareEvents t 0 sources.length ++ failedPasses ks
        ++ readyEvents 0 sources.length,
        e.isCoordinatorCall = true ∧ e.isBatched = false := by
      intro e he
      refine ⟨?_, not_isBatched_of_mem he⟩
      simp only [List.mem_append] at he
      rcases he with (h | h) | h
      · obtain ⟨k, rfl⟩ := mem_prepareEvents h
        rfl
      · rcases mem_failedPasses h with ⟨k, b, rfl⟩ | rfl <;> rfl
      · obtain ⟨k, rfl⟩ := mem_readyEvents h
        rfl
    have hzero : (prepareEvents t 0 sources.length ++ failedPasses ks
        ++ readyEvents 0 sources.length).countP Event.isBatched = 0 := by
      rw [List.countP_eq_zero]
      intro e he
      simp [(hpieces e he).2]
    have hcallc : (batchedCall status (handles sources)).isCoordinatorCall = true := by
      unfold batchedCall
      split <;> rfl
    rcases hcase with ⟨s1, he, _, ht⟩ | ⟨s1, he, _, ht⟩
    · refine ⟨(prepareEvents t 0 sources.length ++ failedPasses ks
          ++ readyEvents 0 sources.length) ++ [batchedCall status (handles sources)], ?_, ?_, ?_⟩
      · rw [he]
        simp [Outcome.sys, ht]
      · intro e hmem
        rcases List.mem_append.mp hmem with h | h
        · exact ⟨(hpieces e h).1, fun hb => by rw [(hpieces e h).2] at hb; cases hb⟩
        · rw [List.mem_singleton] at h
          rw [h]
          exact ⟨hcallc, fun _ => rfl⟩
      · rw [List.countP_append, hzero]
        simp [List.countP_cons]
        split <;> omega
    · refine ⟨prepareEvents t 0 sources.length ++ failedPasses ks, ?_, ?_, ?_⟩
      · rw [he]
        simp [Outcome.sys, ht]
      · intro e hmem
        have : e ∈ prepareEvents t 0 sources.length ++ failedPasses ks
            ++ readyEvents 0 sources.length := List.mem_append_left _ hmem
        exact ⟨(hpieces e this).1, fun hb => by rw [(hpieces e this).2] at hb; cases hb⟩
      · have : (prepareEvents t 0 sources.length ++ failedPasses ks).countP Event.isBatched
            = 0 := by
          rw [List.countP_eq_zero]
          intro e hmem
          have : e ∈ prepareEvents t 0 sources.length ++ failedPasses ks
              ++ readyEvents 0 sources.length := List.mem_append_left _ hmem
          simp [(hpieces e this).2]
        omega

theorem synchronize_added (dev : Device σ) (fuel : Nat) (status : Status)
    (sources : List (SoundSource σ)) (s : Sys σ) :
    ∃ added : List Event,
      (SoundSource.synchronize dev fuel status sources s).sys.trace = s.trace ++ added ∧
      (∀ e ∈ added, e.isCoordinatorCall = true ∧
        (e.isBatched = true → e = batchedCall status (handles sources))) ∧
      added.countP Event.isBatched ≤ 1 := by
  have hquery : ∀ (l : List Event), (∀ e ∈ l, e.isStatusQuery = true) →
      (∀ e ∈ l, e.isCoordinatorCall = true ∧ e.isBatched = false) := by
    intro l hl e he
    have := hl e he
    cases e <;> simp_all [Event.isStatusQuery, Event.isCoordinatorCall, Event.isBatched]
  have hcallc : (batchedCall status (handles sources)).isCoordinatorCall = true := by
    unfold batchedCall
    split <;> rfl
  by_cases hs : status = Status.Stopped
  · obtain ⟨added, h1, h2, h3⟩ := synchronizeOffset_added dev fuel status Time.Zero sources s
    refine ⟨added, ?_, h2, h3⟩
    rw [← h1]
    simp [SoundSource.synchronize, SoundSource.synchronizeOffset, hs]
  · by_cases hstopped : ∃ src ∈ sources, src.getStatus s.world = Status.Stopped
    · obtain ⟨added, h1, h2, h3⟩ :=
        synchronizeOffset_added dev fuel status Time.Zero sources ⟨s.world, []⟩
      have hscan := hquery ((statusEvents s.world sources 0).take
        (firstStopped s.world sources + 1))
        (fun e he => isStatusQuery_of_mem_statusEvents _ _ _ e (List.mem_of_mem_take he))
      refine ⟨(statusEvents s.world sources 0).take (firstStopped s.world sources + 1)
        ++ added, ?_, ?_, ?_⟩
      · rw [synchronize_of_stopped dev fuel status sources s hs hstopped, trace_prepend, h1]
        simp
      · intro e he
        rcases List.mem_append.mp he with h | h
        · exact ⟨(hscan e h).1, fun hb => by rw [(hscan e h).2] at hb; cases hb⟩
        · exact h2 e h
      · have : ((statusEvents s.world sources 0).take
            (firstStopped s.world sources + 1)).countP Event.isBatched = 0 := by
          rw [List.countP_eq_zero]
          intro e he
          simp [(hscan e he).2]
        rw [List.countP_append, this]
        omega
    · have hscan := hquery (statusEvents s.world sources 0)
        (isStatusQuery_of_mem_statusEvents _ _ _)
      refine ⟨statusEvents s.world sources 0 ++ [batchedCall status (handles sources)],
        ?_, ?_, ?_⟩
      · rw [synchronize_of_none_stopped dev fuel status sources s hs hstopped]
        simp [Outcome.sys]
      · intro e he
        rcases List.mem_append.mp he with h | h
        · exact ⟨(hscan e h).1, fun hb => by rw [(hscan e h).2] at hb; cases hb⟩
        · rw [List.mem_singleton] at h
          rw [h]
          exact ⟨hcallc, fun _ => rfl⟩
      · have : (statusEvents s.world sources 0).countP Event.isBatched = 0 := by
          rw [List.countP_eq_zero]
          intro e he
          simp [(hscan e he).2]
        rw [List.countP_append, this]
        simp [List.countP_cons]
        split <;> omega

/-- C21. The coordinator does not reach into its sources.  Whatever property
`P` of the world (the attributes, the handle or the filter slot of some source,
say) is kept by the `stop`, prepare and readiness hooks of the listed sources,
by `sleep` and by the batched play and pause calls on the handles of the list,
is kept by both `synchronize` overloads.  The calls they issue are hook calls,
status queries, sleeps and at most one batched call, which is the batched play
or pause on the handles of the list: no name is generated, no attribute is
written and no filter is bound or unbound.  The source objects are arguments
that are only read. -/
theorem coordinator_frame (dev : Device σ) (P : σ → Prop) (fuel : Nat) (status : Status)
    (t : Time) (sources : List (SoundSource σ)) (s : Sys σ)
    (hstop : ∀ src ∈ sources, ∀ w, P w → P (src.stop w))
    (hprepare : ∀ src ∈ sources, ∀ t0 w, P w → P (src.prepareSynchronizedPlayback t0 w))
    (hready : ∀ src ∈ sources, ∀ w, P w → P (src.isSynchronizedPlaybackReady w).2)
    (hsleep : ∀ t0 w, P w → P (dev.sleep t0 w))
    (hplay : ∀ w, P w → P (dev.alSourcePlayv (toALsizei sources.length)
      (sources.map (fun src => src.m_source)) w))
    (hpause : ∀ w, P w → P (dev.alSourcePausev (toALsizei sources.length)
      (sources.map (fun src => src.m_source)) w))
    (h0 : P s.world) :
    P (SoundSource.synchronize dev fuel status sources s).sys.world ∧
    P (SoundSource.synchronizeOffset dev fuel status t sources s).sys.world ∧
    (∃ added : List Event,
      (SoundSource.synchronize dev fuel status sources s).sys.trace = s.trace ++ added ∧
      (∀ e ∈ added, e.isCoordinatorCall = true ∧
        (e.isBatched = true →
          e = if status = Status.Playing then
                Event.alSourcePlayv (toALsizei sources.length)
                  (sources.map (fun src => src.m_source))
              else
                Event.alSourcePausev (toALsizei sources.length)
                  (sources.map (fun src => src.m_source)))) ∧
      added.countP Event.isBatched ≤ 1) ∧
    (∃ added : List Event,
      (SoundSource.synchronizeOffset dev fuel status t sources s).sys.trace
        = s.trace ++ added ∧
      (∀ e ∈ added, e.isCoordinatorCall = true ∧
        (e.isBatched = true →
          e = if status = Status.Playing then
                Event.alSourcePlayv (toALsizei sources.length)
                  (sources.map (fun src => src.m_source))
              else
                Event.alSourcePausev (toALsizei sources.length)
                  (sources.map (fun src => src.m_source)))) ∧
      added.countP Event.isBatched ≤ 1) := by
  have hbatch : ∀ w, P w → P (batchedEffect dev status (handles sources) w) := by
    intro w hw
    unfold batchedEffect
    split
    · simpa [handles] using hplay w hw
    · simpa [handles] using hpause w hw
  have hcall : batchedCall status (handles sources)
      = if status = Status.Playing then
          Event.alSourcePlayv (toALsizei sources.length)
            (sources.map (fun src => src.m_source))
        else
          Event.alSourcePausev (toALsizei sources.length)
            (sources.map (fun src => src.m_source)) := by
    simp [batchedCall, handles]
  rw [← hcall]
  exact ⟨synchronize_preserves dev P fuel status sources s hstop hprepare hready hsleep
      hbatch h0,
    synchronizeOffset_preserves dev P fuel status t sources s hstop hprepare hready hsleep
      hbatch h0,
    synchronize_added dev fuel status sources s,
    synchronizeOffset_added dev fuel status t sources s⟩

/-- Run of C21 on the mixer: handle 9 is not in the list and does not play; it
does not play after either overload has run. -/
theorem coordinator_frame_witness :
    (∀ src ∈ plainAndStream, ∀ w : Mixer, 9 ∉ w.playing → 9 ∉ (src.stop w).playing) ∧
    (∀ src ∈ plainAndStream, ∀ (t0 : Time) (w : Mixer), 9 ∉ w.playing →
      9 ∉ (src.prepareSynchronizedPlayback t0 w).playing) ∧
    (∀ src ∈ plainAndStream, ∀ w : Mixer, 9 ∉ w.playing →
      9 ∉ (src.isSynchronizedPlaybackReady w).2.playing) ∧
    (∀ (t0 : Time) (w : Mixer), 9 ∉ w.playing → 9 ∉ (mixerDevice.sleep t0 w).playing) ∧
    (∀ w : Mixer, 9 ∉ w.playing →
      9 ∉ (mixerDevice.alSourcePlayv (toALsizei plainAndStream.length)
        (plainAndStream.map (fun src => src.m_source)) w).playing) ∧
    (∀ w : Mixer, 9 ∉ w.playing →
      9 ∉ (mixerDevice.alSourcePausev (toALsizei plainAndStream.length)
        (plainAndStream.map (fun src => src.m_source)) w).playing) ∧
    9 ∉ twoPlaying.world.playing ∧
    9 ∉ (SoundSource.synchronize mixerDevice 4 Status.Playing plainAndStream
      twoPlaying).sys.world.playing ∧
    9 ∉ (SoundSource.synchronizeOffset mixerDevice 4 Status.Playing tenSeconds plainAndStream
      twoPlaying).sys.world.playing :=
  have hcount : toALsizei plainAndStream.length = 2 := by decide
  have hstop : ∀ src ∈ plainAndStream, ∀ w : Mixer, 9 ∉ w.playing →
      9 ∉ (src.stop w).playing := by
    intro src hmem w hw
    simp only [plainAndStream, List.mem_cons, List.mem_singleton, List.not_mem_nil,
      or_false] at hmem
    rcases hmem with rfl | rfl <;> simp [plainSource, streamSource, hw]
  have hprepare : ∀ src ∈ plainAndStream, ∀ (t0 : Time) (w : Mixer), 9 ∉ w.playing →
      9 ∉ (src.prepareSynchronizedPlayback t0 w).playing := by
    intro src hmem t0 w hw
    simp only [plainAndStream, List.mem_cons, List.mem_singleton, List.not_mem_nil,
      or_false] at hmem
    rcases hmem with rfl | rfl <;> exact hw
  have hready : ∀ src ∈ plainAndStream, ∀ w : Mixer, 9 ∉ w.playing →
      9 ∉ (src.isSynchronizedPlaybackReady w).2.playing := by
    intro src hmem w hw
    simp only [plainAndStream, List.mem_cons, List.mem_singleton, List.not_mem_nil,
      or_false] at hmem
    rcases hmem with rfl | rfl <;> exact hw
  have hsleep : ∀ (t0 : Time) (w : Mixer), 9 ∉ w.playing →
      9 ∉ (mixerDevice.sleep t0 w).playing := fun _ _ hw => hw
  have hplay : ∀ w : Mixer, 9 ∉ w.playing →
      9 ∉ (mixerDevice.alSourcePlayv (toALsizei plainAndStream.length)
        (plainAndStream.map (fun src => src.m_source)) w).playing := by
    intro w hw
    rw [hcount]
    simp [mixerDevice, plainAndStream, plainSource, streamSource, hw]
  have hpause : ∀ w : Mixer, 9 ∉ w.playing →
      9 ∉ (mixerDevice.alSourcePausev (toALsizei plainAndStream.length)
        (plainAndStream.map (fun src => src.m_source)) w).playing := by
    intro w hw
    rw [hcount]
    simp [mixerDevice, plainAndStream, plainSource, streamSource, hw]
  have h0 : 9 ∉ twoPlaying.world.playing := by decide
  ⟨hstop, hprepare, hready, hsleep, hplay, hpause, h0,
    (coordinator_frame mixerDevice (fun w => 9 ∉ w.playing) 4 Status.Playing tenSeconds
      plainAndStream twoPlaying hstop hprepare hready hsleep hplay hpause h0).1,
    (coordinator_frame mixerDevice (fun w => 9 ∉ w.playing) 4 Status.Playing tenSeconds
      plainAndStream twoPlaying hstop hprepare hready hsleep hplay hpause h0).2.1⟩

/-! ### Counting sleeps and failed polls -/

theorem waitAllReady_mono (dev : Device σ) (sources : List (SoundSource σ)) (fuel k : Nat)
    (s s1 : Sys σ) (h : SoundSource.waitAllReady dev sources fuel s = Outcome.returned s1) :
    SoundSource.waitAllReady dev sources (fuel + k) s = Outcome.returned s1 := by
  induction fuel generalizing s with
  | zero => simp [SoundSource.waitAllReady] at h
  | succ fuel ih =>
    have hk : fuel + 1 + k = (fuel + k) + 1 := by omega
    rw [hk]
    cases hb : (SoundSource.readinessPass dev sources 0 s).1 with
    | true =>
      have hp : SoundSource.readinessPass dev sources 0 s
          = (true, (SoundSource.readinessPass dev sources 0 s).2) := by rw [← hb]
      simp only [SoundSource.waitAllReady] at h ⊢
      rw [hp] at h ⊢
      exact h
    | false =>
      have hp : SoundSource.readinessPass dev sources 0 s
          = (false, (SoundSource.readinessPass dev sources 0 s).2) := by rw [← hb]
      simp only [SoundSource.waitAllReady] at h ⊢
      rw [hp] at h ⊢
      exact ih _ h

theorem synchronizeOffset_mono (dev : Device σ) (fuel k : Nat) (status : Status) (t : Time)
    (sources : List (SoundSource σ)) (s s1 : Sys σ)
    (h : SoundSource.synchronizeOffset dev fuel status t sources s = Outcome.returned s1) :
    SoundSource.synchronizeOffset dev (fuel + k) status t sources s = Outcome.returned s1 := by
  unfold SoundSource.synchronizeOffset at h ⊢
  split
  · rename_i hs
    rw [if_pos hs] at h
    exact h
  · rename_i hs
    rw [if_neg hs] at h
    cases hw : SoundSource.waitAllReady dev sources fuel
        (SoundSource.prepareLoop t sources 0 s) with
    | returned s2 =>
      rw [hw] at h
      rw [waitAllReady_mono dev sources fuel k _ s2 hw]
      exact h
    | waiting s2 =>
      rw [hw] at h
      cases h

theorem countP_isFalsePoll_failedPasses (ks : List Nat) :
    (failedPasses ks).countP Event.isFalsePoll = ks.length := by
  induction ks with
  | nil => simp [failedPasses]
  | cons k ks ih =>
    have h0 : (readyEvents 0 k).countP Event.isFalsePoll = 0 := by
      rw [List.countP_eq_zero]
      intro e he
      obtain ⟨j, rfl⟩ := mem_readyEvents he
      simp [Event.isFalsePoll]
    simp [failedPasses, failedPass, List.countP_cons, h0, ih, Event.isFalsePoll]

theorem countP_prepareEvents (t : Time) (i n : Nat) :
    (prepareEvents t i n).countP Event.isSleep = 0 ∧
    (prepareEvents t i n).countP Event.isFalsePoll = 0 := by
  constructor <;>
  · rw [List.countP_eq_zero]
    intro e he
    obtain ⟨j, rfl⟩ := mem_prepareEvents he
    simp [Event.isSleep, Event.isFalsePoll]

theorem countP_readyEvents (i n : Nat) :
    (readyEvents i n).countP Event.isSleep = 0 ∧
    (readyEvents i n).countP Event.isFalsePoll = 0 := by
  constructor <;>
  · rw [List.countP_eq_zero]
    intro e he
    obtain ⟨j, rfl⟩ := mem_readyEvents he
    simp [Event.isSleep, Event.isFalsePoll]

theorem countP_batchedCall (status : Status) (ids : List ALuint) :
    [batchedCall status ids].countP Event.isSleep = 0 ∧
    [batchedCall status ids].countP Event.isFalsePoll = 0 := by
  unfold batchedCall
  split <;> simp [Event.isSleep, Event.isFalsePoll]

/-- C22. Sleep count and termination of the rendezvous.  In the explicit-offset
`synchronize` with a target status other than `Stopped`, at every point of the
run the number of sleeps equals the number of readiness polls that answered
`false`, and every sleep lasts 5 ms.  If the run limited to `N + 1` passes sees
at most `N` polls answer `false`, then the call returns within these `N + 1`
passes, after at most `N` failed passes with one sleep each and one pass in
which every source is ready, and ends with the batched call; more passes
allowed change nothing. -/
theorem rendezvous_sleep_count (dev : Device σ) (fuel N : Nat) (status : Status) (t : Time)
    (sources : List (SoundSource σ)) (s : Sys σ) (hs : status ≠ Status.Stopped) :
    (((SoundSource.synchronizeOffset dev fuel status t sources s).sys.trace.drop
          s.trace.length).countP Event.isSleep
      = ((SoundSource.synchronizeOffset dev fuel status t sources s).sys.trace.drop
          s.trace.length).countP Event.isFalsePoll) ∧
    (∀ e ∈ (SoundSource.synchronizeOffset dev fuel status t sources s).sys.trace.drop
          s.trace.length, e.isSleep = true → e = Event.sleep ⟨5000⟩) ∧
    (((SoundSource.synchronizeOffset dev (N + 1) status t sources s).sys.trace.drop
          s.trace.length).countP Event.isFalsePoll ≤ N →
      ∃ (ks : List Nat) (s1 : Sys σ),
        ks.length ≤ N ∧
        SoundSource.synchronizeOffset dev (N + 1) status t sources s = Outcome.returned s1 ∧
        (∀ k, SoundSource.synchronizeOffset dev (N + 1 + k) status t sources s
          = Outcome.returned s1) ∧
        s1.trace = s.trace ++ prepareEvents t 0 sources.length ++ failedPasses ks
          ++ readyEvents 0 sources.length ++ [batchedCall status (handles sources)] ∧
        (s1.trace.drop s.trace.length).countP Event.isSleep = ks.length) := by
  have hcount : ∀ (f : Nat),
      ∃ ks : List Nat,
        ((SoundSource.synchronizeOffset dev f status t sources s).sys.trace.drop
            s.trace.length).countP Event.isSleep = ks.length ∧
        ((SoundSource.synchronizeOffset dev f status t sources s).sys.trace.drop
            s.trace.length).countP Event.isFalsePoll = ks.length ∧
        (∀ e ∈ (SoundSource.synchronizeOffset dev f status t sources s).sys.trace.drop
            s.trace.length, e.isSleep = true → e = Event.sleep ⟨5000⟩) ∧
        ((∃ s1, SoundSource.synchronizeOffset dev f status t sources s
              = Outcome.returned s1 ∧ ks.length < f ∧
            s1.trace = s.trace ++ prepareEvents t 0 sources.length ++ failedPasses ks
              ++ readyEvents 0 sources.length ++ [batchedCall status (handles sources)]) ∨
          ((SoundSource.synchronizeOffset dev f status t sources s).hasReturned = false ∧
            ks.length = f)) := by
    intro f
    obtain ⟨ks, _, hcase⟩ := synchronizeOffset_trace dev f status t sources s hs
    have hsleep5 : ∀ e ∈ prepareEvents t 0 sources.length ++ failedPasses ks
        ++ readyEvents 0 sources.length ++ [batchedCall status (handles sources)],
        e.isSleep = true → e = Event.sleep ⟨5000⟩ := by
      intro e he hsl
      simp only [List.mem_append, List.mem_singleton] at he
      rcases he with ((h | h) | h) | h
      · obtain ⟨k, rfl⟩ := mem_prepareEvents h
        cases hsl
      · rcases mem_failedPasses h with ⟨k, b, rfl⟩ | rfl
        · cases hsl
        · rfl
      · obtain ⟨k, rfl⟩ := mem_readyEvents h
        cases hsl
      · rw [h] at hsl
        unfold batchedCall at hsl
        split at hsl <;> cases hsl
    refine ⟨ks, ?_⟩
    rcases hcase with ⟨s1, he, hl, ht⟩ | ⟨s1, he, hl, ht⟩
    · have hdrop : s1.trace.drop s.trace.length
          = prepareEvents t 0 sources.length ++ failedPasses ks
            ++ readyEvents 0 sources.length ++ [batchedCall status (handles sources)] := by
        rw [ht]
        simp
      rw [he]
      simp only [Outcome.sys]
      refine ⟨?_, ?_, ?_, Or.inl ⟨s1, rfl, hl, by rw [ht]; simp⟩⟩
      · rw [hdrop]
        simp only [List.countP_append, (countP_prepareEvents t 0 sources.length).1,
          countP_isSleep_failedPasses, (countP_readyEvents 0 sources.length).1,
          (countP_batchedCall status (handles sources)).1]
        omega
      · rw [hdrop]
        simp only [List.countP_append, (countP_prepareEvents t 0 sources.length).2,
          countP_isFalsePoll_failedPasses, (countP_readyEvents 0 sources.length).2,
          (countP_batchedCall status (handles sources)).2]
        omega
      · rw [hdrop]
        exact hsleep5
    · have hdrop : s1.trace.drop s.trace.length
          = prepareEvents t 0 sources.length ++ failedPasses ks := by
        rw [ht]
        simp
      rw [he]
      simp only [Outcome.sys]
      refine ⟨?_, ?_, ?_, Or.inr ⟨rfl, hl⟩⟩
      · rw [hdrop]
        simp only [List.countP_append, (countP_prepareEvents t 0 sources.length).1,
          countP_isSleep_failedPasses]
        omega
      · rw [hdrop]
        simp only [List.countP_append, (countP_prepareEvents t 0 sources.length).2,
          countP_isFalsePoll_failedPasses]
        omega
      · rw [hdrop]
        intro e he' hsl
        exact hsleep5 e (by
          simp only [List.mem_append] at he' ⊢
          rcases he' with h | h
          · exact Or.inl (Or.inl (Or.inl h))
          · exact Or.inl (Or.inl (Or.inr h))) hsl
  refine ⟨?_, ?_, ?_⟩
  · obtain ⟨ks, h1, h2, _, _⟩ := hcount fuel
    rw [h1, h2]
  · obtain ⟨ks, _, _, h3, _⟩ := hcount fuel
    exact h3
  · intro hN
    obtain ⟨ks, h1, h2, _, hcase⟩ := hcount (N + 1)
    rcases hcase with ⟨s1, he, hl, ht⟩ | ⟨_, hl⟩
    · refine ⟨ks, s1, by omega, he, ?_, ht, ?_⟩
      · intro k
        exact synchronizeOffset_mono dev (N + 1) k status t sources s s1 he
      · rw [he] at h1
        exact h1
    · exfalso
      rw [h2, hl] at hN
      omega

/-- Run of C22 on the mixer: the streaming source answers `false` twice, so with
`N = 2` the call returns within three passes after two sleeps. -/
theorem rendezvous_sleep_count_witness :
    Status.Playing ≠ Status.Stopped ∧
    ((SoundSource.synchronizeOffset mixerDevice (2 + 1) Status.Playing tenSeconds trio
        twoPlaying).sys.trace.drop twoPlaying.trace.length).countP Event.isFalsePoll ≤ 2 ∧
    ∃ (ks : List Nat) (s1 : Sys Mixer),
      ks.length ≤ 2 ∧
      SoundSource.synchronizeOffset mixerDevice (2 + 1) Status.Playing tenSeconds trio
        twoPlaying = Outcome.returned s1 ∧
      (∀ k, SoundSource.synchronizeOffset mixerDevice (2 + 1 + k) Status.Playing tenSeconds
        trio twoPlaying = Outcome.returned s1) ∧
      s1.trace = twoPlaying.trace ++ prepareEvents tenSeconds 0 trio.length
        ++ failedPasses ks ++ readyEvents 0 trio.length
        ++ [batchedCall Status.Playing (handles trio)] ∧
      (s1.trace.drop twoPlaying.trace.length).countP Event.isSleep = ks.length :=
  ⟨by decide, by decide,
    (rendezvous_sleep_count mixerDevice 0 2 Status.Playing tenSeconds trio twoPlaying
      (by decide)).2.2 (by decide)⟩

/-- C23. Escalation for pausing: when some source of the list is `Stopped`, the
offset-less `synchronize(Paused, sources)` queries the statuses of the sources
up to the first stopped one and of no source after it, then calls the prepare
hook of every source of the list, in list order and with offset zero, then
runs the readiness passes, and once a pass finds every source ready issues one
batched pause call on the handles of all sources.  No batched play call is
issued. -/
theorem synchronize_paused_escalates (dev : Device σ) (fuel : Nat)
    (sources : List (SoundSource σ)) (s : Sys σ)
    (hstopped : ∃ src ∈ sources, src.getStatus s.world = Status.Stopped) :
    firstStopped s.world sources < sources.length ∧
    (∀ (j : Nat) (hj : j < sources.length), j < firstStopped s.world sources →
      (sources.get ⟨j, hj⟩).getStatus s.world ≠ Status.Stopped) ∧
    (∀ hk : firstStopped s.world sources < sources.length,
      (sources.get ⟨firstStopped s.world sources, hk⟩).getStatus s.world = Status.Stopped) ∧
    ∃ (ks : List Nat) (later added : List Event),
      (SoundSource.synchronize dev fuel Status.Paused sources s).sys.trace
        = s.trace ++ added ∧
      added = (statusEvents s.world sources 0).take (firstStopped s.world sources + 1)
        ++ prepareEvents Time.Zero 0 sources.length ++ failedPasses ks ++ later ∧
      (∀ k ∈ ks, k < sources.length) ∧
      ((later = [] ∧ ks.length = fuel ∧
          (SoundSource.synchronize dev fuel Status.Paused sources s).hasReturned = false) ∨
        (later = readyEvents 0 sources.length
            ++ [Event.alSourcePausev (toALsizei sources.length)
                  (sources.map (fun src => src.m_source))] ∧
          (SoundSource.synchronize dev fuel Status.Paused sources s).hasReturned = true)) ∧
      ((statusEvents s.world sources 0).take (firstStopped s.world sources + 1)).length
        = firstStopped s.world sources + 1 ∧
      (∀ e ∈ added, ∀ j st, e = Event.getStatus j st → j ≤ firstStopped s.world sources) ∧
      (∀ e ∈ added, ∀ c ids, e ≠ Event.alSourcePlayv c ids) := by
  have hlt := (firstStopped_lt_iff s.world sources).mpr hstopped
  refine ⟨hlt, ?_, ?_, ?_⟩
  · intro j hj hjlt
    have := List.not_of_lt_findIdx hjlt
    simpa using this
  · intro hk
    have := List.findIdx_getElem (w := hk)
    simpa using this
  · obtain ⟨ks, hks, hcase⟩ := synchronizeOffset_trace dev fuel Status.Paused Time.Zero
      sources ⟨s.world, []⟩ (by decide)
    have hscanlen : ((statusEvents s.world sources 0).take
        (firstStopped s.world sources + 1)).length = firstStopped s.world sources + 1 := by
      rw [List.length_take, statusEvents_length]
      omega
    have hgeneral : ∀ later : List Event,
        (∀ e ∈ later, (∃ k b, e = Event.isSynchronizedPlaybackReady k b) ∨
          (∃ c ids, e = Event.alSourcePausev c ids)) →
        (∀ e ∈ (statusEvents s.world sources 0).take (firstStopped s.world sources + 1)
            ++ prepareEvents Time.Zero 0 sources.length ++ failedPasses ks ++ later,
          (∀ j st, e = Event.getStatus j st → j ≤ firstStopped s.world sources) ∧
          (∀ c ids, e ≠ Event.alSourcePlayv c ids)) := by
      intro later hlater e he
      simp only [List.mem_append] at he
      rcases he with ((h | h) | h) | h
      · obtain ⟨j, st, rfl, _, hj⟩ := mem_take_statusEvents _ _ _ _ _ h
        refine ⟨?_, fun c ids hc => (by cases hc)⟩
        intro j' st' heq
        cases heq
        omega
      · obtain ⟨k, rfl⟩ := mem_prepareEvents h
        exact ⟨fun j st hc => (by cases hc), fun c ids hc => (by cases hc)⟩
      · rcases mem_failedPasses h with ⟨k, b, rfl⟩ | rfl
        · exact ⟨fun j st hc => (by cases hc), fun c ids hc => (by cases hc)⟩
        · exact ⟨fun j st hc => (by cases hc), fun c ids hc => (by cases hc)⟩
      · rcases hlater e h with ⟨k, b, rfl⟩ | ⟨c, ids, rfl⟩
        · exact ⟨fun j st hc => (by cases hc), fun c ids hc => (by cases hc)⟩
        · exact ⟨fun j st hc => (by cases hc), fun c ids hc => (by cases hc)⟩
    rw [synchronize_of_stopped dev fuel Status.Paused sources s (by decide) hstopped]
    rcases hcase with ⟨s1, he, _, ht⟩ | ⟨s1, he, hl, ht⟩
    · have hlater : ∀ e ∈ readyEvents 0 sources.length
          ++ [Event.alSourcePausev (toALsizei sources.length)
                (sources.map (fun src => src.m_source))],
          (∃ k b, e = Event.isSynchronizedPlaybackReady k b) ∨
            (∃ c ids, e = Event.alSourcePausev c ids) := by
        intro e hmem
        rcases List.mem_append.mp hmem with h | h
        · obtain ⟨k, rfl⟩ := mem_readyEvents h
          exact Or.inl ⟨k, true, rfl⟩
        · rw [List.mem_singleton] at h
          exact Or.inr ⟨_, _, h⟩
      refine ⟨ks, _, _, ?_, rfl, hks, Or.inr ⟨rfl, by rw [he]; rfl⟩, hscanlen,
        fun e hmem => (hgeneral _ hlater e hmem).1, fun e hmem => (hgeneral _ hlater e hmem).2⟩
      rw [he]
      simp [Outcome.prepend, Outcome.sys, Sys.prepend, ht, batchedCall, handles]
    · refine ⟨ks, [], _, ?_, rfl, hks, Or.inl ⟨rfl, hl, by rw [he]; rfl⟩, hscanlen,
        fun e hmem => (hgeneral [] (by simp) e hmem).1,
        fun e hmem => (hgeneral [] (by simp) e hmem).2⟩
      rw [he]
      simp [Outcome.prepend, Outcome.sys, Sys.prepend, ht]

/-- Run of C23 on the mixer: handle 1 plays, handles 2 and 3 are stopped; the
scan ends at the second source, all three sources are prepared with offset
zero and paused together. -/
theorem synchronize_paused_escalates_witness :
    (∃ src ∈ plainTrio, src.getStatus onePlaying.world = Status.Stopped) ∧
    (SoundSource.synchronize mixerDevice 1 Status.Paused plainTrio onePlaying).sys.trace
      = [Event.getStatus 0 Status.Playing, Event.getStatus 1 Status.Stopped,
          Event.prepareSynchronizedPlayback 0 Time.Zero,
          Event.prepareSynchronizedPlayback 1 Time.Zero,
          Event.prepareSynchronizedPlayback 2 Time.Zero,
          Event.isSynchronizedPlaybackReady 0 true,
          Event.isSynchronizedPlaybackReady 1 true,
          Event.isSynchronizedPlaybackReady 2 true,
          Event.alSourcePausev 3 [1, 2, 3]] ∧
    firstStopped onePlaying.world plainTrio < plainTrio.length :=
  ⟨⟨plainSource 2, by simp [plainTrio], by decide⟩, by decide,
    (synchronize_paused_escalates mixerDevice 1 plainTrio onePlaying
      ⟨plainSource 2, by simp [plainTrio], by decide⟩).1⟩

/-! ### Constructors and the filter association -/

/-- C24, checked against the code.  The default constructor sets `m_filter` to
null, but the copy constructor assigns nothing to `m_filter`: the copy keeps
whatever its storage held.  With storage that held a pointer to filter 7,
`getFilter()` on the copy returns that filter, not null, and the first
`setFilter` on the copy calls `unbind` through it; a default-constructed source
in the same storage reports no filter and its first `setFilter` only binds. -/
theorem copyConstruct_leaves_filter_unset :
    (∀ (al : OpenAL ALStore) (self copy : SoundSource ALStore) (s : Sys ALStore),
      (SoundSource.construct al self s).1.getFilter = none ∧
      (SoundSource.copyConstruct binary32 al self copy s).1.getFilter = self.m_filter) ∧
    (SoundSource.copyConstruct binary32 alStore (storeSource 0 (some ⟨7⟩)) (storeSource 1 none)
      ⟨demoStore, []⟩).1.getFilter = some ⟨7⟩ ∧
    (SoundSource.setFilter alStore
        (SoundSource.copyConstruct binary32 alStore (storeSource 0 (some ⟨7⟩)) (storeSource 1 none)
          ⟨demoStore, []⟩).1 (some ⟨9⟩) ⟨demoStore, []⟩).2.trace
      = [Event.unbind ⟨7⟩ 3, Event.alSourcei 3 AL_DIRECT_FILTER 0,
          Event.bind ⟨9⟩ 3, Event.alSourcei 3 AL_DIRECT_FILTER 9] ∧
    (SoundSource.construct alStore (storeSource 0 (some ⟨7⟩)) ⟨demoStore, []⟩).1.getFilter
      = none ∧
    (SoundSource.setFilter alStore
        (SoundSource.construct alStore (storeSource 0 (some ⟨7⟩)) ⟨demoStore, []⟩).1
        (some ⟨9⟩) ⟨demoStore, []⟩).2.trace
      = [Event.bind ⟨9⟩ 3, Event.alSourcei 3 AL_DIRECT_FILTER 9] := by
  refine ⟨fun al self copy s => ⟨rfl, rfl⟩, rfl, by decide, rfl, by decide⟩

theorem toALint_ne_zero (n : Nat) (h0 : 0 < n) (h : n < 2 ^ 32) : toALint n ≠ 0 := by
  unfold toALint
  have e1 : (2 : Int) ^ 31 = 2147483648 := by norm_num
  have e2 : (2 : Int) ^ 32 = 4294967296 := by norm_num
  have e3 : (2 : Nat) ^ 32 = 4294967296 := by norm_num
  rw [e3] at h
  rw [e1, e2]
  show ((n : Int) + 2147483648) % 4294967296 - 2147483648 ≠ (0 : Int)
  omega

theorem slot_after_setFilter (al : OpenAL σ) (self : SoundSource σ)
    (f : Option SoundFilter) (s : Sys σ)
    (hslot : ∀ v w, al.alGetSourcei self.m_source AL_DIRECT_FILTER
      (al.alSourcei self.m_source AL_DIRECT_FILTER v w) = v)
    (hinv : al.alGetSourcei self.m_source AL_DIRECT_FILTER s.world = slotFor self.m_filter) :
    al.alGetSourcei self.m_source AL_DIRECT_FILTER (SoundSource.setFilter al self f s).2.world
      = slotFor f := by
  rw [setFilter_eq]
  cases f with
  | none =>
    cases hm : self.m_filter with
    | none =>
      rw [hm] at hinv
      simpa [slotFor] using hinv
    | some a =>
      simp only [SoundFilter.unbind, alCheck.alSourcei, slotFor]
      exact hslot _ _
  | some g =>
    simp only [SoundFilter.bind, alCheck.alSourcei, slotFor]
    exact hslot _ _

theorem slot_after_setFilters (al : OpenAL σ) (self : SoundSource σ)
    (fs : List (Option SoundFilter)) (s : Sys σ)
    (hslot : ∀ v w, al.alGetSourcei self.m_source AL_DIRECT_FILTER
      (al.alSourcei self.m_source AL_DIRECT_FILTER v w) = v)
    (hinv : al.alGetSourcei self.m_source AL_DIRECT_FILTER s.world = slotFor self.m_filter) :
    (SoundSource.setFilters al self fs s).1.m_source = self.m_source ∧
    (∀ g, (SoundSource.setFilters al self fs s).1.m_filter = some g →
      self.m_filter = some g ∨ some g ∈ fs) ∧
    al.alGetSourcei self.m_source AL_DIRECT_FILTER (SoundSource.setFilters al self fs s).2.world
      = slotFor (SoundSource.setFilters al self fs s).1.m_filter := by
  induction fs generalizing self s with
  | nil => exact ⟨rfl, fun g hg => Or.inl hg, hinv⟩
  | cons f fs ih =>
    have hobj : (SoundSource.setFilter al self f s).1 = { self with m_filter := f } := by
      rw [setFilter_eq]
    have h1 := slot_after_setFilter al self f s hslot hinv
    have := ih (SoundSource.setFilter al self f s).1 (SoundSource.setFilter al self f s).2
      (by rw [hobj]; exact hslot) (by rw [hobj]; exact h1)
    simp only [SoundSource.setFilters]
    rw [hobj] at this ⊢
    refine ⟨this.1, ?_, this.2.2⟩
    intro g hg
    rcases this.2.1 g hg with h | h
    · right
      simp only [List.mem_cons]
      exact Or.inl h.symm
    · right
      simp only [List.mem_cons]
      exact Or.inr h

theorem alStore_slot_rewrite (h : ALuint) (p : ALenum) (u v : ALint) (w : ALStore) :
    alStore.alSourcei h p v (alStore.alSourcei h p u (alStore.alSourcei h p v w))
      = alStore.alSourcei h p v w := by
  simp only [alStore, ALStore.mk.injEq, and_true, true_and]
  funext h1 p1
  by_cases hc : h1 = h ∧ p1 = p
  · simp [hc]
  · simp [hc]

/-- C25, as the code has it.  Take a default-constructed source whose
direct-filter slot is null, on a device that returns what was last written to
that slot, and any finite sequence of `setFilter` calls on it in which every
filter has a non-zero name (null pointers are allowed).  After the sequence,
hence after each of its calls, the slot is the null filter exactly when
`getFilter()` is null, and otherwise it holds the name of the filter returned by
`getFilter()` as passed to `alSourcei`, which is the name itself below 2^31;
the handle is the one the constructor obtained.  Moreover `setFilter(f)`
followed by `setFilter(f)` leaves the object, and on the store the device, as a
single `setFilter(f)` does. -/
theorem filter_slot_invariant (al : OpenAL σ) (self : SoundSource σ) (s0 : Sys σ)
    (fs : List (Option SoundFilter)) (f : Option SoundFilter)
    (me : SoundSource ALStore) (d : Sys ALStore)
    (hslot : ∀ v w, al.alGetSourcei (SoundSource.construct al self s0).1.m_source
      AL_DIRECT_FILTER
      (al.alSourcei (SoundSource.construct al self s0).1.m_source AL_DIRECT_FILTER v w) = v)
    (hnull : al.alGetSourcei (SoundSource.construct al self s0).1.m_source AL_DIRECT_FILTER
      (SoundSource.construct al self s0).2.world = AL_FILTER_NULL)
    (hnames : ∀ g, some g ∈ fs → 0 < g.m_filter ∧ g.m_filter < 2 ^ 32) :
    (al.alGetSourcei (SoundSource.construct al self s0).1.m_source AL_DIRECT_FILTER
        (SoundSource.setFilters al (SoundSource.construct al self s0).1 fs
          (SoundSource.construct al self s0).2).2.world = AL_FILTER_NULL
      ↔ (SoundSource.setFilters al (SoundSource.construct al self s0).1 fs
          (SoundSource.construct al self s0).2).1.getFilter = none) ∧
    (∀ g, (SoundSource.setFilters al (SoundSource.construct al self s0).1 fs
          (SoundSource.construct al self s0).2).1.getFilter = some g →
      al.alGetSourcei (SoundSource.construct al self s0).1.m_source AL_DIRECT_FILTER
          (SoundSource.setFilters al (SoundSource.construct al self s0).1 fs
            (SoundSource.construct al self s0).2).2.world = toALint g.m_filter ∧
      (g.m_filter < 2 ^ 31 →
        al.alGetSourcei (SoundSource.construct al self s0).1.m_source AL_DIRECT_FILTER
            (SoundSource.setFilters al (SoundSource.construct al self s0).1 fs
              (SoundSource.construct al self s0).2).2.world = (g.m_filter : Int))) ∧
    (SoundSource.setFilters al (SoundSource.construct al self s0).1 fs
        (SoundSource.construct al self s0).2).1.m_source
      = (al.alGenSources s0.world).1 ∧
    (SoundSource.setFilter al (SoundSource.setFilter al self f s0).1 f
        (SoundSource.setFilter al self f s0).2).1
      = (SoundSource.setFilter al self f s0).1 ∧
    (SoundSource.setFilter alStore (SoundSource.setFilter alStore me f d).1 f
        (SoundSource.setFilter alStore me f d).2).2.world
      = (SoundSource.setFilter alStore me f d).2.world := by
  have hfresh : (SoundSource.construct al self s0).1.m_filter = none := rfl
  obtain ⟨hsrc, hfrom, hinv⟩ := slot_after_setFilters al (SoundSource.construct al self s0).1
    fs (SoundSource.construct al self s0).2 hslot (by rw [hfresh]; exact hnull)
  refine ⟨?_, ?_, ?_, ?_, ?_⟩
  · rw [hinv]
    unfold SoundSource.getFilter
    cases hm : (SoundSource.setFilters al (SoundSource.construct al self s0).1 fs
        (SoundSource.construct al self s0).2).1.m_filter with
    | none => simp [slotFor]
    | some g =>
      have hg : some g ∈ fs := by
        rcases hfrom g hm with h | h
        · rw [hfresh] at h
          cases h
        · exact h
      have := toALint_ne_zero g.m_filter (hnames g hg).1 (hnames g hg).2
      simp [slotFor, this]
  · intro g hg
    unfold SoundSource.getFilter at hg
    rw [hinv, hg]
    exact ⟨rfl, fun hlt => toALint_of_lt _ hlt⟩
  · rw [hsrc]
    rfl
  · rw [setFilter_eq, setFilter_eq]
  · rw [setFilter_eq, setFilter_eq]
    cases f with
    | none => rfl
    | some g =>
      cases hm : me.m_filter with
      | none =>
        simp only [SoundFilter.bind, SoundFilter.unbind, alCheck.alSourcei]
        exact alStore_slot_rewrite _ _ _ _ _
      | some a =>
        simp only [SoundFilter.bind, SoundFilter.unbind, alCheck.alSourcei]
        exact alStore_slot_rewrite _ _ _ _ _

/-- Run of the amended C25 on the store: a source is default-constructed (it
gets the name 3, whose slot is null) and receives filter 7, then null, then
filter 9; the slot ends up holding 9. -/
theorem filter_slot_invariant_witness :
    (∀ v w, alStore.alGetSourcei
        (SoundSource.construct alStore (storeSource 0 (some ⟨7⟩)) ⟨demoStore, []⟩).1.m_source
        AL_DIRECT_FILTER
        (alStore.alSourcei
          (SoundSource.construct alStore (storeSource 0 (some ⟨7⟩)) ⟨demoStore, []⟩).1.m_source
          AL_DIRECT_FILTER v w) = v) ∧
    alStore.alGetSourcei
        (SoundSource.construct alStore (storeSource 0 (some ⟨7⟩)) ⟨demoStore, []⟩).1.m_source
        AL_DIRECT_FILTER
        (SoundSource.construct alStore (storeSource 0 (some ⟨7⟩)) ⟨demoStore, []⟩).2.world
      = AL_FILTER_NULL ∧
    (∀ g, some g ∈ [some (SoundFilter.mk 7), none, some (SoundFilter.mk 9)] →
      0 < g.m_filter ∧ g.m_filter < 2 ^ 32) ∧
    (SoundSource.setFilters alStore
        (SoundSource.construct alStore (storeSource 0 (some ⟨7⟩)) ⟨demoStore, []⟩).1
        [some ⟨7⟩, none, some ⟨9⟩]
        (SoundSource.construct alStore (storeSource 0 (some ⟨7⟩))
          ⟨demoStore, []⟩).2).1.getFilter = some ⟨9⟩ ∧
    alStore.alGetSourcei
        (SoundSource.construct alStore (storeSource 0 (some ⟨7⟩)) ⟨demoStore, []⟩).1.m_source
        AL_DIRECT_FILTER
        (SoundSource.setFilters alStore
          (SoundSource.construct alStore (storeSource 0 (some ⟨7⟩)) ⟨demoStore, []⟩).1
          [some ⟨7⟩, none, some ⟨9⟩]
          (SoundSource.construct alStore (storeSource 0 (some ⟨7⟩))
            ⟨demoStore, []⟩).2).2.world
      = toALint (SoundFilter.mk 9).m_filter :=
  have hslot : ∀ v w, alStore.alGetSourcei
      (SoundSource.construct alStore (storeSource 0 (some ⟨7⟩)) ⟨demoStore, []⟩).1.m_source
      AL_DIRECT_FILTER
      (alStore.alSourcei
        (SoundSource.construct alStore (storeSource 0 (some ⟨7⟩)) ⟨demoStore, []⟩).1.m_source
        AL_DIRECT_FILTER v w) = v := by
    intro v w
    simp [alStore]
  have hnames : ∀ g, some g ∈ [some (SoundFilter.mk 7), none, some (SoundFilter.mk 9)] →
      0 < g.m_filter ∧ g.m_filter < 2 ^ 32 := by
    intro g hg
    simp only [List.mem_cons, List.mem_singleton, List.not_mem_nil, or_false,
      Option.some.injEq] at hg
    rcases hg with rfl | h | rfl
    · exact ⟨by decide, by norm_num⟩
    · cases h
    · exact ⟨by decide, by norm_num⟩
  ⟨hslot, by decide, hnames, rfl,
    ((filter_slot_invariant alStore (storeSource 0 (some ⟨7⟩)) ⟨demoStore, []⟩
      [some ⟨7⟩, none, some ⟨9⟩] none (storeSource 1 none) ⟨demoStore, []⟩
      hslot (by decide) hnames).2.1 ⟨9⟩ rfl).1⟩

/-- C25 as stated fails for a filter whose name is 0, the value `m_filter` has
when `alGenFilters` did not deliver a name: after `setFilter` with it on a
default-constructed source, `getFilter()` is not null but the slot is the null
filter. -/
theorem filter_slot_null_name :
    alStore.alGetSourcei
        (SoundSource.construct alStore (storeSource 0 none) ⟨demoStore, []⟩).1.m_source
        AL_DIRECT_FILTER
        (SoundSource.construct alStore (storeSource 0 none) ⟨demoStore, []⟩).2.world
      = AL_FILTER_NULL ∧
    (SoundSource.setFilters alStore
        (SoundSource.construct alStore (storeSource 0 none) ⟨demoStore, []⟩).1
        [some ⟨0⟩]
        (SoundSource.construct alStore (storeSource 0 none) ⟨demoStore, []⟩).2).1.getFilter
      = some ⟨0⟩ ∧
    alStore.alGetSourcei
        (SoundSource.construct alStore (storeSource 0 none) ⟨demoStore, []⟩).1.m_source
        AL_DIRECT_FILTER
        (SoundSource.setFilters alStore
          (SoundSource.construct alStore (storeSource 0 none) ⟨demoStore, []⟩).1
          [some ⟨0⟩]
          (SoundSource.construct alStore (storeSource 0 none) ⟨demoStore, []⟩).2).2.world
      = AL_FILTER_NULL ∧
    ¬ (alStore.alGetSourcei
          (SoundSource.construct alStore (storeSource 0 none) ⟨demoStore, []⟩).1.m_source
          AL_DIRECT_FILTER
          (SoundSource.setFilters alStore
            (SoundSource.construct alStore (storeSource 0 none) ⟨demoStore, []⟩).1
            [some ⟨0⟩]
            (SoundSource.construct alStore (storeSource 0 none) ⟨demoStore, []⟩).2).2.world
        = AL_FILTER_NULL
      ↔ (SoundSource.setFilters alStore
          (SoundSource.construct alStore (storeSource 0 none) ⟨demoStore, []⟩).1
          [some ⟨0⟩]
          (SoundSource.construct alStore (storeSource 0 none) ⟨demoStore, []⟩).2).1.getFilter
        = none) := by
  refine ⟨by decide, rfl, by decide, ?_⟩
  intro h
  have h1 := h.mp (by decide)
  cases h1


/-! ### Shaders: the tables -/

theorem mapFind_append_none {κ ν : Type} [DecidableEq κ] (k k1 : κ) (v : ν) (m : List (κ × ν))
    (h : mapFind k m = none) :
    mapFind k (m ++ [(k1, v)]) = if k1 = k then some v else none := by
  induction m with
  | nil => simp [mapFind]
  | cons e rest ih =>
    obtain ⟨a, b⟩ := e
    simp only [mapFind, List.cons_append] at h ⊢
    by_cases hk : a = k
    · simp [hk] at h
    · simp only [hk, if_false] at h ⊢
      exact ih h

theorem mapFind_append_some {κ ν : Type} [DecidableEq κ] (k k1 : κ) (v w : ν)
    (m : List (κ × ν)) (h : mapFind k m = some w) :
    mapFind k (m ++ [(k1, v)]) = some w := by
  induction m with
  | nil => simp [mapFind] at h
  | cons e rest ih =>
    obtain ⟨a, b⟩ := e
    simp only [mapFind, List.cons_append] at h ⊢
    by_cases hk : a = k
    · simpa [hk] using h
    · simp only [hk, if_false] at h ⊢
      exact ih h

theorem mapFind_mapInsert_self (k : String) (v : Int) (m : UniformTable)
    (h : mapFind k m = none) : mapFind k (mapInsert k v m) = some v := by
  simp [mapInsert, h, mapFind_append_none]

theorem mapFind_mapInsert_other (k n : String) (v : Int) (m : UniformTable) (hn : k ≠ n) :
    mapFind n (mapInsert k v m) = mapFind n m := by
  unfold mapInsert
  split
  · rfl
  · cases hm : mapFind n m with
    | none => rw [mapFind_append_none n k v m hm]; simp [hn]
    | some w => exact mapFind_append_some n k v w m hm

theorem length_mapReplace (k : Int) (v : TexturePtr) (m : TextureTable) :
    (mapReplace k v m).length = m.length := by
  induction m with
  | nil => rfl
  | cons e rest ih =>
    obtain ⟨a, b⟩ := e
    simp only [mapReplace]
    split <;> simp [ih]

theorem keys_mapReplace (k : Int) (v : TexturePtr) (m : TextureTable) :
    (mapReplace k v m).map Prod.fst = m.map Prod.fst := by
  induction m with
  | nil => rfl
  | cons e rest ih =>
    obtain ⟨a, b⟩ := e
    simp only [mapReplace]
    split <;> simp [ih]

theorem length_mapAssign (k : Int) (v : TexturePtr) (m : TextureTable)
    (h : mapFind k m = none) : (mapAssign k v m).length = m.length + 1 := by
  induction m with
  | nil => rfl
  | cons e rest ih =>
    obtain ⟨a, b⟩ := e
    simp only [mapFind] at h
    by_cases hk : a = k
    · simp [hk] at h
    · simp only [hk, if_false] at h
      simp only [mapAssign]
      split
      · simp
      · have hk2 : ¬ k = a := fun e => hk e.symm
        simp [hk2, ih h]

theorem mapFind_mapAssign_self (k : Int) (v : TexturePtr) (m : TextureTable) :
    mapFind k (mapAssign k v m) = some v := by
  induction m with
  | nil => simp [mapAssign, mapFind]
  | cons e rest ih =>
    obtain ⟨a, b⟩ := e
    simp only [mapAssign]
    split
    · simp [mapFind]
    · split
      · simp [mapFind]
      · rename_i h1 h2
        have hk : ¬ a = k := fun e => h2 e.symm
        simp [mapFind, hk, ih]

theorem mapFind_mapAssign_other (k n : Int) (v : TexturePtr) (m : TextureTable) (hn : k ≠ n) :
    mapFind n (mapAssign k v m) = mapFind n m := by
  induction m with
  | nil => simp [mapAssign, mapFind, hn]
  | cons e rest ih =>
    obtain ⟨a, b⟩ := e
    simp only [mapAssign]
    split
    · simp [mapFind, hn]
    · split
      · rename_i h1 h2
        subst h2
        simp [mapFind, hn]
      · simp [mapFind, ih]

theorem mapFind_mapReplace_self (k : Int) (v w : TexturePtr) (m : TextureTable)
    (h : mapFind k m = some w) : mapFind k (mapReplace k v m) = some v := by
  induction m with
  | nil => simp [mapFind] at h
  | cons e rest ih =>
    obtain ⟨a, b⟩ := e
    simp only [mapFind] at h
    simp only [mapReplace]
    by_cases hk : a = k
    · simp [hk, mapFind]
    · simp only [hk, if_false] at h ⊢
      simp [mapFind, hk, ih h]

theorem mapFind_mapReplace_other (k n : Int) (v : TexturePtr) (m : TextureTable) (hn : k ≠ n) :
    mapFind n (mapReplace k v m) = mapFind n m := by
  induction m with
  | nil => rfl
  | cons e rest ih =>
    obtain ⟨a, b⟩ := e
    simp only [mapReplace]
    by_cases hk : a = k
    · subst hk
      simp [mapFind, hn]
    · simp [hk, mapFind, ih]

theorem keys_mapAssign_sorted (k : Int) (v : TexturePtr) (m : TextureTable)
    (hs : (m.map Prod.fst).Pairwise (fun a b => a < b)) :
    ((mapAssign k v m).map Prod.fst).Pairwise (fun a b => a < b) ∧
      ∀ x ∈ (mapAssign k v m).map Prod.fst, x = k ∨ x ∈ m.map Prod.fst := by
  induction m with
  | nil => simp [mapAssign]
  | cons e rest ih =>
    obtain ⟨a, b⟩ := e
    simp only [List.map_cons, List.pairwise_cons] at hs
    obtain ⟨ha, hrest⟩ := hs
    have ih2 := ih hrest
    simp only [mapAssign]
    split
    · rename_i hlt
      refine ⟨?_, ?_⟩
      · simp only [List.map_cons, List.pairwise_cons]
        refine ⟨?_, ha, hrest⟩
        intro x hx
        rcases List.mem_cons.mp hx with hx | hx
        · rw [hx]; exact hlt
        · exact lt_trans hlt (ha x hx)
      · intro x hx
        simp only [List.map_cons, List.mem_cons] at hx ⊢
        tauto
    · split
      · rename_i h1 h2
        refine ⟨?_, ?_⟩
        · simp only [List.map_cons, List.pairwise_cons]
          refine ⟨?_, hrest⟩
          intro x hx
          rw [h2]
          exact ha x hx
        · intro x hx
          simp only [List.map_cons, List.mem_cons] at hx ⊢
          tauto
      · rename_i h1 h2
        have hgt : a < k := by omega
        refine ⟨?_, ?_⟩
        · simp only [List.map_cons, List.pairwise_cons]
          refine ⟨?_, ih2.1⟩
          intro x hx
          rcases ih2.2 x hx with hx | hx
          · rw [hx]; exact hgt
          · exact ha x hx
        · intro x hx
          simp only [List.map_cons, List.mem_cons] at hx ⊢
          rcases hx with hx | hx
          · tauto
          · rcases ih2.2 x hx with hx | hx <;> tauto

theorem toSizeT_of_range (n : GLint) (h0 : 0 ≤ n) (h1 : n < 2 ^ 31) : toSizeT n = n.toNat := by
  unfold toSizeT
  have h2 : n % 2 ^ 64 = n := Int.emod_eq_of_lt h0 (by
    have : (2 : Int) ^ 31 < 2 ^ 64 := by norm_num
    exact lt_trans h1 this)
  rw [h2]

/-! ### Shaders: one call -/

theorem getUniformLocation_hit (gl : OpenGL γ) (self : Shader) (name : String) (g : Gfx γ)
    (v : Int) (h : mapFind name self.m_uniforms = some v) :
    Shader.getUniformLocation gl self name g = (v, self, g) := by
  simp [Shader.getUniformLocation, h]

theorem getUniformLocation_miss (gl : OpenGL γ) (self : Shader) (name : String) (g : Gfx γ)
    (h : mapFind name self.m_uniforms = none) :
    Shader.getUniformLocation gl self name g =
      (gl.glGetUniformLocation self.m_shaderProgram name g.gl,
       ⟨self.m_shaderProgram, self.m_currentTexture, self.m_textures,
        mapInsert name (gl.glGetUniformLocation self.m_shaderProgram name g.gl) self.m_uniforms⟩,
       g.read (GLCall.glGetUniformLocation self.m_shaderProgram name
          (gl.glGetUniformLocation self.m_shaderProgram name g.gl))) := by
  simp [Shader.getUniformLocation, h]

theorem getUniformLocation_frame (gl : OpenGL γ) (self : Shader) (name : String) (g : Gfx γ) :
    (Shader.getUniformLocation gl self name g).2.1.m_shaderProgram = self.m_shaderProgram ∧
    (Shader.getUniformLocation gl self name g).2.1.m_currentTexture = self.m_currentTexture ∧
    (Shader.getUniformLocation gl self name g).2.1.m_textures = self.m_textures ∧
    (Shader.getUniformLocation gl self name g).2.2.gl = g.gl := by
  cases h : mapFind name self.m_uniforms with
  | none => rw [getUniformLocation_miss gl self name g h]; simp [Gfx.read]
  | some v => rw [getUniformLocation_hit gl self name g v h]; simp

theorem getUniformLocation_keeps (gl : OpenGL γ) (self : Shader) (name n : String) (g : Gfx γ)
    (v : Int) (h : mapFind n self.m_uniforms = some v) :
    mapFind n (Shader.getUniformLocation gl self name g).2.1.m_uniforms = some v ∧
    (Shader.getUniformLocation gl self name g).2.2.calls.countP (GLCall.isQuery n) =
      g.calls.countP (GLCall.isQuery n) := by
  cases hm : mapFind name self.m_uniforms with
  | some w => rw [getUniformLocation_hit gl self name g w hm]; exact ⟨h, rfl⟩
  | none =>
    have hne : name ≠ n := by
      intro e
      rw [e] at hm
      rw [hm] at h
      cases h
    rw [getUniformLocation_miss gl self name g hm]
    refine ⟨?_, ?_⟩
    · simp only []
      rw [mapFind_mapInsert_other name n _ _ hne]
      exact h
    · simp [Gfx.read, List.countP_append, GLCall.isQuery, hne]


theorem toGLsizei_of_lt (n : Nat) (h : n < 2 ^ 31) : toGLsizei n = (n : Int) := by
  unfold toGLsizei
  have h1 : (0 : Int) ≤ (n : Int) + 2 ^ 31 := by positivity
  have h2 : (n : Int) + 2 ^ 31 < 2 ^ 32 := by
    have : (n : Int) < 2 ^ 31 := by exact_mod_cast h
    omega
  rw [Int.emod_eq_of_lt h1 h2]
  ring

theorem setUniformSampler2D_textures (env : ShaderEnv) (gl : OpenGL γ) (self : Shader)
    (name : String) (texture : TexturePtr) (g : Gfx γ) :
    (Shader.setUniformSampler2D env gl self name texture g).1.m_textures =
      if self.m_shaderProgram = 0 then self.m_textures
      else if (Shader.getUniformLocation gl self name
          (g.call gl.ensureGlContext GLCall.ensureGlContext)).1 = -1 then self.m_textures
      else
        match mapFind (Shader.getUniformLocation gl self name
          (g.call gl.ensureGlContext GLCall.ensureGlContext)).1 self.m_textures with
        | none =>
          if self.m_textures.length + 1 ≥ toSizeT env.maxUnits then self.m_textures
          else mapAssign (Shader.getUniformLocation gl self name
            (g.call gl.ensureGlContext GLCall.ensureGlContext)).1 texture self.m_textures
        | some _ =>
          mapReplace (Shader.getUniformLocation gl self name
            (g.call gl.ensureGlContext GLCall.ensureGlContext)).1 texture self.m_textures := by
  have hf := getUniformLocation_frame gl self name
    (g.call gl.ensureGlContext GLCall.ensureGlContext)
  unfold Shader.setUniformSampler2D
  by_cases hp : self.m_shaderProgram = 0
  · simp [hp]
  · simp only [hp, ne_eq, not_false_eq_true, if_true, if_false, hf.2.2.1]
    by_cases hl : (Shader.getUniformLocation gl self name
        (g.call gl.ensureGlContext GLCall.ensureGlContext)).1 = -1
    · simp [hl, hf.2.2.1]
    · simp only [hl, not_false_eq_true, if_true, if_false]
      cases hm : mapFind (Shader.getUniformLocation gl self name
          (g.call gl.ensureGlContext GLCall.ensureGlContext)).1 self.m_textures with
      | none =>
        simp only []
        split <;> simp [hf.2.2.1]
      | some t => simp

theorem setUniformSampler2D_frame (env : ShaderEnv) (gl : OpenGL γ) (self : Shader)
    (name : String) (texture : TexturePtr) (g : Gfx γ) :
    (Shader.setUniformSampler2D env gl self name texture g).1.m_shaderProgram
        = self.m_shaderProgram ∧
    (Shader.setUniformSampler2D env gl self name texture g).1.m_currentTexture
        = self.m_currentTexture ∧
    (Shader.setUniformSampler2D env gl self name texture g).1.m_uniforms =
      if self.m_shaderProgram = 0 then self.m_uniforms
      else (Shader.getUniformLocation gl self name
          (g.call gl.ensureGlContext GLCall.ensureGlContext)).2.1.m_uniforms := by
  have hf := getUniformLocation_frame gl self name
    (g.call gl.ensureGlContext GLCall.ensureGlContext)
  unfold Shader.setUniformSampler2D
  by_cases hp : self.m_shaderProgram = 0
  · simp [hp]
  · simp only [hp, ne_eq, not_false_eq_true, if_true, if_false]
    refine ⟨?_, ?_, ?_⟩ <;>
    · split
      · split
        · split <;> simp [hf.1, hf.2.1]
        · simp [hf.1, hf.2.1]
      · simp [hf.1, hf.2.1]

theorem setUniformSampler2DCurrent_frame (gl : OpenGL γ) (self : Shader) (name : String)
    (g : Gfx γ) :
    (Shader.setUniformSampler2DCurrent gl self name g).1.m_shaderProgram
        = self.m_shaderProgram ∧
    (Shader.setUniformSampler2DCurrent gl self name g).1.m_textures = self.m_textures ∧
    (Shader.setUniformSampler2DCurrent gl self name g).1.m_uniforms =
      if self.m_shaderProgram = 0 then self.m_uniforms
      else (Shader.getUniformLocation gl self name
          (g.call gl.ensureGlContext GLCall.ensureGlContext)).2.1.m_uniforms := by
  have hf := getUniformLocation_frame gl self name
    (g.call gl.ensureGlContext GLCall.ensureGlContext)
  unfold Shader.setUniformSampler2DCurrent
  by_cases hp : self.m_shaderProgram = 0
  · simp [hp]
  · simp [hp, hf.1, hf.2.2.1]

theorem setUniformImpl_frame (gl : OpenGL γ) (self : Shader) (name : String) (g : Gfx γ) :
    (Shader.setUniformImpl gl self name g).1.m_shaderProgram = self.m_shaderProgram ∧
    (Shader.setUniformImpl gl self name g).1.m_currentTexture = self.m_currentTexture ∧
    (Shader.setUniformImpl gl self name g).1.m_textures = self.m_textures ∧
    ((Shader.setUniformImpl gl self name g).1.m_uniforms = self.m_uniforms ∨
      ∃ g1, (Shader.setUniformImpl gl self name g).1.m_uniforms =
        (Shader.getUniformLocation gl self name g1).2.1.m_uniforms) := by
  unfold Shader.setUniformImpl
  by_cases hp : self.m_shaderProgram = 0
  · simp [hp]
  · simp only [hp, ne_eq, not_false_eq_true, if_true, if_false]
    have hf := getUniformLocation_frame gl self name
      (((g.call gl.ensureGlContext GLCall.ensureGlContext).read
        (GLCall.glGetHandle GL_PROGRAM_OBJECT (gl.glGetHandle GL_PROGRAM_OBJECT
          (g.call gl.ensureGlContext GLCall.ensureGlContext).gl))).call
        (gl.glUseProgramObject self.m_shaderProgram)
        (GLCall.glUseProgramObject self.m_shaderProgram))
    exact ⟨hf.1, hf.2.1, hf.2.2.1, Or.inr ⟨_, rfl⟩⟩

theorem compile_cases (env : ShaderEnv) (gl : OpenGL γ) (self : Shader)
    (vs fs : Option String) (g : Gfx γ) :
    (env.available = false ∧ (Shader.compile env gl self vs fs g).1 = false ∧
      (Shader.compile env gl self vs fs g).2.1 = self) ∨
    (env.available = true ∧
      (Shader.compile env gl self vs fs g).2.1.m_textures = [] ∧
      (Shader.compile env gl self vs fs g).2.1.m_uniforms = [] ∧
      (Shader.compile env gl self vs fs g).2.1.m_currentTexture = -1 ∧
      ((Shader.compile env gl self vs fs g).1 = false →
        (Shader.compile env gl self vs fs g).2.1.m_shaderProgram = 0)) := by
  cases ha : env.available with
  | false => left; simp [Shader.compile, ha]
  | true =>
    right
    refine ⟨rfl, ?_⟩
    unfold Shader.compile
    simp only [ha, Bool.not_true, Bool.false_eq_true, if_false]
    split_ifs <;> simp


/-! ### Shaders: sequences of calls -/

theorem run_induction (env : ShaderEnv) (gl : OpenGL γ) (P : Shader → Prop)
    (hstep : ∀ (c : ShaderCall) (st : Shader × Gfx γ), P st.1 → P (Shader.step env gl c st).1) :
    ∀ (cs : List ShaderCall) (st : Shader × Gfx γ), P st.1 → P (Shader.run env gl cs st).1 := by
  intro cs
  induction cs with
  | nil => intro st h; exact h
  | cons c cs ih =>
    intro st h
    simp only [Shader.run]
    exact ih _ (hstep c st h)

theorem step_textures_bounded (env : ShaderEnv) (gl : OpenGL γ) (h1 : 1 ≤ env.maxUnits)
    (h2 : env.maxUnits < 2 ^ 31) (c : ShaderCall) (st : Shader × Gfx γ)
    (hb : (st.1.m_textures.length : Int) ≤ env.maxUnits - 1 ∧
      (st.1.m_textures.map Prod.fst).Pairwise (fun a b => a < b)) :
    ((Shader.step env gl c st).1.m_textures.length : Int) ≤ env.maxUnits - 1 ∧
      ((Shader.step env gl c st).1.m_textures.map Prod.fst).Pairwise (fun a b => a < b) := by
  have h1i : (1 : Int) ≤ env.maxUnits := h1
  have hbi : (st.1.m_textures.length : Int) ≤ (env.maxUnits : Int) - 1 := hb.1
  cases c with
  | compile v f =>
    simp only [Shader.step]
    rcases compile_cases env gl st.1 v f st.2 with ⟨_, _, h⟩ | ⟨_, h, _⟩
    · rw [h]; exact hb
    · rw [h]
      refine ⟨?_, List.Pairwise.nil⟩
      simp only [List.length_nil, Nat.cast_zero]
      show (0 : Int) ≤ (env.maxUnits : Int) - 1
      omega
  | setUniformSampler2D name texture =>
    simp only [Shader.step]
    rw [setUniformSampler2D_textures]
    split
    · exact hb
    · split
      · exact hb
      · split
        · rename_i hm
          split
          · exact hb
          · rename_i hlt
            have h0 : (0 : Int) ≤ env.maxUnits := by omega
            rw [toSizeT_of_range env.maxUnits h0 h2] at hlt
            refine ⟨?_, (keys_mapAssign_sorted _ _ _ hb.2).1⟩
            rw [length_mapAssign _ _ _ hm]
            have h3 : st.1.m_textures.length + 1 < env.maxUnits.toNat := by omega
            have h4 : ((st.1.m_textures.length + 1 : Nat) : Int) < (env.maxUnits : Int) := by
              omega
            show ((st.1.m_textures.length + 1 : Nat) : Int) ≤ (env.maxUnits : Int) - 1
            omega
        · rw [length_mapReplace, keys_mapReplace]
          exact hb
  | setUniformSampler2DCurrent name =>
    simp only [Shader.step]
    rw [(setUniformSampler2DCurrent_frame gl st.1 name st.2).2.1]
    exact hb
  | setUniform name =>
    simp only [Shader.step]
    rw [(setUniformImpl_frame gl st.1 name st.2).2.2.1]
    exact hb

theorem run_textures_bounded (env : ShaderEnv) (gl : OpenGL γ) (h1 : 1 ≤ env.maxUnits)
    (h2 : env.maxUnits < 2 ^ 31) (cs : List ShaderCall) (g0 : Gfx γ) :
    ((Shader.run env gl cs (Shader.construct, g0)).1.m_textures.length : Int)
        ≤ env.maxUnits - 1 ∧
      ((Shader.run env gl cs (Shader.construct, g0)).1.m_textures.map Prod.fst).Pairwise
        (fun a b => a < b) := by
  refine run_induction env gl
    (fun sh => (sh.m_textures.length : Int) ≤ env.maxUnits - 1 ∧
      (sh.m_textures.map Prod.fst).Pairwise (fun a b => a < b))
    (fun c st h => step_textures_bounded env gl h1 h2 c st h) cs (Shader.construct, g0) ?_
  have h1i : (1 : Int) ≤ env.maxUnits := h1
  refine ⟨?_, List.Pairwise.nil⟩
  simp only [Shader.construct, List.length_nil, Nat.cast_zero]
  show (0 : Int) ≤ (env.maxUnits : Int) - 1
  omega

theorem bindCalls_nil (i : Nat) : bindCalls [] i = [] := by
  simp [bindCalls, List.enumFrom]

theorem bindCalls_cons (l : Int) (t : TexturePtr) (rest : TextureTable) (i : Nat) :
    bindCalls ((l, t) :: rest) i =
      [GLCall.glUniform1i l (toGLsizei (i + 1)),
       GLCall.glActiveTexture (GL_TEXTURE0 + toGLsizei (i + 1)),
       GLCall.textureBind t] ++ bindCalls rest (i + 1) := by
  simp [bindCalls, List.enumFrom, List.flatMap_cons]

theorem bindLoop_eq (gl : OpenGL γ) (m : TextureTable) (i : Nat) (g : Gfx γ) :
    (Shader.bindLoop gl m i g).calls = g.calls ++ bindCalls m i := by
  induction m generalizing i g with
  | nil => simp [Shader.bindLoop, bindCalls_nil]
  | cons e rest ih =>
    obtain ⟨l, t⟩ := e
    simp only [Shader.bindLoop]
    rw [ih, bindCalls_cons]
    simp [Gfx.call]

theorem mem_bindCalls (m : TextureTable) (i : Nat) (c : GLCall) (hc : c ∈ bindCalls m i) :
    ∃ j, j < m.length ∧
      ((∃ l, c = GLCall.glUniform1i l (toGLsizei (i + j + 1))) ∨
       c = GLCall.glActiveTexture (GL_TEXTURE0 + toGLsizei (i + j + 1)) ∨
       ∃ t, c = GLCall.textureBind t) := by
  induction m generalizing i with
  | nil => simp [bindCalls_nil] at hc
  | cons e rest ih =>
    obtain ⟨l, t⟩ := e
    rw [bindCalls_cons] at hc
    rcases List.mem_append.mp hc with h | h
    · refine ⟨0, by simp, ?_⟩
      simp only [List.mem_cons, List.mem_singleton, List.not_mem_nil, or_false] at h
      rcases h with h | h | h
      · exact Or.inl ⟨l, h⟩
      · exact Or.inr (Or.inl h)
      · exact Or.inr (Or.inr ⟨t, h⟩)
    · obtain ⟨j, hj, h3⟩ := ih (i + 1) h
      refine ⟨j + 1, by simp [hj], ?_⟩
      have e : i + (j + 1) + 1 = i + 1 + j + 1 := by omega
      rw [e]
      exact h3

theorem bindCalls_entry (m : TextureTable) (i j : Nat) (hj : j < m.length) :
    ((bindCalls m i).drop (3 * j)).take 3 =
      [GLCall.glUniform1i (m.get ⟨j, hj⟩).1 (toGLsizei (i + j + 1)),
       GLCall.glActiveTexture (GL_TEXTURE0 + toGLsizei (i + j + 1)),
       GLCall.textureBind (m.get ⟨j, hj⟩).2] := by
  induction m generalizing i j with
  | nil => simp at hj
  | cons e rest ih =>
    obtain ⟨l, t⟩ := e
    rw [bindCalls_cons]
    cases j with
    | zero => simp
    | succ k =>
      have hk : k < rest.length := by simpa using hj
      have e3 : 3 * (k + 1) = 3 + 3 * k := by omega
      have e4 : i + (k + 1) + 1 = i + 1 + k + 1 := by omega
      rw [e3, e4, ← List.drop_drop]
      simp only [List.cons_append, List.nil_append, List.drop_succ_cons, List.drop_zero]
      simpa using ih (i + 1) k hk


/-! ### Claims about the texture table of a shader -/

/-- C26. Texture-unit bound.  Let the device report at least one texture unit
(`maxUnits` is a `GLint`).  In every state a shader reaches from its
constructor by calls of `compile`, of the two `setUniformSampler2D` overloads
and of the other `setUniform*` members, the texture table holds at most
`maxUnits - 1` entries, at pairwise different locations.  A call of
`setUniformSampler2D` with a texture, on a shader with a program and for a
uniform that is found, inserts a location that is not in the table exactly when
the size of the table plus one is below `maxUnits`, and otherwise leaves the
table as it is; for a location that is in the table it replaces the texture of
that entry and nothing else.  `bindTextures` on a reachable shader makes, for
the entry at position `j`, the calls `glUniform1i(location, j + 1)`,
`glActiveTexture(GL_TEXTURE0 + j + 1)` and `Texture::bind`, in this order, and
ends with `glActiveTexture(GL_TEXTURE0)`: the units used for the table are
between 1 and `maxUnits - 1`, and no texture is bound to unit 0. -/
theorem texture_table_bounded (env : ShaderEnv) (gl : OpenGL γ)
    (h1 : 1 ≤ env.maxUnits) (h2 : env.maxUnits < 2 ^ 31) :
    (∀ (cs : List ShaderCall) (g0 : Gfx γ),
      ((Shader.run env gl cs (Shader.construct, g0)).1.m_textures.length : Int)
          ≤ env.maxUnits - 1 ∧
      ((Shader.run env gl cs (Shader.construct, g0)).1.m_textures.map Prod.fst).Pairwise
          (fun a b => a < b)) ∧
    (∀ (self : Shader) (name : String) (texture : TexturePtr) (g : Gfx γ) (location : Int),
      location = (Shader.getUniformLocation gl self name
        (g.call gl.ensureGlContext GLCall.ensureGlContext)).1 →
      (self.m_shaderProgram = 0 ∨ location = -1 →
        (Shader.setUniformSampler2D env gl self name texture g).1.m_textures
          = self.m_textures) ∧
      (self.m_shaderProgram ≠ 0 → location ≠ -1 →
        (mapFind location self.m_textures = none →
          (self.m_textures.length : Int) + 1 < env.maxUnits →
          (Shader.setUniformSampler2D env gl self name texture g).1.m_textures
            = mapAssign location texture self.m_textures ∧
          (Shader.setUniformSampler2D env gl self name texture g).1.m_textures.length
            = self.m_textures.length + 1 ∧
          mapFind location (Shader.setUniformSampler2D env gl self name texture g).1.m_textures
            = some texture ∧
          ∀ k : Int, k ≠ location →
            mapFind k (Shader.setUniformSampler2D env gl self name texture g).1.m_textures
              = mapFind k self.m_textures) ∧
        (mapFind location self.m_textures = none →
          env.maxUnits ≤ (self.m_textures.length : Int) + 1 →
          (Shader.setUniformSampler2D env gl self name texture g).1.m_textures
            = self.m_textures) ∧
        (∀ t : TexturePtr, mapFind location self.m_textures = some t →
          (Shader.setUniformSampler2D env gl self name texture g).1.m_textures.length
            = self.m_textures.length ∧
          (Shader.setUniformSampler2D env gl self name texture g).1.m_textures.map Prod.fst
            = self.m_textures.map Prod.fst ∧
          mapFind location (Shader.setUniformSampler2D env gl self name texture g).1.m_textures
            = some texture ∧
          ∀ k : Int, k ≠ location →
            mapFind k (Shader.setUniformSampler2D env gl self name texture g).1.m_textures
              = mapFind k self.m_textures))) ∧
    (∀ (cs : List ShaderCall) (g0 g : Gfx γ) (table : TextureTable),
      table = (Shader.run env gl cs (Shader.construct, g0)).1.m_textures →
      (Shader.bindTextures gl (Shader.run env gl cs (Shader.construct, g0)).1 g).calls
        = g.calls ++ bindCalls table 0 ++ [GLCall.glActiveTexture GL_TEXTURE0] ∧
      (∀ (j : Nat) (hj : j < table.length),
        ((bindCalls table 0).drop (3 * j)).take 3 =
          [GLCall.glUniform1i (table.get ⟨j, hj⟩).1 ((j : Int) + 1),
           GLCall.glActiveTexture (GL_TEXTURE0 + ((j : Int) + 1)),
           GLCall.textureBind (table.get ⟨j, hj⟩).2]) ∧
      (∀ (l v : GLint), GLCall.glUniform1i l v ∈ bindCalls table 0 →
        1 ≤ v ∧ v ≤ env.maxUnits - 1) ∧
      (∀ u : GLenum, GLCall.glActiveTexture u ∈ bindCalls table 0 →
        GL_TEXTURE0 + 1 ≤ u ∧ u ≤ GL_TEXTURE0 + (env.maxUnits - 1))) := by
  have h1i : (1 : Int) ≤ env.maxUnits := h1
  have h2i : (2147483648 : Int) > env.maxUnits := by
    have h := h2
    norm_num at h
    exact h
  have h0 : (0 : Int) ≤ env.maxUnits := by omega
  refine ⟨fun cs g0 => run_textures_bounded env gl h1 h2 cs g0, ?_, ?_⟩
  · intro self name texture g location hloc
    subst hloc
    refine ⟨?_, ?_⟩
    · intro h
      rw [setUniformSampler2D_textures]
      rcases h with h | h
      · simp [h]
      · simp [h]
    · intro hp hl
      have hsz : ((toSizeT env.maxUnits : Nat) : Int) = (env.maxUnits : Int) := by
        rw [toSizeT_of_range env.maxUnits h0 h2]
        exact Int.toNat_of_nonneg h0
      refine ⟨?_, ?_, ?_⟩
      · intro hm hlt
        have hlt2 : ¬ (self.m_textures.length + 1 ≥ toSizeT env.maxUnits) := by
          intro hge
          have h5 : ((toSizeT env.maxUnits : Nat) : Int)
              ≤ ((self.m_textures.length + 1 : Nat) : Int) := by exact_mod_cast hge
          rw [hsz] at h5
          have h6 : ((self.m_textures.length : Int) + 1) < (env.maxUnits : Int) := hlt
          push_cast at h5
          omega
        have e : (Shader.setUniformSampler2D env gl self name texture g).1.m_textures
            = mapAssign (Shader.getUniformLocation gl self name
                (g.call gl.ensureGlContext GLCall.ensureGlContext)).1 texture self.m_textures := by
          rw [setUniformSampler2D_textures]
          simp only [hp, hl, if_false, hm, hlt2]
        rw [e]
        exact ⟨rfl, length_mapAssign _ _ _ hm, mapFind_mapAssign_self _ _ _,
          fun k hk => mapFind_mapAssign_other _ _ _ _ (fun e2 => hk e2.symm)⟩
      · intro hm hge
        have hge2 : self.m_textures.length + 1 ≥ toSizeT env.maxUnits := by
          have h6 : (env.maxUnits : Int) ≤ (self.m_textures.length : Int) + 1 := hge
          have h5 : ((toSizeT env.maxUnits : Nat) : Int)
              ≤ ((self.m_textures.length + 1 : Nat) : Int) := by
            rw [hsz]
            push_cast
            exact h6
          exact_mod_cast h5
        rw [setUniformSampler2D_textures]
        simp only [hp, hl, if_false, hm, hge2, if_true]
      · intro t hm
        have e : (Shader.setUniformSampler2D env gl self name texture g).1.m_textures
            = mapReplace (Shader.getUniformLocation gl self name
                (g.call gl.ensureGlContext GLCall.ensureGlContext)).1 texture self.m_textures := by
          rw [setUniformSampler2D_textures]
          simp only [hp, hl, if_false, hm]
        rw [e]
        exact ⟨length_mapReplace _ _ _, keys_mapReplace _ _ _,
          mapFind_mapReplace_self _ _ _ _ hm,
          fun k hk => mapFind_mapReplace_other _ _ _ _ (fun e2 => hk e2.symm)⟩
  · intro cs g0 g table htable
    have hb := (run_textures_bounded env gl h1 h2 cs g0).1
    rw [← htable] at hb
    have hbi : (table.length : Int) ≤ (env.maxUnits : Int) - 1 := hb
    have hunit : ∀ j : Nat, j < table.length → toGLsizei (0 + j + 1) = (j : Int) + 1 := by
      intro j hj
      have hlt : 0 + j + 1 < 2 ^ 31 := by
        have h7 : 0 + j + 1 < 2147483648 := by omega
        norm_num
        omega
      rw [toGLsizei_of_lt _ hlt]
      push_cast
      ring
    refine ⟨?_, ?_, ?_, ?_⟩
    · unfold Shader.bindTextures
      simp only [Gfx.call]
      rw [bindLoop_eq, ← htable]
    · intro j hj
      rw [bindCalls_entry table 0 j hj, hunit j hj]
    · intro l v hmem
      obtain ⟨j, hj, h3⟩ := mem_bindCalls table 0 _ hmem
      rw [hunit j hj] at h3
      rcases h3 with ⟨l2, h3⟩ | h3 | ⟨t, h3⟩
      · injection h3 with _ hv
        rw [hv]
        constructor
        · show (1 : Int) ≤ (j : Int) + 1
          omega
        · show (j : Int) + 1 ≤ (env.maxUnits : Int) - 1
          omega
      · cases h3
      · cases h3
    · intro u hmem
      obtain ⟨j, hj, h3⟩ := mem_bindCalls table 0 _ hmem
      rw [hunit j hj] at h3
      rcases h3 with ⟨l2, h3⟩ | h3 | ⟨t, h3⟩
      · cases h3
      · injection h3 with hu
        rw [hu]
        constructor
        · show (0x84C0 : Int) + 1 ≤ 0x84C0 + ((j : Int) + 1)
          omega
        · show (0x84C0 : Int) + ((j : Int) + 1) ≤ 0x84C0 + ((env.maxUnits : Int) - 1)
          omega
      · cases h3

/-- Run of C26 with three texture units: of the three new locations the third
is rejected, the texture of `tex` is replaced, and the two entries are bound to
the units 1 and 2. -/
theorem texture_table_bounded_witness :
    (1 : Int) ≤ threeUnits.maxUnits ∧ threeUnits.maxUnits < 2 ^ 31 ∧
    (Shader.run threeUnits canvasGL fourSamplers (Shader.construct, blankCanvas)).1.m_textures
      = [(2, 11), (4, 13)] ∧
    ((Shader.run threeUnits canvasGL fourSamplers
      (Shader.construct, blankCanvas)).1.m_textures.length : Int) ≤ threeUnits.maxUnits - 1 ∧
    (Shader.bindTextures canvasGL
      (Shader.run threeUnits canvasGL fourSamplers (Shader.construct, blankCanvas)).1
      blankCanvas).calls
      = [GLCall.glUniform1i 2 1, GLCall.glActiveTexture (GL_TEXTURE0 + 1), GLCall.textureBind 11,
         GLCall.glUniform1i 4 2, GLCall.glActiveTexture (GL_TEXTURE0 + 2), GLCall.textureBind 13,
         GLCall.glActiveTexture GL_TEXTURE0] :=
  ⟨by decide, by decide, by decide,
    ((texture_table_bounded threeUnits canvasGL (by decide) (by decide)).1
      fourSamplers blankCanvas).1,
    by decide⟩



/-! ### Shaders: the table of uniform locations -/

theorem getUniformLocation_counts (gl : OpenGL γ) (self : Shader) (name n : String)
    (g : Gfx γ) (hne : name ≠ n) :
    (Shader.getUniformLocation gl self name g).2.2.calls.countP (GLCall.isQuery n) =
      g.calls.countP (GLCall.isQuery n) := by
  cases hm : mapFind name self.m_uniforms with
  | some w => rw [getUniformLocation_hit gl self name g w hm]
  | none =>
    rw [getUniformLocation_miss gl self name g hm]
    simp [Gfx.read, List.countP_append, GLCall.isQuery, hne]

theorem step_keeps_location (env : ShaderEnv) (gl : OpenGL γ) (c : ShaderCall)
    (st : Shader × Gfx γ) (n : String) (v : Int) (hc : c.isCompile = false)
    (h : mapFind n st.1.m_uniforms = some v) :
    mapFind n (Shader.step env gl c st).1.m_uniforms = some v ∧
    (Shader.step env gl c st).2.calls.countP (GLCall.isQuery n) =
      st.2.calls.countP (GLCall.isQuery n) := by
  cases c with
  | compile vs fs => simp [ShaderCall.isCompile] at hc
  | setUniformSampler2D name texture =>
    simp only [Shader.step]
    have hk := getUniformLocation_keeps gl st.1 name n
      (st.2.call gl.ensureGlContext GLCall.ensureGlContext) v h
    unfold Shader.setUniformSampler2D
    by_cases hp : st.1.m_shaderProgram = 0
    · simp [hp, h]
    · simp only [hp, ne_eq, not_false_eq_true, if_true]
      have hcnt : (st.2.call gl.ensureGlContext GLCall.ensureGlContext).calls.countP
          (GLCall.isQuery n) = st.2.calls.countP (GLCall.isQuery n) := by
        simp [Gfx.call, List.countP_append, GLCall.isQuery]
      rw [hcnt] at hk
      split_ifs <;> first | exact hk | (split <;> exact hk)
  | setUniformSampler2DCurrent name =>
    simp only [Shader.step]
    have hk := getUniformLocation_keeps gl st.1 name n
      (st.2.call gl.ensureGlContext GLCall.ensureGlContext) v h
    unfold Shader.setUniformSampler2DCurrent
    by_cases hp : st.1.m_shaderProgram = 0
    · simp [hp, h]
    · simp only [hp, ne_eq, not_false_eq_true, if_true]
      have hcnt : (st.2.call gl.ensureGlContext GLCall.ensureGlContext).calls.countP
          (GLCall.isQuery n) = st.2.calls.countP (GLCall.isQuery n) := by
        simp [Gfx.call, List.countP_append, GLCall.isQuery]
      rw [hcnt] at hk
      exact hk
  | setUniform name =>
    simp only [Shader.step]
    unfold Shader.setUniformImpl
    by_cases hp : st.1.m_shaderProgram = 0
    · simp [hp, h]
    · simp only [hp, ne_eq, not_false_eq_true, if_true]
      have hk := getUniformLocation_keeps gl st.1 name n
        (((st.2.call gl.ensureGlContext GLCall.ensureGlContext).read
          (GLCall.glGetHandle GL_PROGRAM_OBJECT (gl.glGetHandle GL_PROGRAM_OBJECT
            (st.2.call gl.ensureGlContext GLCall.ensureGlContext).gl))).call
          (gl.glUseProgramObject st.1.m_shaderProgram)
          (GLCall.glUseProgramObject st.1.m_shaderProgram)) v h
      refine ⟨hk.1, ?_⟩
      have hk2 := hk.2
      simp only [Gfx.call, Gfx.read, List.countP_append] at hk2 ⊢
      split_ifs <;> simp [List.countP_append, GLCall.isQuery] at hk2 ⊢ <;> exact hk2

theorem run_keeps_location (env : ShaderEnv) (gl : OpenGL γ) (n : String) (v : Int) :
    ∀ (cs : List ShaderCall) (st : Shader × Gfx γ), (∀ c ∈ cs, c.isCompile = false) →
      mapFind n st.1.m_uniforms = some v →
      mapFind n (Shader.run env gl cs st).1.m_uniforms = some v ∧
      (Shader.run env gl cs st).2.calls.countP (GLCall.isQuery n) =
        st.2.calls.countP (GLCall.isQuery n) := by
  intro cs
  induction cs with
  | nil => intro st _ h; exact ⟨h, rfl⟩
  | cons c cs ih =>
    intro st hcs h
    have hc := hcs c (List.mem_cons_self c cs)
    have hs := step_keeps_location env gl c st n v hc h
    have hr := ih (Shader.step env gl c st) (fun d hd => hcs d (List.mem_cons_of_mem c hd)) hs.1
    simp only [Shader.run]
    exact ⟨hr.1, hr.2.trans hs.2⟩

theorem step_unavailable (env : ShaderEnv) (gl : OpenGL γ) (ha : env.available = false)
    (c : ShaderCall) (st : Shader × Gfx γ) (h : st.1 = Shader.construct) :
    (Shader.step env gl c st).1 = Shader.construct := by
  cases c with
  | compile vs fs =>
    simp only [Shader.step]
    rcases compile_cases env gl st.1 vs fs st.2 with ⟨_, _, h3⟩ | ⟨h3, _⟩
    · rw [h3]; exact h
    · rw [ha] at h3; cases h3
  | setUniformSampler2D name texture =>
    simp [Shader.step, Shader.setUniformSampler2D, h, Shader.construct]
  | setUniformSampler2DCurrent name =>
    simp [Shader.step, Shader.setUniformSampler2DCurrent, h, Shader.construct]
  | setUniform name =>
    simp [Shader.step, Shader.setUniformImpl, h, Shader.construct]

theorem run_unavailable (env : ShaderEnv) (gl : OpenGL γ) (ha : env.available = false)
    (cs : List ShaderCall) (g0 : Gfx γ) :
    (Shader.run env gl cs (Shader.construct, g0)).1 = Shader.construct :=
  run_induction env gl (fun sh => sh = Shader.construct)
    (fun c st h => step_unavailable env gl ha c st h) cs (Shader.construct, g0) rfl

theorem compile_clears (env : ShaderEnv) (gl : OpenGL γ) (cs : List ShaderCall)
    (g0 g : Gfx γ) (vs fs : Option String) :
    (Shader.compile env gl (Shader.run env gl cs (Shader.construct, g0)).1 vs fs g).2.1.m_uniforms
      = [] ∧
    (Shader.compile env gl (Shader.run env gl cs (Shader.construct, g0)).1 vs fs g).2.1.m_textures
      = [] ∧
    (Shader.compile env gl
      (Shader.run env gl cs (Shader.construct, g0)).1 vs fs g).2.1.m_currentTexture = -1 ∧
    ((Shader.compile env gl (Shader.run env gl cs (Shader.construct, g0)).1 vs fs g).1 = false →
      (Shader.compile env gl
        (Shader.run env gl cs (Shader.construct, g0)).1 vs fs g).2.1.m_shaderProgram = 0) := by
  rcases compile_cases env gl (Shader.run env gl cs (Shader.construct, g0)).1 vs fs g with
    ⟨ha, _, h3⟩ | ⟨_, h1, h2, h3, h4⟩
  · rw [h3, run_unavailable env gl ha cs g0]
    simp [Shader.construct]
  · exact ⟨h2, h1, h3, h4⟩


/-! ### Claims about the table of uniform locations -/

/-- C27. Uniform-location cache.  Right after `compile` has returned, on a
shader reached from its constructor by any calls of `compile` and of the
`setUniform*` members, the table of uniform locations, the texture table and
the location of the current texture are reset (empty, empty, `-1`), whatever
`compile` returns; a compilation that fails leaves no program.  A call of
`getUniformLocation(name)` on a shader without an entry for `name`, so the
first one after `compile`, asks the device exactly once, returns the answer
and stores it under `name`, whatever the answer is, `-1` included.  A call on a
shader with an entry for `name` returns the stored value and changes neither
the shader nor the device nor the calls made.  After any further calls other
than `compile` the entry is still there: `getUniformLocation(name)` still
returns the stored value, and the device has not been asked for `name`
again. -/
theorem uniform_location_cache (env : ShaderEnv) (gl : OpenGL γ) :
    (∀ (cs : List ShaderCall) (g0 g1 g : Gfx γ) (vs fs : Option String) (name : String)
        (sh : Shader),
      sh = (Shader.compile env gl
        (Shader.run env gl cs (Shader.construct, g0)).1 vs fs g1).2.1 →
      sh.m_uniforms = [] ∧ sh.m_textures = [] ∧ sh.m_currentTexture = -1 ∧
      ((Shader.compile env gl
        (Shader.run env gl cs (Shader.construct, g0)).1 vs fs g1).1 = false →
        sh.m_shaderProgram = 0) ∧
      (Shader.getUniformLocation gl sh name g).1
        = gl.glGetUniformLocation sh.m_shaderProgram name g.gl ∧
      (Shader.getUniformLocation gl sh name g).2.2.calls
        = g.calls ++ [GLCall.glGetUniformLocation sh.m_shaderProgram name
            (gl.glGetUniformLocation sh.m_shaderProgram name g.gl)] ∧
      mapFind name (Shader.getUniformLocation gl sh name g).2.1.m_uniforms
        = some (gl.glGetUniformLocation sh.m_shaderProgram name g.gl)) ∧
    (∀ (self : Shader) (name : String) (g : Gfx γ),
      mapFind name self.m_uniforms = none →
      (Shader.getUniformLocation gl self name g).1
        = gl.glGetUniformLocation self.m_shaderProgram name g.gl ∧
      (Shader.getUniformLocation gl self name g).2.2.gl = g.gl ∧
      (Shader.getUniformLocation gl self name g).2.2.calls
        = g.calls ++ [GLCall.glGetUniformLocation self.m_shaderProgram name
            (gl.glGetUniformLocation self.m_shaderProgram name g.gl)] ∧
      (Shader.getUniformLocation gl self name g).2.2.calls.countP (GLCall.isQuery name)
        = g.calls.countP (GLCall.isQuery name) + 1 ∧
      mapFind name (Shader.getUniformLocation gl self name g).2.1.m_uniforms
        = some (gl.glGetUniformLocation self.m_shaderProgram name g.gl) ∧
      (∀ n : String, n ≠ name →
        mapFind n (Shader.getUniformLocation gl self name g).2.1.m_uniforms
          = mapFind n self.m_uniforms)) ∧
    (∀ (self : Shader) (name : String) (g : Gfx γ) (v : Int),
      mapFind name self.m_uniforms = some v →
      Shader.getUniformLocation gl self name g = (v, self, g)) ∧
    (∀ (cs : List ShaderCall) (self : Shader) (g : Gfx γ) (name : String) (v : Int),
      (∀ c ∈ cs, c.isCompile = false) →
      mapFind name self.m_uniforms = some v →
      Shader.getUniformLocation gl (Shader.run env gl cs (self, g)).1 name
          (Shader.run env gl cs (self, g)).2
        = (v, (Shader.run env gl cs (self, g)).1, (Shader.run env gl cs (self, g)).2) ∧
      (Shader.run env gl cs (self, g)).2.calls.countP (GLCall.isQuery name)
        = g.calls.countP (GLCall.isQuery name)) := by
  have hmiss : ∀ (self : Shader) (name : String) (g : Gfx γ),
      mapFind name self.m_uniforms = none →
      (Shader.getUniformLocation gl self name g).1
        = gl.glGetUniformLocation self.m_shaderProgram name g.gl ∧
      (Shader.getUniformLocation gl self name g).2.2.gl = g.gl ∧
      (Shader.getUniformLocation gl self name g).2.2.calls
        = g.calls ++ [GLCall.glGetUniformLocation self.m_shaderProgram name
            (gl.glGetUniformLocation self.m_shaderProgram name g.gl)] ∧
      (Shader.getUniformLocation gl self name g).2.2.calls.countP (GLCall.isQuery name)
        = g.calls.countP (GLCall.isQuery name) + 1 ∧
      mapFind name (Shader.getUniformLocation gl self name g).2.1.m_uniforms
        = some (gl.glGetUniformLocation self.m_shaderProgram name g.gl) ∧
      (∀ n : String, n ≠ name →
        mapFind n (Shader.getUniformLocation gl self name g).2.1.m_uniforms
          = mapFind n self.m_uniforms) := by
    intro self name g h
    rw [getUniformLocation_miss gl self name g h]
    refine ⟨rfl, rfl, rfl, ?_, ?_, ?_⟩
    · simp [Gfx.read, List.countP_append, GLCall.isQuery]
    · exact mapFind_mapInsert_self _ _ _ h
    · intro n hn
      exact mapFind_mapInsert_other _ _ _ _ (fun e => hn e.symm)
  refine ⟨?_, hmiss, ?_, ?_⟩
  · intro cs g0 g1 g vs fs name sh hsh
    have hc := compile_clears env gl cs g0 g1 vs fs
    rw [← hsh] at hc
    have hnone : mapFind name sh.m_uniforms = none := by
      rw [hc.1]
      rfl
    have hm := hmiss sh name g hnone
    exact ⟨hc.1, hc.2.1, hc.2.2.1, hc.2.2.2, hm.1, hm.2.2.1, hm.2.2.2.2.1⟩
  · intro self name g v h
    exact getUniformLocation_hit gl self name g v h
  · intro cs self g name v hcs h
    have hr := run_keeps_location env gl name v cs (self, g) hcs h
    exact ⟨getUniformLocation_hit gl _ name _ v hr.1, hr.2⟩

/-- Run of C27 on the canvas: the name `absent` is not found, `-1` is stored,
and the later calls return `-1` with one request to the device in all; with
shaders unavailable `compile` fails and the tables are empty. -/
theorem uniform_location_cache_witness :
    (∀ c ∈ laterLookups, c.isCompile = false) ∧
    mapFind "absent"
      (Shader.run threeUnits canvasGL firstLookup (Shader.construct, blankCanvas)).1.m_uniforms
      = some (-1) ∧
    (Shader.getUniformLocation canvasGL
      (Shader.run threeUnits canvasGL laterLookups
        (Shader.run threeUnits canvasGL firstLookup (Shader.construct, blankCanvas))).1
      "absent"
      (Shader.run threeUnits canvasGL laterLookups
        (Shader.run threeUnits canvasGL firstLookup (Shader.construct, blankCanvas))).2).1
      = -1 ∧
    (Shader.run threeUnits canvasGL laterLookups
      (Shader.run threeUnits canvasGL firstLookup
        (Shader.construct, blankCanvas))).2.calls.countP (GLCall.isQuery "absent") = 1 ∧
    (Shader.compile noShaders canvasGL
      (Shader.run noShaders canvasGL (firstLookup ++ laterLookups)
        (Shader.construct, blankCanvas)).1 (some "void main() {}") none blankCanvas).1 = false ∧
    (Shader.compile noShaders canvasGL
      (Shader.run noShaders canvasGL (firstLookup ++ laterLookups)
        (Shader.construct, blankCanvas)).1 (some "void main() {}") none blankCanvas).2.1.m_uniforms
      = [] :=
  have hlater : ∀ c ∈ laterLookups, c.isCompile = false := by decide
  have hfirst : mapFind "absent"
      (Shader.run threeUnits canvasGL firstLookup (Shader.construct, blankCanvas)).1.m_uniforms
      = some (-1) := by decide
  have hrun := (uniform_location_cache threeUnits canvasGL).2.2.2 laterLookups
    (Shader.run threeUnits canvasGL firstLookup (Shader.construct, blankCanvas)).1
    (Shader.run threeUnits canvasGL firstLookup (Shader.construct, blankCanvas)).2
    "absent" (-1) hlater hfirst
  ⟨hlater, hfirst, congrArg Prod.fst hrun.1, hrun.2.trans (by decide), by decide,
    ((uniform_location_cache noShaders canvasGL).1 (firstLookup ++ laterLookups)
      blankCanvas blankCanvas blankCanvas (some "void main() {}") none "absent" _ rfl).1⟩


end sf
